import Mathlib

/-!
# Valgrind on NetBSD: initial image and syscall wrappers

A shallow embedding of parts of `coregrind/m_initimg/initimg-netbsd.c` and
`coregrind/m_syswrap/syswrap-netbsd.c` (amd64 only, as in the source, which
rejects every other architecture), with theorems about the embedded code.

Conventions.
* A C string is the list of its characters before the terminating NUL.
* `Addr`, `SizeT`, `UWord` are 64-bit: they are naturals, reduced modulo `2^64`
  where the C arithmetic can wrap.  `unsigned` is reduced modulo `2^32`.
* `Int` lengths of environment strings are naturals: the strings handled are
  far shorter than `2^31`.
* A failed `vg_assert` aborts the engine; the models return that as an
  outcome of its own.
-/

namespace Valgrind

/-! ## Basic types and library functions -/

abbrev HChar := Char
abbrev CStr := List HChar

/-- The terminating NUL of a C string. -/
def NUL : HChar := Char.ofNat 0

/-- `VG_(strlen)`. -/
def VG_strlen (s : CStr) : Nat := s.length

/-- `VG_(snprintf)(buf, size, ...)`, given the fully formatted text: at most
`size - 1` characters are stored, followed by NUL. -/
def VG_snprintf (size : Nat) (text : CStr) : CStr := text.take (size - 1)

/-- `VG_(memcmp)(s1, s2, n) == 0` on the NUL-terminated buffers holding `s1`
and `s2`: the first `n` bytes agree.  The comparison stops at the first
difference, so nothing beyond a differing NUL is read. -/
def VG_memcmp_eq0 (s1 s2 : CStr) (n : Nat) : Bool :=
  decide ((s1 ++ [NUL]).take n = (s2 ++ [NUL]).take n)

/-- `sizeof(const HChar*)` on amd64. -/
def sizeof_ptr : Nat := 8

/-- The macro `VALGRIND_LAUNCHER` of `pub_core_libcproc.h`. -/
def VALGRIND_LAUNCHER : CStr := "VALGRIND_LAUNCHER".toList

/-! ## `setup_client_env` -/

/-- The local `preload_core`. -/
def preload_core : CStr := "vgpreload_core".toList

/-- The local `ld_preload`. -/
def ld_preload : CStr := "LD_PRELOAD=".toList

/-- The local `v_launcher`. -/
def v_launcher : CStr := VALGRIND_LAUNCHER ++ "=".toList

/-- What `setup_client_env` reads besides its two arguments: the global
`VG_(libdir)`, the string macro `VG_PLATFORM`, and `VG_(access)(path, r) == 0`
as a function of the path. -/
structure EnvCfg where
  libdir : CStr
  platform : CStr
  readable : CStr → Bool

/-- The local `preload_core_path_len`; `sizeof(preload_core)` is the size of
a pointer and `sizeof(VG_PLATFORM)` counts the NUL. -/
def preload_core_path_len (c : EnvCfg) : Nat :=
  VG_strlen c.libdir + sizeof_ptr + (VG_strlen c.platform + 1) + 16

/-- The local `preload_tool_path_len`. -/
def preload_tool_path_len (c : EnvCfg) (toolname : CStr) : Nat :=
  VG_strlen c.libdir + VG_strlen toolname + (VG_strlen c.platform + 1) + 16

/-- The local `preload_string_len`. -/
def preload_string_len (c : EnvCfg) (toolname : CStr) : Nat :=
  preload_core_path_len c + preload_tool_path_len c toolname

/-- The buffer `preload_tool_path` after its `snprintf`:
`"%s/vgpreload_%s-%s.so"`. -/
def preload_tool_path (c : EnvCfg) (toolname : CStr) : CStr :=
  VG_snprintf (preload_tool_path_len c toolname)
    (c.libdir ++ "/vgpreload_".toList ++ toolname ++ "-".toList ++ c.platform ++ ".so".toList)

/-- The buffer `preload_string` after the `snprintf` of the branch taken:
`"%s/%s-%s.so:%s"` when the tool's preload file is readable, `"%s/%s-%s.so"`
otherwise. -/
def preload_string (c : EnvCfg) (toolname : CStr) : CStr :=
  if c.readable (preload_tool_path c toolname) then
    VG_snprintf (preload_string_len c toolname)
      (c.libdir ++ "/".toList ++ preload_core ++ "-".toList ++ c.platform ++ ".so:".toList
        ++ preload_tool_path c toolname)
  else
    VG_snprintf (preload_string_len c toolname)
      (c.libdir ++ "/".toList ++ preload_core ++ "-".toList ++ c.platform ++ ".so".toList)

/-- The string stored over an entry `e` that starts with `LD_PRELOAD=`:
`snprintf(cp, len, "%s%s:%s", ld_preload, preload_string, e + ld_preload_len)`
with `len = strlen(e) + preload_string_len`. -/
def mash_entry (c : EnvCfg) (toolname : CStr) (e : CStr) : CStr :=
  VG_snprintf (VG_strlen e + preload_string_len c toolname)
    (ld_preload ++ preload_string c toolname ++ ":".toList ++ e.drop (VG_strlen ld_preload))

/-- The loop "Walk over the new environment, mashing as we go", from the
entry at `cpp` on: the entries as left by the loop and the final value of
`ld_preload_done`. -/
def mash_env (c : EnvCfg) (toolname : CStr) : List CStr → Bool → List CStr × Bool
  | [], done => ([], done)
  | e :: rest, done =>
    if VG_memcmp_eq0 e ld_preload (VG_strlen ld_preload) then
      let r := mash_env c toolname rest true
      (mash_entry c toolname e :: r.1, r.2)
    else
      let r := mash_env c toolname rest done
      (e :: r.1, r.2)

/-- The string added when no entry was mashed:
`snprintf(cp, len, "%s%s", ld_preload, preload_string)` with
`len = ld_preload_len + preload_string_len`. -/
def added_entry (c : EnvCfg) (toolname : CStr) : CStr :=
  VG_snprintf (VG_strlen ld_preload + preload_string_len c toolname)
    (ld_preload ++ preload_string c toolname)

/-- The loop `for (i = 0; i < envc; i++) if (0 == memcmp(ret[i], v_launcher,
v_launcher_len)) break;`: the final `i`, counted from the head of the list. -/
def find_launcher : List CStr → Nat
  | [] => 0
  | e :: rest =>
    if VG_memcmp_eq0 e v_launcher (VG_strlen v_launcher) then 0
    else find_launcher rest + 1

/-- The function `setup_client_env`: the live entries `ret[0 .. envc-1]` of the
returned array. -/
def setup_client_env (c : EnvCfg) (origenv : List CStr) (toolname : CStr) : List CStr :=
  -- copy it over
  let ret := origenv
  -- walk over the new environment, mashing as we go
  let walked := mash_env c toolname ret false
  let ret := walked.1
  let ld_preload_done := walked.2
  -- add the missing bits
  let ret := if !ld_preload_done then ret ++ [added_entry c toolname] else ret
  let envc := ret.length
  -- find and remove a binding for VALGRIND_LAUNCHER
  let i := find_launcher ret
  if i < envc then ret.eraseIdx i else ret

/-- A configuration for examples: library directory `/lib`, platform
`amd64-netbsd`, and only the memcheck preload file readable. -/
def cfg0 : EnvCfg where
  libdir := "/lib".toList
  platform := "amd64-netbsd".toList
  readable := fun p => decide (p = "/lib/vgpreload_memcheck-amd64-netbsd.so".toList)

/-! ## Words for the claims about the environment -/

/-- Text of the tool preload path, `<libdir>/vgpreload_<tool>-<platform>.so`. -/
def tool_path_text (c : EnvCfg) (toolname : CStr) : CStr :=
  c.libdir ++ "/vgpreload_".toList ++ toolname ++ "-".toList ++ c.platform ++ ".so".toList

/-- Text of the core preload path, `<libdir>/vgpreload_core-<platform>.so`. -/
def core_path_text (c : EnvCfg) : CStr :=
  c.libdir ++ "/vgpreload_core-".toList ++ c.platform ++ ".so".toList

/-- Text of the preload string: the core path, then `:` and the tool path
when the tool's preload file is readable. -/
def preload_text (c : EnvCfg) (toolname : CStr) : CStr :=
  core_path_text c ++
    (if c.readable (tool_path_text c toolname) then ":".toList ++ tool_path_text c toolname else [])

/-- The entry `e` begins with the text `pat`. -/
def begins_with (pat e : CStr) : Bool := pat.isPrefixOf e

/-- The list without its first entry that begins with `VALGRIND_LAUNCHER=`,
if it has one. -/
def drop_first_launcher : List CStr → List CStr
  | [] => []
  | e :: rest => if begins_with v_launcher e then rest else e :: drop_first_launcher rest

/-- What the mashing loop leaves in the place of the entry `e`. -/
def mashed (c : EnvCfg) (toolname : CStr) (e : CStr) : CStr :=
  if begins_with ld_preload e then mash_entry c toolname e else e

/-- The entry begins with neither `LD_PRELOAD=` nor `VALGRIND_LAUNCHER=`. -/
def plain_entry (e : CStr) : Bool :=
  !begins_with "LD_PRELOAD=".toList e && !begins_with "VALGRIND_LAUNCHER=".toList e

/-! ## Machine arithmetic -/

/-- `VKI_PAGE_SIZE` on amd64. -/
def VKI_PAGE_SIZE : Nat := 4096

/-- `VKI_ENOMEM`. -/
def VKI_ENOMEM : Nat := 12

/-- `VKI_PROT_READ`, `VKI_PROT_WRITE`, `VKI_PROT_EXEC`. -/
def VKI_PROT_READ : Nat := 1
def VKI_PROT_WRITE : Nat := 2
def VKI_PROT_EXEC : Nat := 4

/-- Addition of two machine words (`UWord`, `Nat`, `SizeT`). -/
def word_add (a b : Nat) : Nat := (a + b) % 2 ^ 64

/-- Subtraction of two machine words. -/
def word_sub (a b : Nat) : Nat := (a + (2 ^ 64 - b % 2 ^ 64)) % 2 ^ 64

/-- `VG_ROUNDDN(p, a)` for a power of two `a`: `p & ~(a - 1)`. -/
def VG_ROUNDDN (p a : Nat) : Nat := p / a * a

/-- `VG_ROUNDUP(p, a)`: `VG_ROUNDDN(p + a - 1, a)`, the sum in 64 bits. -/
def VG_ROUNDUP (p a : Nat) : Nat := VG_ROUNDDN (word_add p (a - 1)) a

/-- `VG_PGROUNDDN`. -/
def VG_PGROUNDDN (p : Nat) : Nat := VG_ROUNDDN p VKI_PAGE_SIZE

/-- `VG_PGROUNDUP`. -/
def VG_PGROUNDUP (p : Nat) : Nat := VG_ROUNDUP p VKI_PAGE_SIZE

/-- `VG_IS_PAGE_ALIGNED`. -/
def VG_IS_PAGE_ALIGNED (p : Nat) : Bool := p % VKI_PAGE_SIZE == 0

/-! ## The address-space manager, as this code uses it -/

/-- `SegKind` of `pub_core_aspacemgr.h`. -/
inductive SegKind where
  | SkFree | SkAnonC | SkAnonV | SkFileC | SkFileV | SkShmC | SkResvn
  deriving DecidableEq, Repr

/-- `ShrinkMode` of `pub_core_aspacemgr.h`. -/
inductive ShrinkMode where
  | SmLower | SmFixed | SmUpper
  deriving DecidableEq, Repr

/-- The fields of `NSegment` that this code reads. -/
structure NSegment where
  kind : SegKind
  start : Nat
  end_ : Nat
  hasR : Bool
  hasW : Bool
  hasX : Bool
  hasT : Bool
  deriving DecidableEq, Repr

/-- `SysRes`: a result value or an error number. -/
inductive SysRes where
  | Res (v : Nat)
  | Error (err : Nat)
  deriving DecidableEq, Repr

/-- `sr_isError`. -/
def sr_isError : SysRes → Bool
  | .Res _ => false
  | .Error _ => true

/-- The address-space manager is not part of these sources; the code is
embedded over any implementation of the four operations it calls, with the
manager's state `σ` passed explicitly.  `am_next_nsegment` is the forwards
direction.  Two segment pointers are equal when the segments they point to are. -/
structure AspaceMgr (σ : Type) where
  am_find_nsegment : σ → Nat → Option NSegment
  am_next_nsegment : σ → NSegment → Option NSegment
  am_create_reservation : σ → Nat → Nat → ShrinkMode → Nat → Bool × σ
  am_mmap_anon_fixed_client : σ → Nat → Nat → Nat → SysRes × σ

/-- Calls that leave the wrapper, in the order made. -/
inductive Event where
  | find_nsegment (a : Nat)
  | next_nsegment (seg : NSegment)
  | create_reservation (start : Nat) (length : Nat) (smode : ShrinkMode) (extra : Nat)
  | mmap_anon_fixed_client (start : Nat) (length : Nat) (prot : Nat)
  | discard_translations (a : Nat) (len : Nat)
  | memset_zero (a : Nat) (len : Nat)
  | die_mem_brk (a : Nat) (len : Nat)
  | new_mem_brk (a : Nat) (len : Nat) (tid : Nat)
  | umsg
  deriving DecidableEq, Repr

/-- The state the `brk` code works on: the globals `VG_(brk_base)`,
`VG_(brk_limit)` and `VG_(client_rlimit_data).rlim_cur`, the state of the
address-space manager, the bytes of client memory, and the calls made so far
(oldest first). -/
structure World (σ : Type) where
  brk_base : Nat
  brk_limit : Nat
  rlim_data_cur : Nat
  am : σ
  mem : Nat → Nat
  log : List Event

/-- How a wrapper ends: `SET_STATUS_Success`, `SET_STATUS_Failure`, or a failed
`vg_assert`, which aborts the engine. -/
inductive Status where
  | Success (res : Nat)
  | Failure (err : Nat)
  | Abort
  deriving DecidableEq, Repr

namespace World

variable {σ : Type}

/-- Record a call. -/
def emit (w : World σ) (e : Event) : World σ := { w with log := w.log ++ [e] }

/-- `VG_(am_find_nsegment)(a)`. -/
def find_nsegment (A : AspaceMgr σ) (w : World σ) (a : Nat) : Option NSegment × World σ :=
  (A.am_find_nsegment w.am a, w.emit (.find_nsegment a))

/-- `VG_(am_next_nsegment)(seg, True)`. -/
def next_nsegment (A : AspaceMgr σ) (w : World σ) (seg : NSegment) :
    Option NSegment × World σ :=
  (A.am_next_nsegment w.am seg, w.emit (.next_nsegment seg))

/-- `VG_(am_create_reservation)(start, length, smode, extra)`. -/
def create_reservation (A : AspaceMgr σ) (w : World σ) (start : Nat) (length : Nat)
    (smode : ShrinkMode) (extra : Nat) : Bool × World σ :=
  let r := A.am_create_reservation w.am start length smode extra
  (r.1, { w.emit (.create_reservation start length smode extra) with am := r.2 })

/-- `VG_(am_mmap_anon_fixed_client)(start, length, prot)`.  Pages of a new
anonymous mapping read as zero. -/
def mmap_anon_fixed_client (A : AspaceMgr σ) (w : World σ) (start : Nat) (length : Nat)
    (prot : Nat) : SysRes × World σ :=
  let r := A.am_mmap_anon_fixed_client w.am start length prot
  let w1 := { w.emit (.mmap_anon_fixed_client start length prot) with am := r.2 }
  match r.1 with
  | .Res v =>
    (.Res v, { w1 with mem := fun x => if start ≤ x ∧ x < start + length then 0 else w1.mem x })
  | .Error e => (.Error e, w1)

/-- `VG_(memset)((void*)a, 0, len)`. -/
def memset_zero (w : World σ) (a : Nat) (len : Nat) : World σ :=
  { w.emit (.memset_zero a len) with
    mem := fun x => if a ≤ x ∧ x < a + len then 0 else w.mem x }

end World

/-! ## `PRE(sys_break)` -/

section Break

variable {σ : Type}

/-- The protection bits taken from a segment. -/
def seg_prot (seg : NSegment) : Nat :=
  (if seg.hasR then VKI_PROT_READ else 0)
    ||| (if seg.hasW then VKI_PROT_WRITE else 0)
    ||| (if seg.hasX then VKI_PROT_EXEC else 0)

/-- Shrinking, first block: `if (old_brk_limit > old_brk_base_pgup) { ... }`.
An error is the state at a failed `vg_assert`. -/
def brk_shrink_upper (A : AspaceMgr σ) (w : World σ) (new_brk old_brk_limit
    old_brk_base_pgup : Nat) : Except (World σ) (World σ) :=
  if old_brk_limit > old_brk_base_pgup then
    -- new local brk (=MAX(new_brk, old_brk_base_pgup))
    let new_brk_local := if new_brk < old_brk_base_pgup then old_brk_base_pgup else new_brk
    let f1 := w.find_nsegment A new_brk_local
    let f2 := f1.2.find_nsegment A (old_brk_limit - 1)
    let w := f2.2
    match f1.1, f2.1 with
    | some seg, some seg2 =>
      if seg.kind = .SkAnonC ∧ seg = seg2 then
        let w := if seg.hasT then
            w.emit (.discard_translations new_brk_local (old_brk_limit - new_brk_local))
          else w
        let w := if seg.hasW then w.memset_zero new_brk_local (old_brk_limit - new_brk_local)
          else w
        .ok w
      else .error w
    | _, _ => .error w
  else .ok w

/-- Shrinking, second block: `if (new_brk < old_brk_base_pgup) { ... }`, the
"fixup code if the VG_(brk_base) is not page-aligned". -/
def brk_shrink_lower (A : AspaceMgr σ) (w : World σ) (new_brk old_brk_limit
    old_brk_base_pgup : Nat) : Except (World σ) (World σ) :=
  if new_brk < old_brk_base_pgup then
    -- old local brk (=MIN(old_brk_limit, old_brk_base_up))
    let old_brk_local := if old_brk_limit < old_brk_base_pgup then old_brk_limit
      else old_brk_base_pgup
    let f1 := w.find_nsegment A new_brk
    let f2 := f1.2.find_nsegment A (old_brk_local - 1)
    let w := f2.2
    match f1.1, f2.1 with
    | some seg, some seg2 =>
      if seg = seg2 then
        let w := if seg.hasT then
            w.emit (.discard_translations new_brk (old_brk_local - new_brk))
          else w
        let w := if seg.hasW then w.memset_zero new_brk (old_brk_local - new_brk) else w
        .ok w
      else .error w
    | _, _ => .error w
  else .ok w

/-- Expanding, first block: `if (old_brk_limit < old_brk_base_pgup) { ... }`. -/
def brk_grow_lower (A : AspaceMgr σ) (w : World σ) (new_brk old_brk_limit
    old_brk_base_pgup : Nat) : Except (World σ) (World σ) :=
  if old_brk_limit < old_brk_base_pgup then
    -- new local brk (=MIN(new_brk, old_brk_base_pgup))
    let new_brk_local := if new_brk < old_brk_base_pgup then new_brk else old_brk_base_pgup
    let f1 := w.find_nsegment A old_brk_limit
    let f2 := f1.2.find_nsegment A (new_brk_local - 1)
    let w := f2.2
    match f1.1, f2.1 with
    | some seg, some seg2 => if seg = seg2 then .ok w else .error w
    | _, _ => .error w
  else .ok w

/-- Expanding, the `else` branch of `if (new_brk <= seg2->start)`: a new
reservation and a new anonymous mapping.  An error is the state together with
`Failure ENOMEM` or `Abort`. -/
def brk_grow_map (A : AspaceMgr σ) (w : World σ) (new_brk old_brk_base_pgup : Nat)
    (seg : NSegment) : Except (World σ × Status) (World σ) :=
  let anon_start := word_add seg.end_ 1
  let resvn_start := VG_PGROUNDUP new_brk
  let anon_size := word_sub resvn_start anon_start
  let resvn_size := VKI_PAGE_SIZE
  if VG_IS_PAGE_ALIGNED anon_size ∧ VG_IS_PAGE_ALIGNED resvn_size
      ∧ VG_IS_PAGE_ALIGNED anon_start ∧ VG_IS_PAGE_ALIGNED resvn_start ∧ anon_size > 0 then
    let r := w.create_reservation A resvn_start resvn_size .SmLower anon_size
    let w := r.2
    if !r.1 then .error (w.emit .umsg, .Failure VKI_ENOMEM)
    else
      let prot := seg_prot seg
      let m := w.mmap_anon_fixed_client A anon_start anon_size prot
      let w := m.2
      match m.1 with
      | .Error _ => .error (w.emit .umsg, .Failure VKI_ENOMEM)
      | .Res v =>
        if v = anon_start then
          let f1 := w.find_nsegment A old_brk_base_pgup
          let f2 := f1.2.find_nsegment A (word_sub (VG_PGROUNDUP new_brk) 1)
          let w := f2.2
          match f1.1, f2.1 with
          | some seg, some seg2 =>
            if seg = seg2 ∧ new_brk ≤ word_add seg.end_ 1 then .ok w else .error (w, .Abort)
          | _, _ => .error (w, .Abort)
        else .error (w, .Abort)
  else .error (w, .Abort)

/-- Expanding, second block: `if (new_brk > old_brk_base_pgup) { ... }`. -/
def brk_grow_upper (A : AspaceMgr σ) (w : World σ) (new_brk old_brk_limit
    old_brk_base_pgup : Nat) : Except (World σ × Status) (World σ) :=
  if new_brk > old_brk_base_pgup then
    -- old local brk (=MAX(old_brk_limit, old_brk_base_pgup))
    let old_brk_local := if old_brk_limit < old_brk_base_pgup then old_brk_base_pgup
      else old_brk_limit
    let f1 := if old_brk_local > old_brk_base_pgup then w.find_nsegment A (old_brk_local - 1)
      else w.find_nsegment A old_brk_local
    let w := f1.2
    match f1.1 with
    | none => .error (w, .Abort)
    | some seg =>
      if seg.kind = .SkAnonC then
        let n := w.next_nsegment A seg
        let w := n.2
        match n.1 with
        | none => .error (w, .Abort)
        | some seg2 =>
          if seg2.kind = .SkResvn ∧ word_add seg.end_ 1 = seg2.start
              ∧ word_add (word_sub seg2.end_ seg2.start) 1 = VKI_PAGE_SIZE then
            if new_brk ≤ seg2.start then .ok w
            else brk_grow_map A w new_brk old_brk_base_pgup seg
          else .error (w, .Abort)
      else .error (w, .Abort)
  else .ok w

/-- The wrapper `PRE(sys_break)`, from after its `PRINT` and `PRE_REG_READ1`
preamble (argument tracing, macros of the wrapper framework): the state it
leaves and how it ends.  `ARG1` is the requested break. -/
def sys_break (A : AspaceMgr σ) (tid : Nat) (w : World σ) (ARG1 : Nat) : World σ × Status :=
  let old_brk_limit := w.brk_limit
  let old_brk_base_pgup := VG_PGROUNDUP w.brk_base
  let new_brk := ARG1
  -- handle some trivial cases
  if new_brk = old_brk_limit then (w, .Success 0)
  else if new_brk < w.brk_base then (w, .Failure VKI_ENOMEM)
  else if new_brk - w.brk_base > w.rlim_data_cur then (w, .Failure VKI_ENOMEM)
  -- the brk base and limit must have been already set
  else if w.brk_base = 2 ^ 64 - 1 ∨ w.brk_limit = 2 ^ 64 - 1 then (w, .Abort)
  else if new_brk < old_brk_limit then
    -- shrinking the data segment
    match brk_shrink_upper A w new_brk old_brk_limit old_brk_base_pgup with
    | .error w => (w, .Abort)
    | .ok w =>
      match brk_shrink_lower A w new_brk old_brk_limit old_brk_base_pgup with
      | .error w => (w, .Abort)
      | .ok w =>
        let w := { w with brk_limit := new_brk }
        let w := w.emit (.die_mem_brk new_brk (old_brk_limit - new_brk))
        (w, .Success 0)
  else
    -- expanding the brk segment
    match brk_grow_lower A w new_brk old_brk_limit old_brk_base_pgup with
    | .error w => (w, .Abort)
    | .ok w =>
      match brk_grow_upper A w new_brk old_brk_limit old_brk_base_pgup with
      | .error r => r
      | .ok w =>
        let w := { w with brk_limit := new_brk }
        let w := w.emit (.new_mem_brk old_brk_limit (new_brk - old_brk_limit) tid)
        (w, .Success 0)

end Break

/-! ## `load_client` -/

/-- The fields of `ExeInfo` that this code reads; a null `interp_name` or
`interp_args` is `none`. -/
structure ExeInfo where
  interp_name : Option CStr
  interp_args : Option CStr
  phdr : Nat
  phnum : Nat
  entry : Nat
  interp_offset : Nat
  brkbase : Nat
  init_ip : Nat
  stack_prot : Nat

/-- What `load_client` calls: `ML_(find_executable)` (a null result is `none`),
`VG_(do_exec)` (its return value and the `ExeInfo` it leaves), and
`VG_(open)(exe_name, VKI_O_RDONLY, VKI_S_IRUSR)`. -/
structure Loader where
  find_executable : CStr → Option CStr
  do_exec : CStr → ExeInfo → Int × ExeInfo
  open_rdonly : CStr → SysRes

/-- What `load_client` leaves when it returns: the state, the `ExeInfo`, the
resolved name in `out_exe_name`, and the value assigned to `VG_(cl_exec_fd)`,
if one was. -/
structure Loaded (σ : Type) where
  world : World σ
  info : ExeInfo
  out_exe_name : CStr
  cl_exec_fd : Option Nat

/-- The function `load_client`; an error is the status of `VG_(exit)`. -/
def load_client {σ : Type} (L : Loader) (args_the_exename : CStr) (w : World σ)
    (info : ExeInfo) (out_exe_name_size : Nat) : Except Nat (Loaded σ) :=
  match L.find_executable args_the_exename with
  | none => .error 127
  | some exe_name =>
    let r := L.do_exec exe_name info
    if r.1 < 0 then .error 1
    else if VG_strlen exe_name + 1 > out_exe_name_size then .error 1
    else
      let fd := match L.open_rdonly exe_name with
        | .Res v => some v
        | .Error _ => none
      -- set initial brk values
      .ok { world := { w with brk_base := r.2.brkbase, brk_limit := r.2.brkbase },
            info := r.2, out_exe_name := exe_name, cl_exec_fd := fd }

/-! ## A small address-space manager for examples -/

/-- A fixed layout: the loaded data segment `[0x1000, 0x1fff]`, the heap
mapping `[0x2000, 0x101fff]` (1MB) and its one-page reservation. -/
def toy_segs (writable : Bool) : List NSegment :=
  [ { kind := .SkFileC, start := 0x1000, end_ := 0x1fff,
      hasR := true, hasW := writable, hasX := false, hasT := false },
    { kind := .SkAnonC, start := 0x2000, end_ := 0x101fff,
      hasR := true, hasW := writable, hasX := false, hasT := false },
    { kind := .SkResvn, start := 0x102000, end_ := 0x102fff,
      hasR := false, hasW := false, hasX := false, hasT := false } ]

/-- An address-space manager with the layout `toy_segs` and no room left:
every reservation and mapping request is refused. -/
def toyAM (writable : Bool) : AspaceMgr Unit where
  am_find_nsegment := fun _ a =>
    (toy_segs writable).find? (fun s => decide (s.start ≤ a ∧ a ≤ s.end_))
  am_next_nsegment := fun _ seg =>
    (toy_segs writable).find? (fun s => decide (s.start = seg.end_ + 1))
  am_create_reservation := fun t _ _ _ _ => (false, t)
  am_mmap_anon_fixed_client := fun t _ _ _ => (.Error VKI_ENOMEM, t)

/-- A state over `toyAM`: `brk_base` inside the data segment, the break at
`0x3000`, no data limit to speak of, and every byte of memory `0xAA`. -/
def toy_world : World Unit where
  brk_base := 0x1800
  brk_limit := 0x3000
  rlim_data_cur := 0x10000000
  am := ()
  mem := fun _ => 0xAA
  log := []

/-- A loader for examples: every name resolves to itself and loads, with
`brkbase = 0x1800`. -/
def toy_loader : Loader where
  find_executable := fun n => some n
  do_exec := fun _ info => (0, { info with brkbase := 0x1800 })
  open_rdonly := fun _ => .Res 3

/-- An `ExeInfo` with every field null or zero. -/
def info0 : ExeInfo where
  interp_name := none
  interp_args := none
  phdr := 0
  phnum := 0
  entry := 0
  interp_offset := 0
  brkbase := 0
  init_ip := 0
  stack_prot := 0

/-! ## What the code relies on from the address-space manager -/

/-- Lookups that agree below `c` before a request still agree after it: two
addresses below `c` that were in one segment are in one segment. -/
def below_kept {σ : Type} (A : AspaceMgr σ) (t t1 : σ) (c : Nat) : Prop :=
  ∀ a b, a < c → b < c → (A.am_find_nsegment t a).isSome = true →
    A.am_find_nsegment t a = A.am_find_nsegment t b →
    (A.am_find_nsegment t1 a).isSome = true ∧ A.am_find_nsegment t1 a = A.am_find_nsegment t1 b

/-- Properties of the address-space manager: a lookup returns the segment
that contains the address, the same for every address of the segment;
segments end at a page boundary, client mappings below the top of the address
space; the addresses of a new anonymous mapping are in client anonymous
segments; and a reservation or mapping made at `start` keeps together what was
together below `start`. -/
structure AspaceLaws {σ : Type} (A : AspaceMgr σ) : Prop where
  find_range : ∀ t a s, A.am_find_nsegment t a = some s →
    s.start ≤ a ∧ a ≤ s.end_ ∧
      ∀ b, s.start ≤ b → b ≤ s.end_ → A.am_find_nsegment t b = some s
  find_end : ∀ t a s, A.am_find_nsegment t a = some s →
    (s.end_ + 1) % VKI_PAGE_SIZE = 0 ∧ (s.kind = .SkAnonC → s.end_ + 1 < 2 ^ 64)
  mmap_anon : ∀ t start len prot v t1,
    A.am_mmap_anon_fixed_client t start len prot = (.Res v, t1) →
    ∀ a, start ≤ a → a < start + len →
      ∃ s, A.am_find_nsegment t1 a = some s ∧ s.kind = .SkAnonC
  resvn_below : ∀ t start len smode extra t1,
    A.am_create_reservation t start len smode extra = (true, t1) → below_kept A t t1 start
  mmap_below : ∀ t start len prot v t1,
    A.am_mmap_anon_fixed_client t start len prot = (.Res v, t1) → below_kept A t t1 start

/-! ## Words for the claims about the break -/

/-- The two states have the same `brk_base`, `brk_limit` and data limit. -/
def same_brk {σ : Type} (w w1 : World σ) : Prop :=
  w1.brk_base = w.brk_base ∧ w1.brk_limit = w.brk_limit ∧ w1.rlim_data_cur = w.rlim_data_cur

/-- Both ways out of a block keep the break variables. -/
def keeps_brk {σ : Type} (w : World σ) : Except (World σ) (World σ) → Prop
  | .ok w1 => same_brk w w1
  | .error w1 => same_brk w w1

/-- Every way out of a block keeps the break variables, and a way out other
than the normal one is `ENOMEM` or an abort. -/
def keeps_brk_st {σ : Type} (w : World σ) : Except (World σ × Status) (World σ) → Prop
  | .ok w1 => same_brk w w1
  | .error r => same_brk w r.1 ∧ (r.2 = .Failure VKI_ENOMEM ∨ r.2 = .Abort)

/-- What `load_client` returns for `toy_loader` on the name `ls`. -/
def toy_loaded : Loaded Unit where
  world := { toy_world with brk_base := 0x1800, brk_limit := 0x1800 }
  info := { info0 with brkbase := 0x1800 }
  out_exe_name := "ls".toList
  cl_exec_fd := some 3

/-! ## `setup_client_stack` -/

/-- The `AT_` constants of `<elf.h>` that the code names, with their NetBSD
values. -/
def AT_NULL : Nat := 0
def AT_IGNORE : Nat := 1
def AT_PHDR : Nat := 3
def AT_PHENT : Nat := 4
def AT_PHNUM : Nat := 5
def AT_PAGESZ : Nat := 6
def AT_BASE : Nat := 7
def AT_FLAGS : Nat := 8
def AT_ENTRY : Nat := 9
def AT_STACKBASE : Nat := 13
def AT_EUID : Nat := 2000
def AT_RUID : Nat := 2001
def AT_EGID : Nat := 2002
def AT_RGID : Nat := 2003
def AT_SUN_EXECNAME : Nat := 2014

/-- `struct auxv`: the type tag and the union `u` (`a_ptr` or `a_val`). -/
structure auxv where
  a_type : Nat
  u : Nat
  deriving DecidableEq, Repr

/-- `sizeof(Word)` and `sizeof(HChar **)` on amd64. -/
def sizeof_Word : Nat := 8

/-- `sizeof(int)`. -/
def sizeof_int : Nat := 4

/-- `sizeof(struct auxv)` on amd64. -/
def sizeof_auxv : Nat := 16

/-- `sizeof(struct vki_ps_strings)` on amd64: two pointers and two padded
`int`s. -/
def sizeof_ps_strings : Nat := 32

/-- `VG_STACK_REDZONE_SZB` on amd64. -/
def VG_STACK_REDZONE_SZB : Nat := 128

/-- Assignment to an `unsigned`. -/
def to_unsigned (n : Nat) : Nat := n % 2 ^ 32

/-- `struct vki_ps_strings`. -/
structure ps_strings where
  ps_argvstr : Nat
  ps_nargvstr : Nat
  ps_envstr : Nat
  ps_nenvstr : Nat
  deriving DecidableEq, Repr

/-- What `setup_client_stack` is given: the host auxiliary vector found by
`find_auxv(init_sp)`, its other arguments, and the globals
`VG_(args_for_client)` and `VG_(args_the_exename)`.  The prototype `orig_auxv`
is read up to its first `AT_NULL` entry. -/
structure StackArgs where
  orig_auxv : List auxv
  orig_envp : List CStr
  info : ExeInfo
  clstack_end : Nat
  clstack_max_size : Nat
  resolved_exe_name : CStr
  args_for_client : List CStr
  args_the_exename : CStr

/-- The entries of the prototype before its `AT_NULL` entry: those the loops
`for (...; cauxv->a_type != AT_NULL; ...)` visit. -/
def auxv_entries (orig_auxv : List auxv) : List auxv :=
  orig_auxv.takeWhile (fun e => e.a_type != AT_NULL)

/-- The entry of the prototype at which those loops stop. -/
def auxv_terminator (orig_auxv : List auxv) : auxv :=
  ((orig_auxv.dropWhile (fun e => e.a_type != AT_NULL)).head?).getD { a_type := AT_NULL, u := 0 }

/-- `stringsize += VG_(strlen)(s) + 1` on the `unsigned stringsize`. -/
def add_strlen (stringsize : Nat) (s : CStr) : Nat := to_unsigned (stringsize + (VG_strlen s + 1))

/-- The section "compute sizes" up to the environment: `argc` and `stringsize`
after the loops over the arguments and the environment. -/
def stringsize_args (a : StackArgs) : Nat :=
  let stringsize := 0
  -- paste on the extra args if the loader needs them
  let stringsize := match a.info.interp_name with
    | some s => add_strlen stringsize s
    | none => stringsize
  let stringsize := match a.info.interp_args with
    | some s => add_strlen stringsize s
    | none => stringsize
  -- now scan the args we're given...
  let stringsize := add_strlen stringsize a.resolved_exe_name
  let stringsize := a.args_for_client.foldl add_strlen stringsize
  -- ...and the environment
  a.orig_envp.foldl add_strlen stringsize

/-- The local `argc` after the section "compute sizes". -/
def stack_argc (a : StackArgs) : Nat :=
  (if a.info.interp_name.isSome then 1 else 0) + (if a.info.interp_args.isSome then 1 else 0)
    + a.args_for_client.length

/-- The local `envc`. -/
def stack_envc (a : StackArgs) : Nat := a.orig_envp.length

/-- The local `stringsize` after the loop over the prototype, which adds
`VG_(strlen)(VG_(args_the_exename)) + 1` for every `AT_SUN_EXECNAME` entry. -/
def stack_stringsize (a : StackArgs) : Nat :=
  (auxv_entries a.orig_auxv).foldl
    (fun sz e => if e.a_type = AT_SUN_EXECNAME then add_strlen sz a.args_the_exename else sz)
    (stringsize_args a)

/-- The local `auxsize`: one entry for `AT_NULL` and one for every entry before
it. -/
def stack_auxsize (a : StackArgs) : Nat :=
  (auxv_entries a.orig_auxv).foldl (fun sz _ => to_unsigned (sz + sizeof_auxv)) sizeof_auxv

/-- The local `stacksize`. -/
def stack_stacksize (a : StackArgs) : Nat :=
  to_unsigned
    (sizeof_Word +                              -- argc
     sizeof_Word +                              -- argc[0] == exename
     sizeof_Word * stack_argc a +               -- argv
     sizeof_Word +                              -- terminal NULL
     sizeof_Word * stack_envc a +               -- envp
     sizeof_Word +                              -- terminal NULL
     stack_auxsize a +                          -- auxv
     sizeof_ps_strings +                        -- pss
     VG_ROUNDUP (stack_stringsize a) sizeof_Word)   -- strings (aligned)

/-- The local `client_SP`. -/
def stack_client_SP (a : StackArgs) : Nat :=
  VG_ROUNDDN (word_sub a.clstack_end (stack_stacksize a)) 16

/-- The local `stringbase`, the base of the string table. -/
def stack_stringbase (a : StackArgs) : Nat :=
  word_sub (word_sub a.clstack_end sizeof_ps_strings)
    (VG_ROUNDUP (stack_stringsize a) sizeof_int)

/-- The string table while it is filled: the pointer `strtab` and the bytes
stored so far, from `stringbase` upwards. -/
structure StrTab where
  strtab : Nat
  bytes : List HChar
  deriving DecidableEq, Repr

/-- The function `copy_str`: the table afterwards and the address returned. -/
def copy_str (tab : StrTab) (str : CStr) : StrTab × Nat :=
  ({ strtab := tab.strtab + (str.length + 1), bytes := tab.bytes ++ str ++ [NUL] }, tab.strtab)

/-- A run of `*ptr++ = (Addr)copy_str(&strtab, s)` over the strings `l`: the
table afterwards and the pointers stored. -/
def copy_strs : StrTab → List CStr → StrTab × List Nat
  | tab, [] => (tab, [])
  | tab, s :: rest =>
    let r := copy_str tab s
    let rs := copy_strs r.1 rest
    (rs.1, r.2 :: rs.2)

/-- The body of the loop over the prototype: copy the entry, then fix up the
copy according to its type. -/
def fix_auxv (a : StackArgs) (tab : StrTab) (e : auxv) : StrTab × auxv :=
  if e.a_type = AT_IGNORE ∨ e.a_type = AT_PHENT ∨ e.a_type = AT_PAGESZ ∨ e.a_type = AT_FLAGS
      ∨ e.a_type = AT_EUID ∨ e.a_type = AT_RUID ∨ e.a_type = AT_EGID ∨ e.a_type = AT_RGID then
    (tab, e)
  else if e.a_type = AT_PHDR then
    (tab, if a.info.phdr = 0 then { e with a_type := AT_IGNORE } else { e with u := a.info.phdr })
  else if e.a_type = AT_PHNUM then
    (tab, if a.info.phdr = 0 then { e with a_type := AT_IGNORE } else { e with u := a.info.phnum })
  else if e.a_type = AT_BASE then (tab, { e with u := a.info.interp_offset })
  else if e.a_type = AT_ENTRY then (tab, { e with u := a.info.entry })
  else if e.a_type = AT_STACKBASE then (tab, { e with u := a.clstack_end })
  else if e.a_type = AT_SUN_EXECNAME then
    let r := copy_str tab a.resolved_exe_name
    (r.1, { e with u := r.2 })
  else
    -- stomp out anything we don't know about
    (tab, { e with a_type := AT_IGNORE })

/-- The loop over the prototype: the table afterwards and the entries stored. -/
def copy_auxv (a : StackArgs) : StrTab → List auxv → StrTab × List auxv
  | tab, [] => (tab, [])
  | tab, e :: rest =>
    let r := fix_auxv a tab e
    let rs := copy_auxv a r.1 rest
    (rs.1, r.2 :: rs.2)

/-- What the section "create client stack" stores and sets: the words from
`client_SP` upwards (`client_argc`, the `argv` pointers, the `envp` pointers,
the auxiliary vector, each array with its terminator), the addresses of the
three arrays, the string table, and the `ps_strings` record. -/
structure ClientStack where
  client_SP : Nat
  client_argc : Nat
  client_argv : Nat
  argv : List Nat
  client_envp : Nat
  envp : List Nat
  client_envn : Nat
  client_auxv : Nat
  auxv_out : List auxv
  stringbase : Nat
  strtab : StrTab
  client_pss : Nat
  pss : ps_strings
  deriving DecidableEq, Repr

/-- The section "create client stack", up to the final assertion. -/
def create_client_stack (a : StackArgs) : ClientStack :=
  let client_SP := stack_client_SP a
  let stringbase := stack_stringbase a
  let tab : StrTab := { strtab := stringbase, bytes := [] }
  -- client argc
  let client_argc := stack_argc a + 1
  -- client argv
  let client_argv := client_SP + sizeof_Word
  let r1 := match a.info.interp_name with
    | some s => copy_strs tab [s]
    | none => (tab, [])
  let r2 := match a.info.interp_args with
    | some s => copy_strs r1.1 [s]
    | none => (r1.1, [])
  let r3 := copy_str r2.1 a.args_the_exename
  let r4 := copy_strs r3.1 a.args_for_client
  let argv := r1.2 ++ r2.2 ++ [r3.2] ++ r4.2
  -- envp
  let client_envp := client_argv + sizeof_Word * (argv.length + 1)
  let r5 := copy_strs r4.1 a.orig_envp
  let envp := r5.2
  let client_envn := a.orig_envp.length
  -- auxv
  let client_auxv := client_envp + sizeof_Word * (envp.length + 1)
  let r6 := copy_auxv a r5.1 (auxv_entries a.orig_auxv)
  let auxv_out := r6.2 ++ [auxv_terminator a.orig_auxv]
  -- struct ps_strings
  let client_pss := word_sub a.clstack_end sizeof_ps_strings
  { client_SP := client_SP, client_argc := client_argc, client_argv := client_argv,
    argv := argv, client_envp := client_envp, envp := envp, client_envn := client_envn,
    client_auxv := client_auxv, auxv_out := auxv_out, stringbase := stringbase,
    strtab := r6.1, client_pss := client_pss,
    pss := { ps_argvstr := client_argv, ps_nargvstr := client_argc,
             ps_envstr := client_envp, ps_nenvstr := client_envn } }

/-- The reservation and the mapping that the section "allocate space"
requests. -/
structure StackSpace where
  clstack_start : Nat
  clstack_max_size : Nat
  anon_start : Nat
  anon_size : Nat
  resvn_start : Nat
  resvn_size : Nat
  deriving DecidableEq, Repr

/-- The locals of the section "allocate space" when the requests are made. -/
def stack_space (a : StackArgs) : StackSpace :=
  let clstack_start := VG_PGROUNDDN (stack_client_SP a)
  let clstack_max_size := VG_PGROUNDUP a.clstack_max_size
  let anon_size := word_add (word_sub a.clstack_end clstack_start) 1
  let resvn_size := word_sub clstack_max_size anon_size
  let anon_start := clstack_start
  let resvn_start := word_sub anon_start resvn_size
  if VG_STACK_REDZONE_SZB > 0 then
    { clstack_start := clstack_start, clstack_max_size := clstack_max_size,
      anon_start := word_sub anon_start VKI_PAGE_SIZE,
      anon_size := word_add anon_size VKI_PAGE_SIZE,
      resvn_start := resvn_start, resvn_size := word_sub resvn_size VKI_PAGE_SIZE }
  else
    { clstack_start := clstack_start, clstack_max_size := clstack_max_size,
      anon_start := anon_start, anon_size := anon_size,
      resvn_start := resvn_start, resvn_size := resvn_size }

/-- How `setup_client_stack` ends when it does not return: `VG_(exit)` with a
status, or a failed `vg_assert`. -/
inductive StackFail where
  | Exit (status : Nat)
  | Abort
  deriving DecidableEq, Repr

/-- What `setup_client_stack` leaves when it returns: the state of the
address-space manager, the globals `VG_(clstk_start_base)` and `VG_(clstk_end)`,
and the stack built; the value returned is `stack.client_SP`. -/
structure StackResult (σ : Type) where
  am : σ
  clstk_start_base : Nat
  clstk_end : Nat
  stack : ClientStack

/-- The function `setup_client_stack`; `inner_HACK` is 0 unless the build
defines `ENABLE_INNER`. -/
def setup_client_stack {σ : Type} (A : AspaceMgr σ) (am : σ) (inner_HACK : Nat)
    (a : StackArgs) : Except StackFail (StackResult σ) :=
  if !VG_IS_PAGE_ALIGNED (word_add a.clstack_end 1) then .error .Abort
  else
    -- allocate space
    let sp := stack_space a
    let resvn_size0 := word_sub sp.clstack_max_size
      (word_add (word_sub a.clstack_end sp.clstack_start) 1)
    if VG_STACK_REDZONE_SZB > 0 ∧ ¬ resvn_size0 > VKI_PAGE_SIZE then .error .Abort
    else if ¬ (VG_IS_PAGE_ALIGNED sp.anon_size ∧ VG_IS_PAGE_ALIGNED sp.resvn_size
        ∧ VG_IS_PAGE_ALIGNED sp.anon_start ∧ VG_IS_PAGE_ALIGNED sp.resvn_start
        ∧ sp.resvn_start = word_sub (word_add a.clstack_end 1) sp.clstack_max_size) then
      .error .Abort
    else
      let r := A.am_create_reservation am sp.resvn_start (word_sub sp.resvn_size inner_HACK)
        .SmUpper (word_add sp.anon_size inner_HACK)
      let m := if r.1 then
          A.am_mmap_anon_fixed_client r.2 (word_sub sp.anon_start inner_HACK)
            (word_add sp.anon_size inner_HACK) a.info.stack_prot
        else (.Error 0, r.2)
      if !r.1 || sr_isError m.1 then .error (.Exit 1)
      else
        -- record stack extent
        let clstk_start_base := word_sub sp.anon_start inner_HACK
        let clstk_end := word_sub (word_add (word_add clstk_start_base sp.anon_size) inner_HACK) 1
        -- create client stack
        let st := create_client_stack a
        if ¬ (st.auxv_out.getLast?.map (fun e => e.a_type) = some AT_NULL) then .error .Abort
        else if ¬ (st.strtab.strtab - st.stringbase = stack_stringsize a) then .error .Abort
        else .ok { am := m.2, clstk_start_base := clstk_start_base, clstk_end := clstk_end,
                   stack := st }

/-- The way `setup_client_stack` failed, if it did. -/
def stack_failure {σ : Type} : Except StackFail (StackResult σ) → Option StackFail
  | .error e => some e
  | .ok _ => none

/-- An address-space manager for examples that grants every request. -/
def okAM : AspaceMgr Unit where
  am_find_nsegment := fun _ _ => none
  am_next_nsegment := fun _ _ => none
  am_create_reservation := fun t _ _ _ _ => (true, t)
  am_mmap_anon_fixed_client := fun t start _ _ => (.Res start, t)

/-- Arguments for examples: the command `ls`, resolved to `/bin/ls`, no
arguments, an empty environment, and a host auxiliary vector of `AT_PAGESZ`
and `AT_NULL`, under a stack that ends at `0x7f7fffffffff`. -/
def stack_args0 : StackArgs where
  orig_auxv := [{ a_type := AT_PAGESZ, u := 4096 }, { a_type := AT_NULL, u := 0 }]
  orig_envp := []
  info := info0
  clstack_end := 0x7f7fffffffff
  clstack_max_size := 0x800000
  resolved_exe_name := "/bin/ls".toList
  args_for_client := []
  args_the_exename := "ls".toList

/-- The same with `AT_SUN_EXECNAME` in the host auxiliary vector. -/
def stack_args1 : StackArgs :=
  { stack_args0 with
    orig_auxv := [{ a_type := AT_PAGESZ, u := 4096 }, { a_type := AT_SUN_EXECNAME, u := 0 },
                  { a_type := AT_NULL, u := 0 }] }

/-! ## Words for the claims about the client stack -/

/-- The words stored from `client_SP` upwards, in the order of the stores
`*ptr++ = ...`: `client_argc`, the `argv` pointers and a null word, the `envp`
pointers and a null word. -/
def stack_words (st : ClientStack) : List Nat :=
  [st.client_argc] ++ st.argv ++ [0] ++ st.envp ++ [0]

/-- In a table of `bytes` that starts at address `base`, the bytes from
address `p` on are the characters of `s` and a NUL. -/
def str_at (base : Nat) (bytes : List HChar) (p : Nat) (s : CStr) : Bool :=
  decide (base ≤ p) && decide ((bytes.drop (p - base)).take (s.length + 1) = s ++ [NUL])

/-- The address `p` is in the string table of `st`, at a copy of the C string
`s`. -/
def points_to (st : ClientStack) (p : Nat) (s : CStr) : Bool :=
  str_at st.stringbase st.strtab.bytes p s

/-- The strings that `argv` is built from, in order: the interpreter name and
the interpreter arguments when present, `VG_(args_the_exename)`, and the
client arguments. -/
def argv_sources (a : StackArgs) : List CStr :=
  a.info.interp_name.toList ++ a.info.interp_args.toList ++ [a.args_the_exename]
    ++ a.args_for_client

/-- The type tags that the loop over the prototype copies or sets. -/
def auxv_known (t : Nat) : Prop :=
  t = AT_IGNORE ∨ t = AT_PHENT ∨ t = AT_PAGESZ ∨ t = AT_FLAGS ∨ t = AT_EUID ∨ t = AT_RUID
    ∨ t = AT_EGID ∨ t = AT_RGID ∨ t = AT_PHDR ∨ t = AT_PHNUM ∨ t = AT_BASE ∨ t = AT_ENTRY
    ∨ t = AT_STACKBASE ∨ t = AT_SUN_EXECNAME

/-- The entry `o` of the client auxiliary vector is the prototype entry `e`
transformed according to its type; the string table has the `bytes` and
starts at `base`. -/
def auxv_transformed (a : StackArgs) (base : Nat) (bytes : List HChar) (e o : auxv) : Prop :=
  (e.a_type = AT_PHDR →
    (a.info.phdr ≠ 0 → o = { a_type := AT_PHDR, u := a.info.phdr }) ∧
    (a.info.phdr = 0 → o.a_type = AT_IGNORE)) ∧
  (e.a_type = AT_PHNUM →
    (a.info.phdr ≠ 0 → o = { a_type := AT_PHNUM, u := a.info.phnum }) ∧
    (a.info.phdr = 0 → o.a_type = AT_IGNORE)) ∧
  (e.a_type = AT_BASE → o = { a_type := AT_BASE, u := a.info.interp_offset }) ∧
  (e.a_type = AT_ENTRY → o = { a_type := AT_ENTRY, u := a.info.entry }) ∧
  (e.a_type = AT_STACKBASE → o = { a_type := AT_STACKBASE, u := a.clstack_end }) ∧
  (e.a_type = AT_SUN_EXECNAME →
    o.a_type = AT_SUN_EXECNAME ∧ str_at base bytes o.u a.resolved_exe_name = true) ∧
  (e.a_type = AT_IGNORE ∨ e.a_type = AT_PHENT ∨ e.a_type = AT_PAGESZ ∨ e.a_type = AT_FLAGS
    ∨ e.a_type = AT_EUID ∨ e.a_type = AT_RUID ∨ e.a_type = AT_EGID ∨ e.a_type = AT_RGID →
    o = e) ∧
  (¬ auxv_known e.a_type → o.a_type = AT_IGNORE)

/-- The table is filled from `base` on: `strtab` is just after the bytes
stored. -/
def tab_inv (base : Nat) (tab : StrTab) : Prop := tab.strtab = base + tab.bytes.length

/-! ## `setup_client_dataseg` -/

/-- How `setup_client_dataseg` ends: it returns `True` or `False`, or a
`vg_assert` fails. -/
inductive DatasegEnd where
  | Returned (ok : Bool)
  | Abort
  deriving DecidableEq, Repr

/-- The local `initial_size` of `setup_client_dataseg` after clamping and
rounding: the data limit, at least 1 MB and at most 8 MB, rounded up to a
page. -/
def dataseg_initial_size (rlim_cur : Nat) : Nat :=
  let m1 := 1024 * 1024
  let m8 := 8 * m1
  let initial_size := rlim_cur
  let initial_size := if initial_size < m1 then m1 else initial_size
  let initial_size := if initial_size > m8 then m8 else initial_size
  VG_PGROUNDUP initial_size

/-- The function `setup_client_dataseg`. -/
def setup_client_dataseg {σ : Type} (A : AspaceMgr σ) (w : World σ) : World σ × DatasegEnd :=
  let initial_size := dataseg_initial_size w.rlim_data_cur
  let anon_start := VG_PGROUNDUP w.brk_base
  let anon_size := VG_PGROUNDUP initial_size
  let resvn_start := word_add anon_start anon_size
  let resvn_size := VKI_PAGE_SIZE
  if ¬ (VG_IS_PAGE_ALIGNED anon_size ∧ VG_IS_PAGE_ALIGNED resvn_size
      ∧ VG_IS_PAGE_ALIGNED anon_start ∧ VG_IS_PAGE_ALIGNED resvn_start
      ∧ w.brk_base = w.brk_limit) then (w, .Abort)
  else
    -- find the loaded data segment and remember its protection
    let f := w.find_nsegment A (word_sub w.brk_base 1)
    let w := f.2
    match f.1 with
    | none => (w, .Abort)
    | some seg =>
      let prot := seg_prot seg
      -- try to create the data segment and associated reservation
      let r := w.create_reservation A resvn_start resvn_size .SmLower anon_size
      let w := r.2
      if !r.1 then (w, .Returned false)
      else
        -- map the data segment
        let m := w.mmap_anon_fixed_client A anon_start anon_size prot
        let w := m.2
        match m.1 with
        | .Error _ => (w, .Abort)
        | .Res v => if v = anon_start then (w, .Returned true) else (w, .Abort)

/-- An address-space manager with the layout `toy_segs` that grants every
reservation and mapping request. -/
def grantAM (writable : Bool) : AspaceMgr Unit where
  am_find_nsegment := (toyAM writable).am_find_nsegment
  am_next_nsegment := (toyAM writable).am_next_nsegment
  am_create_reservation := fun t _ _ _ _ => (true, t)
  am_mmap_anon_fixed_client := fun t start _ _ => (.Res start, t)

/-! ## Threads and contexts (`syswrap-netbsd.c`) -/

/-- `VKI_EFAULT`, `VKI_EINVAL`. -/
def VKI_EFAULT : Nat := 14
def VKI_EINVAL : Nat := 22

/-- The flags `VKI_UC_SIGMASK` and `VKI_UC_STACK` of `uc_flags`, and
`VKI_SS_ONSTACK` of `ss_flags`, with their NetBSD values. -/
def VKI_UC_SIGMASK : Nat := 1
def VKI_UC_STACK : Nat := 2
def VKI_SS_ONSTACK : Nat := 1

/-- `ThreadStatus`. -/
inductive ThreadStatus where
  | VgTs_Empty
  | VgTs_Init
  | VgTs_Runnable
  | VgTs_WaitSys
  | VgTs_Yielding
  | VgTs_Zombie
  deriving DecidableEq, Repr

/-- A signal set, `vki_sigset_t`: its words. -/
structure vki_sigset_t where
  sig : List Nat
  deriving DecidableEq, Repr

/-- A stack descriptor, `vki_stack_t`. -/
structure vki_stack_t where
  ss_sp : Nat
  ss_size : Nat
  ss_flags : Nat
  deriving DecidableEq, Repr

/-- The guest register file: the stack pointer, which `VG_(get_SP)` reads, and
the other registers. -/
structure VexGuestArchState where
  guest_SP : Nat
  guest_regs : List Nat
  deriving DecidableEq, Repr

/-- `ThreadArchState`: the register file and its two shadow copies. -/
structure ThreadArchState where
  vex : VexGuestArchState
  vex_shadow1 : VexGuestArchState
  vex_shadow2 : VexGuestArchState
  deriving DecidableEq, Repr

/-- The fields of `ThreadOSstate` that this code uses. -/
structure ThreadOSstate where
  lwpid : Nat
  threadgroup : Nat
  parent : Nat
  oldcontext : Nat
  valgrind_stack_base : Nat
  valgrind_stack_init_SP : Nat
  deriving DecidableEq, Repr

/-- The fields of `ThreadState` that this code uses. -/
structure ThreadState where
  status : ThreadStatus
  sig_mask : vki_sigset_t
  tmp_sig_mask : vki_sigset_t
  altstack : vki_stack_t
  client_stack_highest_byte : Nat
  client_stack_szB : Nat
  err_disablement_level : Nat
  arch : ThreadArchState
  os_state : ThreadOSstate
  deriving DecidableEq, Repr

/-- A context buffer, `vki_ucontext_t`; `uc_mcontext` is the
architecture-specific part. -/
structure vki_ucontext_t where
  uc_flags : Nat
  uc_link : Nat
  uc_sigmask : vki_sigset_t
  uc_stack : vki_stack_t
  uc_mcontext : VexGuestArchState
  deriving DecidableEq, Repr

/-- A field of a context buffer, or the whole of it (`all`): stands for the
address and size pair `&uc->field, sizeof(uc->field)` of a tracking call. -/
inductive UcField where
  | all
  | uc_flags
  | uc_link
  | uc_sigmask
  | uc_stack
  | uc_mcontext
  deriving DecidableEq, Repr

/-- A memory tracking call about the context buffer at address `uc`. -/
inductive MemTrack where
  | pre_mem_write (tid : Nat) (uc : Nat) (f : UcField)
  | post_mem_write (tid : Nat) (uc : Nat) (f : UcField)
  | pre_mem_read (tid : Nat) (uc : Nat) (f : UcField)
  deriving DecidableEq, Repr

/-- What the thread code does that others can see, in order: tracking calls
(`VG_TRACK`, `PRE_MEM_WRITE`, `POST_MEM_WRITE`), messages, kernel calls, and
the calls of `VG_(exit_thread)` and of the shutdown continuation. -/
inductive Track where
  | mem (m : MemTrack)
  | die_mem_stack (a : Nat) (len : Nat)
  | pre_mem_write_lwpid (a : Nat)
  | post_mem_write_lwpid (a : Nat)
  | pre_thread_ll_create (tid : Nat) (child : Nat)
  | pre_thread_ll_exit (tid : Nat)
  | pre_thread_first_insn (tid : Nat)
  | debugLog
  | umsg
  | acquire_BigLock (tid : Nat)
  | exit_thread (tid : Nat)
  | shutdown_actions (tid : Nat) (src : Nat)
  | syscall_lwp_create (kern_uc : vki_ucontext_t) (flags : Nat) (new_lwp : Nat)
  | syscall_lwp_exit
  deriving DecidableEq, Repr

/-- The three helpers of `VG_(save_context)` and `VG_(restore_context)` that
are defined outside these sources. -/
structure MachOps where
  /-- `ML_(save_machine_context)(tid, uc, part)`. -/
  save_machine_context : Nat → ThreadState → Nat → vki_ucontext_t →
    vki_ucontext_t × List MemTrack
  /-- `ML_(restore_machine_context)(tid, uc, part)`. -/
  restore_machine_context : Nat → ThreadState → Nat → vki_ucontext_t →
    ThreadState × List MemTrack
  /-- `VG_(do_sys_sigprocmask)(tid, VKI_SIG_SETMASK, set, NULL)`. -/
  do_sys_sigprocmask : Nat → ThreadState → vki_sigset_t → SysRes × ThreadState

/-- The function `VG_(save_context)`: the buffer `uc0` at address `uc` after
the save, and the tracking calls made. -/
def save_context (M : MachOps) (tid : Nat) (tst : ThreadState) (uc : Nat)
    (uc0 : vki_ucontext_t) : vki_ucontext_t × List Track :=
  let t0 := [Track.mem (.pre_mem_write tid uc .all)]
  -- the ucontext is initially empty
  let u := { uc0 with uc_flags := 0 }
  -- old context
  let u := { u with uc_link := tst.os_state.oldcontext }
  let t1 := t0 ++ [Track.mem (.post_mem_write tid uc .uc_link)]
  -- save the current sigmask
  let u := { u with uc_sigmask := tst.sig_mask }
  let u := { u with uc_flags := u.uc_flags ||| VKI_UC_SIGMASK }
  let t2 := t1 ++ [Track.mem (.post_mem_write tid uc .uc_sigmask)]
  -- stack
  let u :=
    if tst.altstack.ss_flags &&& VKI_SS_ONSTACK = 0 then
      { u with uc_stack := { ss_sp := tst.client_stack_highest_byte,
                             ss_size := tst.client_stack_szB, ss_flags := 0 } }
    else
      { u with uc_stack := tst.altstack }
  let u := { u with uc_flags := u.uc_flags ||| VKI_UC_STACK }
  let t3 := t2 ++ [Track.mem (.post_mem_write tid uc .uc_stack)]
  -- now notify tools that we have written the flags
  let t4 := t3 ++ [Track.mem (.post_mem_write tid uc .uc_flags)]
  -- save the architecture-specific part of the context
  let r := M.save_machine_context tid tst uc u
  (r.1, t4 ++ r.2.map Track.mem)

/-- The function `VG_(restore_context)`: the thread state after it and the
tracking calls made; `none` when the `vg_assert` fails. -/
def restore_context (M : MachOps) (tid : Nat) (tst : ThreadState) (uc : Nat)
    (u : vki_ucontext_t) : Option (ThreadState × List Track) :=
  let old_esp := tst.arch.vex.guest_SP
  let t0 := [Track.mem (.pre_mem_read tid uc .uc_flags)]
  -- old context
  let t1 := t0 ++ [Track.mem (.pre_mem_read tid uc .uc_link)]
  let tst := { tst with os_state := { tst.os_state with oldcontext := u.uc_link } }
  -- sigmask
  let s : Option (ThreadState × List Track) :=
    if u.uc_flags &&& VKI_UC_SIGMASK ≠ 0 then
      let t := t1 ++ [Track.mem (.pre_mem_read tid uc .uc_sigmask)]
      let res := M.do_sys_sigprocmask tid tst u.uc_sigmask
      -- setting signal mask should never fail
      if sr_isError res.1 then none else some (res.2, t)
    else some (tst, t1)
  match s with
  | none => none
  | some (tst, t2) =>
    -- stack
    let t3 :=
      if u.uc_flags &&& VKI_UC_STACK ≠ 0 then
        t2 ++ [Track.mem (.pre_mem_read tid uc .uc_stack)]
      else t2
    -- restore the architecture-specific part of the context
    let r := M.restore_machine_context tid tst uc u
    let tst := r.1
    let t4 := t3 ++ r.2.map Track.mem
    -- if the thread stack is already known, kill the deallocated stack area
    if tst.client_stack_highest_byte ≠ 0 ∧ tst.client_stack_szB ≠ 0 then
      let end_ := tst.client_stack_highest_byte
      let start := word_sub (word_add end_ 1) tst.client_stack_szB
      let new_esp := tst.arch.vex.guest_SP
      if start ≤ old_esp ∧ old_esp ≤ end_ ∧ start ≤ new_esp ∧ new_esp ≤ end_
          ∧ new_esp > old_esp then
        some (tst, t4 ++ [Track.die_mem_stack (word_sub old_esp VG_STACK_REDZONE_SZB)
          (word_add (word_sub new_esp old_esp) VG_STACK_REDZONE_SZB)])
      else some (tst, t4)
    else some (tst, t4)

/-- Modelled from the spec: `ML_(save_machine_context)` is defined outside
these sources; save "copies the current register file ... into a
caller-supplied buffer, and notifies observers of each field written". -/
def spec_save_machine_context (tid : Nat) (tst : ThreadState) (uc : Nat)
    (u : vki_ucontext_t) : vki_ucontext_t × List MemTrack :=
  ({ u with uc_mcontext := tst.arch.vex }, [.post_mem_write tid uc .uc_mcontext])

/-- Modelled from the spec: `ML_(restore_machine_context)` is defined outside
these sources; restore "applies the saved register file". -/
def spec_restore_machine_context (tid : Nat) (tst : ThreadState) (uc : Nat)
    (u : vki_ucontext_t) : ThreadState × List MemTrack :=
  ({ tst with arch := { tst.arch with vex := u.uc_mcontext } },
    [.pre_mem_read tid uc .uc_mcontext])

/-- Modelled from the spec: `VG_(do_sys_sigprocmask)` is defined outside these
sources; restore "reads the requested signal mask and applies it if
present", and the code notes that setting the mask should never fail. -/
def spec_do_sys_sigprocmask (_tid : Nat) (tst : ThreadState) (set : vki_sigset_t) :
    SysRes × ThreadState :=
  (.Res 0, { tst with sig_mask := set })

/-- Modelled from the spec: the three helpers of save and restore that are
defined outside these sources, as the spec describes them. -/
def spec_mach : MachOps where
  save_machine_context := spec_save_machine_context
  restore_machine_context := spec_restore_machine_context
  do_sys_sigprocmask := spec_do_sys_sigprocmask

/-! ## `PRE(sys_lwp_create)` -/

/-- The table `VG_(threads)`. -/
structure Core where
  threads : Nat → ThreadState
  trace : List Track

/-- Store `tst` in slot `tid`. -/
def set_thread (threads : Nat → ThreadState) (tid : Nat) (tst : ThreadState) :
    Nat → ThreadState :=
  fun i => if i = tid then tst else threads i

/-- The helpers of the thread code that are defined outside these sources. -/
structure CoreOps where
  /-- `VG_(alloc_ThreadState)()`: the slot taken and the table after. -/
  alloc_ThreadState : (Nat → ThreadState) → Nat × (Nat → ThreadState)
  /-- `VG_(am_alloc_VgStack)(&initial_SP)`: the stack and `initial_SP`, or
  `none` for `NULL`. -/
  am_alloc_VgStack : Option (Nat × Nat)
  /-- `VG_(is_running_thread)(tid)`. -/
  is_running_thread : (Nat → ThreadState) → Nat → Bool
  /-- `VG_(is_valid_tid)(tid)`. -/
  is_valid_tid : (Nat → ThreadState) → Nat → Bool
  /-- `VG_(owns_BigLock_LL)(tid)`. -/
  owns_BigLock_LL : (Nat → ThreadState) → Nat → Bool
  /-- `VG_(is_exiting)(tid)`. -/
  is_exiting : (Nat → ThreadState) → Nat → Bool
  /-- `ML_(guess_and_register_stack)(sp, tst)`. -/
  guess_and_register_stack : Nat → ThreadState → ThreadState
  /-- `ML_(setup_start_thread_context)(tid, &kern_uc)`: the `kern_uc`. -/
  setup_start_thread_context : Nat → ThreadState → vki_ucontext_t
  /-- `VG_(do_syscall3)(__NR_lwp_create, &kern_uc, flags, new_lwp)`: the
  answer of the kernel. -/
  do_syscall3_lwp_create : vki_ucontext_t → Nat → Nat → SysRes
  /-- `VG_(cleanup_thread)(&tst->arch)`. -/
  cleanup_thread : ThreadArchState → ThreadArchState
  /-- `VG_(gettid)()` and `VG_(getpid)()`. -/
  gettid : Nat
  getpid : Nat
  /-- `VG_(scheduler)(tid)`: the return code and the table after. -/
  scheduler : Nat → (Nat → ThreadState) → Nat × (Nat → ThreadState)
  /-- `VG_(count_living_threads)()`. -/
  count_living_threads : (Nat → ThreadState) → Int
  /-- `VG_(exit_thread)(tid)`. -/
  exit_thread : Nat → (Nat → ThreadState) → (Nat → ThreadState)

/-- The function `ML_(allocstack)` on the thread state of `tid`: the value
returned and the state after; `none` when a `vg_assert` fails. -/
def allocstack (O : CoreOps) (tst : ThreadState) : Option (Nat × ThreadState) :=
  if tst.os_state.valgrind_stack_base = 0 ∧ ¬ tst.os_state.valgrind_stack_init_SP = 0 then none
  else if tst.os_state.valgrind_stack_base ≠ 0 ∧ ¬ tst.os_state.valgrind_stack_init_SP ≠ 0
  then none
  else
    -- if no stack is present, allocate one
    let tst :=
      if tst.os_state.valgrind_stack_base = 0 then
        match O.am_alloc_VgStack with
        | some (stack, initial_SP) =>
          { tst with os_state := { tst.os_state with
              valgrind_stack_base := stack, valgrind_stack_init_SP := initial_SP } }
        | none => tst
      else tst
    some (tst.os_state.valgrind_stack_init_SP, tst)

/-- The part of `PRE(sys_lwp_create)` from the label `out:` on. -/
def sys_lwp_create_out (O : CoreOps) (c : Core) (ctid : Nat) (tool_informed : Bool)
    (res : SysRes) : Core × Status :=
  let c : Core :=
    if sr_isError res then
      -- tell a tool the thread exited in a hurry
      let c : Core := if tool_informed then { c with trace := c.trace ++ [Track.pre_thread_ll_exit ctid] }
               else c
      -- lwp_create failed
      let ctst := c.threads ctid
      let ctst := { ctst with arch := O.cleanup_thread ctst.arch }
      let ctst := { ctst with status := .VgTs_Empty }
      { c with threads := set_thread c.threads ctid ctst }
    else c
  match res with
  | .Res v => (c, .Success v)
  | .Error e => (c, .Failure e)

/-- The wrapper `PRE(sys_lwp_create)` of thread `tid` with the arguments
`ARG1`, `ARG2`, `ARG3`; `uc` is the context buffer at `ARG1`, or `none` when
`ML_(safe_to_deref)` refuses it. -/
def sys_lwp_create (O : CoreOps) (M : MachOps) (tid : Nat) (c : Core) (ARG1 ARG2 ARG3 : Nat)
    (uc : Option vki_ucontext_t) : Core × Status :=
  let c : Core := { c with trace := c.trace ++ [Track.pre_mem_write_lwpid ARG3] }
  -- if we can't deref ucontext_t then we can't do anything
  match uc with
  | none => (c, .Failure VKI_EFAULT)
  | some uc =>
    let a := O.alloc_ThreadState c.threads
    let ctid := a.1
    let c : Core := { c with threads := a.2 }
    -- allocate a V stack for the child
    match allocstack O (c.threads ctid) with
    | none => (c, .Abort)
    | some (vstack, ctst) =>
      let c : Core := { c with threads := set_thread c.threads ctid ctst }
      if vstack = 0 then sys_lwp_create_out O c ctid false (.Error VKI_ENOMEM)
      -- stay sane
      else if ¬ (O.is_running_thread c.threads tid ∧ O.is_valid_tid c.threads ctid) then
        (c, .Abort)
      else
        let ptst := c.threads tid
        let ctst := c.threads ctid
        -- first inherit parent's guest state
        let ctst := { ctst with arch := { vex := ptst.arch.vex,
                                          vex_shadow1 := ptst.arch.vex_shadow1,
                                          vex_shadow2 := ptst.arch.vex_shadow2 } }
        -- set up some values
        let ctst := { ctst with
          os_state := { ctst.os_state with parent := tid,
                                           threadgroup := ptst.os_state.threadgroup },
          sig_mask := ptst.sig_mask, tmp_sig_mask := ptst.sig_mask }
        let c : Core := { c with threads := set_thread c.threads ctid ctst }
        -- set up a stack for the child LWP
        if uc.uc_flags &&& VKI_UC_STACK ≠ 0 then
          if uc.uc_stack.ss_flags = 0 then
            let ctst := O.guess_and_register_stack
              (word_sub (word_add uc.uc_stack.ss_sp uc.uc_stack.ss_size) 1) (c.threads ctid)
            let c : Core := { c with threads := set_thread c.threads ctid ctst }
            -- inform a tool that a new thread is created
            if ¬ O.owns_BigLock_LL c.threads tid then (c, .Abort)
            else
              let c : Core := { c with trace := c.trace ++ [Track.pre_thread_ll_create tid ctid] }
              -- now set the context of new thread according to ucontext_t
              match restore_context M ctid (c.threads ctid) ARG1 uc with
              | none => (c, .Abort)
              | some (ctst, tr) =>
                let c : Core := { threads := set_thread c.threads ctid ctst, trace := c.trace ++ tr }
                -- set up V thread
                let kern_uc := O.setup_start_thread_context ctid (c.threads ctid)
                -- actually create the new thread
                let res := O.do_syscall3_lwp_create kern_uc ARG2 ARG3
                let c : Core := { c with trace := c.trace ++ [Track.syscall_lwp_create kern_uc ARG2 ARG3] }
                let c : Core := if sr_isError res then c
                         else { c with trace := c.trace ++ [Track.post_mem_write_lwpid ARG3] }
                -- new thread creation is now completed; inform the tool
                let c : Core := { c with trace := c.trace ++ [Track.pre_thread_first_insn tid] }
                sys_lwp_create_out O c ctid true res
          else
            let c : Core := { c with trace := c.trace ++ [Track.debugLog] }
            sys_lwp_create_out O c ctid false (.Error VKI_EINVAL)
        else
          let c : Core := { c with trace := c.trace ++ [Track.debugLog] }
          sys_lwp_create_out O c ctid false (.Error VKI_EINVAL)

/-! ## `run_a_thread_NORETURN` -/

/-- The function `thread_wrapper`: the scheduler return code and the state
after; `none` when a `vg_assert` fails. -/
def thread_wrapper (O : CoreOps) (tid : Nat) (c : Core) : Option (Nat × Core) :=
  let c : Core := { c with trace := c.trace ++ [Track.debugLog] }
  if (c.threads tid).status ≠ .VgTs_Init then none
  else
    -- make sure we get the CPU lock before doing anything significant
    let c : Core := { c with trace := c.trace ++ [Track.acquire_BigLock tid] }
    -- make sure error reporting is enabled in the new thread
    let tst : ThreadState := { (c.threads tid) with err_disablement_level := 0 }
    let c : Core := { threads := set_thread c.threads tid tst,
                      trace := c.trace ++ [Track.pre_thread_first_insn tid] }
    let tst := c.threads tid
    let tst := { tst with os_state := { tst.os_state with lwpid := O.gettid,
                                                          threadgroup := O.getpid } }
    let c : Core := { c with threads := set_thread c.threads tid tst }
    let r := O.scheduler tid c.threads
    let ret := r.1
    let c : Core := { c with threads := r.2 }
    if ¬ (O.is_exiting c.threads tid ∧ (c.threads tid).status = .VgTs_Runnable
        ∧ O.is_running_thread c.threads tid) then none
    else
      let c : Core := { c with trace := c.trace ++ [Track.debugLog] }
      -- return to caller, still holding the lock
      some (ret, c)

/-- How `run_a_thread_NORETURN` ends: in the shutdown continuation, in the
kernel call that ends the thread, or at a failed `vg_assert`. -/
inductive RunEnd where
  | Shutdown
  | LwpExit
  | Abort
  deriving DecidableEq, Repr

/-- The function `run_a_thread_NORETURN`.  The continuation
`VG_(address_of_m_main_shutdown_actions_NORETURN)` and the kernel call
`lwp_exit` do not return, so the statements after them are not reached. -/
def run_a_thread_NORETURN (O : CoreOps) (tid : Nat) (c : Core) : Core × RunEnd :=
  let c : Core := { c with trace := c.trace ++ [Track.debugLog] }
  -- run the thread all the way through
  match thread_wrapper O tid c with
  | none => (c, .Abort)
  | some (src, c) =>
    let c : Core := { c with trace := c.trace ++ [Track.debugLog] }
    let n := O.count_living_threads c.threads
    -- stay sane
    if ¬ n ≥ 1 then (c, .Abort)
    else
      -- tell the tool this thread is exiting
      let c : Core := { c with trace := c.trace ++ [Track.pre_thread_ll_exit tid] }
      let c : Core := { c with trace := c.trace ++
        (if (c.threads tid).err_disablement_level > 0 then [Track.umsg, Track.debugLog]
         else []) }
      let tst : ThreadState := { (c.threads tid) with err_disablement_level := 0 }
      let c : Core := { c with threads := set_thread c.threads tid tst }
      if n = 1 then
        let c : Core := { c with trace := c.trace ++ [Track.debugLog] }
        -- we are the last one standing
        let c : Core := { c with trace := c.trace ++ [Track.shutdown_actions tid src] }
        (c, .Shutdown)
      else
        let c : Core := { c with trace := c.trace ++ [Track.debugLog] }
        -- thread is dead, but others still exist; this releases the run lock
        let c : Core := { threads := O.exit_thread tid c.threads,
                          trace := c.trace ++ [Track.exit_thread tid] }
        if (c.threads tid).status ≠ .VgTs_Zombie then (c, .Abort)
        else
          -- set tst->status = VgTs_Empty, then lwp_exit()
          let tst : ThreadState := { (c.threads tid) with status := .VgTs_Empty }
          let c : Core := { threads := set_thread c.threads tid tst,
                            trace := c.trace ++ [Track.syscall_lwp_exit] }
          (c, .LwpExit)

/-! ## The syscall table -/

/-- An entry of the syscall table: the handlers `before` and `after`, each a
function or `NULL`. -/
structure SyscallTableEntry where
  before : Option Nat
  after : Option Nat
  deriving DecidableEq, Repr

/-- The function `ML_(get_netbsd_syscall_entry)` over the array
`syscall_table`; `none` is `NULL`.  `sysno` is a `UInt`. -/
def get_netbsd_syscall_entry (syscall_table : List SyscallTableEntry) (sysno : Nat) :
    Option SyscallTableEntry :=
  let syscall_table_size := syscall_table.length
  if h : sysno < syscall_table_size then
    let sys := syscall_table.get ⟨sysno, h⟩
    if sys.before.isNone then none -- no entry
    else some sys
  else
    -- can't find a wrapper
    none

/-! ## Words for the claims about threads -/

/-- The calls of the shutdown continuation in a trace, in order. -/
def shutdown_calls (tr : List Track) : List Track :=
  tr.filter fun t => match t with
    | .shutdown_actions _ _ => true
    | _ => false

/-- The notifications about the life of a thread and the kernel calls that
create one, in a trace, in order. -/
def lwp_notes (tr : List Track) : List Track :=
  tr.filter fun t => match t with
    | .pre_thread_ll_create _ _ => true
    | .pre_thread_ll_exit _ => true
    | .syscall_lwp_create _ _ _ => true
    | _ => false

/-- A thread state for examples: no signal blocked, no alternate stack, a
client stack of one page below `0x7fff_ffff`, and all registers zero except
the stack pointer. -/
def toy_tst (status : ThreadStatus) : ThreadState where
  status := status
  sig_mask := { sig := [0, 0, 0, 0] }
  tmp_sig_mask := { sig := [0, 0, 0, 0] }
  altstack := { ss_sp := 0, ss_size := 0, ss_flags := 0 }
  client_stack_highest_byte := 0x7fffffff
  client_stack_szB := 0x1000
  err_disablement_level := 0
  arch := { vex := { guest_SP := 0x7ffffff0, guest_regs := [0, 0] },
            vex_shadow1 := { guest_SP := 0, guest_regs := [0, 0] },
            vex_shadow2 := { guest_SP := 0, guest_regs := [0, 0] } }
  os_state := { lwpid := 1, threadgroup := 100, parent := 0, oldcontext := 0,
                valgrind_stack_base := 0, valgrind_stack_init_SP := 0 }

/-- Helpers for examples: slot 2 is the next free slot, thread 1 runs and
holds the lock, the scheduler returns code 1 with the thread `Runnable` and
exiting, `VG_(exit_thread)` leaves the slot a `Zombie`; the number of living
threads, the answer of the kernel to `lwp_create` and the answer of
`VG_(am_alloc_VgStack)` are given. -/
def toy_ops (living : Int) (kernel : SysRes) (vgstack : Option (Nat × Nat)) : CoreOps where
  alloc_ThreadState := fun th => (2, set_thread th 2 { (th 2) with status := .VgTs_Init })
  am_alloc_VgStack := vgstack
  is_running_thread := fun _ t => t == 1
  is_valid_tid := fun _ t => decide (0 < t ∧ t < 500)
  owns_BigLock_LL := fun _ t => t == 1
  is_exiting := fun _ _ => true
  guess_and_register_stack := fun sp tst =>
    { tst with client_stack_highest_byte := sp, client_stack_szB := 0x1000 }
  setup_start_thread_context := fun _ tst =>
    { uc_flags := 0, uc_link := 0, uc_sigmask := { sig := [0xffffffff] },
      uc_stack := { ss_sp := tst.os_state.valgrind_stack_base, ss_size := 0, ss_flags := 0 },
      uc_mcontext := { guest_SP := tst.os_state.valgrind_stack_init_SP, guest_regs := [] } }
  do_syscall3_lwp_create := fun _ _ _ => kernel
  cleanup_thread := fun a => a
  gettid := 1
  getpid := 100
  scheduler := fun tid th => (1, set_thread th tid { (th tid) with status := .VgTs_Runnable })
  count_living_threads := fun _ => living
  exit_thread := fun tid th => set_thread th tid { (th tid) with status := .VgTs_Zombie }

/-- A thread table for examples: thread 1 has the given status, the other
slots are empty; nothing has happened yet. -/
def toy_core (status : ThreadStatus) : Core where
  threads := fun i => if i = 1 then toy_tst status else toy_tst .VgTs_Empty
  trace := []

/-- A context for examples, with a stack descriptor of the given flags. -/
def toy_uc (uc_flags : Nat) (ss_flags : Nat) : vki_ucontext_t where
  uc_flags := uc_flags
  uc_link := 0
  uc_sigmask := { sig := [0, 0, 0, 0] }
  uc_stack := { ss_sp := 0x60000000, ss_size := 0x10000, ss_flags := ss_flags }
  uc_mcontext := { guest_SP := 0x6000fff0, guest_regs := [7, 7] }

/-! ## `VG_(ii_create_image)`: the maximum stack size -/

/-- The local `szB` of `VG_(ii_create_image)` as stored in
`iifii.clstack_max_size`, from `VG_(client_rlimit_stack).rlim_cur` and the
option `VG_(clo_main_stacksize)`, a signed word. -/
def ii_clstack_max_size (rlim_cur : Nat) (clo_main_stacksize : Int) : Nat :=
  let m1 := 1024 * 1024
  let m16 := 16 * m1
  let szB := rlim_cur
  let szB := if szB < m1 then m1 else szB
  let szB := if szB > m16 then m16 else szB
  let szB := if clo_main_stacksize > 0 then clo_main_stacksize.toNat else szB
  let szB := if szB < m1 then m1 else szB
  VG_PGROUNDUP szB

/-! ## Words for the claims about shrinking and growing the break -/

/-- The ranges `(address, length)` of the `VG_(memset)` calls in a record of
calls, in order. -/
def zero_fills (log : List Event) : List (Nat × Nat) :=
  log.filterMap fun e => match e with
    | .memset_zero a len => some (a, len)
    | _ => none

/-- The ranges `(address, length)` of the `VG_(discard_translations)` calls in
a record of calls, in order. -/
def discards (log : List Event) : List (Nat × Nat) :=
  log.filterMap fun e => match e with
    | .discard_translations a len => some (a, len)
    | _ => none

/-- The byte at `x` is in one of the ranges. -/
def in_ranges (rs : List (Nat × Nat)) (x : Nat) : Prop :=
  ∃ r ∈ rs, r.1 ≤ x ∧ x < r.1 + r.2

/-- The segment found at `a` is writable. -/
def seg_hasW {σ : Type} (A : AspaceMgr σ) (t : σ) (a : Nat) : Bool :=
  match A.am_find_nsegment t a with
  | some s => s.hasW
  | none => false

/-- The segment found at `a` has translations. -/
def seg_hasT {σ : Type} (A : AspaceMgr σ) (t : σ) (a : Nat) : Bool :=
  match A.am_find_nsegment t a with
  | some s => s.hasT
  | none => false

/-- The call is a lookup, `VG_(am_find_nsegment)` or `VG_(am_next_nsegment)`. -/
def is_lookup : Event → Bool
  | .find_nsegment _ => true
  | .next_nsegment _ => true
  | _ => false

/-- An address-space manager for examples whose state is the list of the
reservations it has granted.  Lookups find the segments of `toy_segs` and the
reservations granted; every reservation is granted and recorded; every
mapping request fails and leaves the state as it is. -/
def recAM (writable : Bool) : AspaceMgr (List NSegment) where
  am_find_nsegment := fun t a =>
    (toy_segs writable ++ t).find? (fun s => decide (s.start ≤ a ∧ a ≤ s.end_))
  am_next_nsegment := fun t seg =>
    (toy_segs writable ++ t).find? (fun s => decide (s.start = seg.end_ + 1))
  am_create_reservation := fun t start length _ _ =>
    (true, t ++ [{ kind := .SkResvn, start := start, end_ := start + length - 1,
                   hasR := false, hasW := false, hasX := false, hasT := false }])
  am_mmap_anon_fixed_client := fun t _ _ _ => (.Error VKI_ENOMEM, t)

/-- The state `toy_world` over `recAM`, with no reservation granted yet. -/
def rec_world : World (List NSegment) where
  brk_base := 0x1800
  brk_limit := 0x3000
  rlim_data_cur := 0x10000000
  am := []
  mem := fun _ => 0xAA
  log := []

/-! ## Words for the claims about the client stack and contexts -/

/-- The address just after the words and the auxiliary vector stored from
`client_SP` upwards: the final value of the pointer `auxv`, plus one entry. -/
def stack_words_end (st : ClientStack) : Nat :=
  st.client_SP + sizeof_Word * (stack_words st).length + sizeof_auxv * st.auxv_out.length

/-- The ranges `(address, length)` of the `die_mem_stack` calls in a trace, in
order. -/
def stack_deaths (tr : List Track) : List (Nat × Nat) :=
  tr.filterMap fun t => match t with
    | .die_mem_stack a len => some (a, len)
    | _ => none

/-- The address that `PRE(sys_lwp_create)` passes to
`ML_(guess_and_register_stack)` as the highest byte of the stack:
`(Addr)uc->uc_stack.ss_sp + uc->uc_stack.ss_size - 1`. -/
def lwp_create_stack_top (uc : vki_ucontext_t) : Nat :=
  word_sub (word_add uc.uc_stack.ss_sp uc.uc_stack.ss_size) 1

/-- A context for examples that returns to a frame 8 bytes up the stack of
`toy_tst`, as on return from a signal handler. -/
def toy_uc_return : vki_ucontext_t :=
  { toy_uc 3 0 with uc_mcontext := { guest_SP := 0x7ffffff8, guest_regs := [7, 7] } }

/-- The part of a shrink from `o` to `n` at or above `p`, the page-rounded
`brk_base`: address and length, as the first block of the shrink computes
them. -/
def shrink_upper_range (n o p : Nat) : Nat × Nat :=
  ((if n < p then p else n), o - (if n < p then p else n))

/-- The part of a shrink from `o` to `n` below `p`: address and length, as the
second block of the shrink computes them. -/
def shrink_lower_range (n o p : Nat) : Nat × Nat :=
  (n, (if o < p then o else p) - n)

/-- The local `anon_size` of the step of `sys_break` that maps new memory
after the segment `seg`: `VG_PGROUNDUP(new_brk) - (seg->end + 1)`. -/
def grow_anon_size (n : Nat) (seg : NSegment) : Nat :=
  word_sub (VG_PGROUNDUP n) (word_add seg.end_ 1)

/-- The request `n` grows the break and needs new memory mapped: it passes
the checks at the start of `sys_break`, the assertions of the blocks before
the mapping step hold with the data segment `seg` and the reservation `seg2`
after it, and `n` is beyond the start of that reservation. -/
def grow_needs_mapping {σ : Type} (A : AspaceMgr σ) (w : World σ) (n : Nat)
    (seg seg2 : NSegment) : Prop :=
  (w.brk_limit < n ∧ w.brk_base ≤ n ∧ n - w.brk_base ≤ w.rlim_data_cur ∧
    w.brk_base ≠ 2 ^ 64 - 1 ∧ w.brk_limit ≠ 2 ^ 64 - 1) ∧
  (∃ wa, brk_grow_lower A w n w.brk_limit (VG_PGROUNDUP w.brk_base) = .ok wa) ∧
  n > VG_PGROUNDUP w.brk_base ∧
  (A.am_find_nsegment w.am
      (if (if w.brk_limit < VG_PGROUNDUP w.brk_base then VG_PGROUNDUP w.brk_base
            else w.brk_limit) > VG_PGROUNDUP w.brk_base
        then (if w.brk_limit < VG_PGROUNDUP w.brk_base then VG_PGROUNDUP w.brk_base
            else w.brk_limit) - 1
        else (if w.brk_limit < VG_PGROUNDUP w.brk_base then VG_PGROUNDUP w.brk_base
            else w.brk_limit)) = some seg ∧
    seg.kind = .SkAnonC) ∧
  (A.am_next_nsegment w.am seg = some seg2 ∧ seg2.kind = .SkResvn ∧
    word_add seg.end_ 1 = seg2.start ∧
    word_add (word_sub seg2.end_ seg2.start) 1 = VKI_PAGE_SIZE) ∧
  ¬ n ≤ seg2.start ∧
  (VG_IS_PAGE_ALIGNED (grow_anon_size n seg) ∧ VG_IS_PAGE_ALIGNED VKI_PAGE_SIZE ∧
    VG_IS_PAGE_ALIGNED (word_add seg.end_ 1) ∧ VG_IS_PAGE_ALIGNED (VG_PGROUNDUP n) ∧
    grow_anon_size n seg > 0)

/-- The lookups that `sys_break` makes before the mapping step of a grow from
`o` to `n`, `p` being the page-rounded `brk_base` and `seg` the data segment
found. -/
def grow_lookups (n o p : Nat) (seg : NSegment) : List Event :=
  (if o < p then [.find_nsegment o, .find_nsegment ((if n < p then n else p) - 1)] else [])
  ++ [.find_nsegment (if (if o < p then p else o) > p then (if o < p then p else o) - 1
        else (if o < p then p else o)),
      .next_nsegment seg]

/-! ## Facts about the library functions -/

theorem nul_not_mem_ld_preload : NUL ∉ ld_preload := by decide

theorem nul_not_mem_v_launcher : NUL ∉ v_launcher := by decide

theorem memcmp_eq0_iff (pat e : CStr) (h : NUL ∉ pat) :
    VG_memcmp_eq0 e pat (VG_strlen pat) = true ↔ pat <+: e := by
  unfold VG_memcmp_eq0 VG_strlen
  rw [decide_eq_true_iff, List.take_left]
  constructor
  · intro heq
    have hp : pat <+: e ++ [NUL] := by
      rw [← heq]; exact List.take_prefix _ _
    rcases List.prefix_concat_iff.mp hp with h1 | h1
    · exact absurd (h1 ▸ (by simp : NUL ∈ e ++ [NUL])) h
    · exact h1
  · rintro ⟨t, rfl⟩
    rw [List.append_assoc, List.take_left]

theorem snprintf_fits (size : Nat) (text : CStr) (h : text.length + 1 ≤ size) :
    VG_snprintf size text = text := by
  unfold VG_snprintf
  exact List.take_of_length_le (by omega)

/-! ## The preload string is never truncated -/

theorem preload_tool_path_eq (c : EnvCfg) (toolname : CStr) :
    preload_tool_path c toolname = tool_path_text c toolname := by
  unfold preload_tool_path tool_path_text
  apply snprintf_fits
  simp [preload_tool_path_len, VG_strlen]
  omega

theorem preload_string_eq (c : EnvCfg) (toolname : CStr) :
    preload_string c toolname = preload_text c toolname := by
  unfold preload_string preload_text
  rw [preload_tool_path_eq]
  split
  · rw [snprintf_fits]
    · simp [core_path_text, preload_core]
    · simp [preload_string_len, preload_core_path_len, preload_tool_path_len, VG_strlen,
        tool_path_text, preload_core, sizeof_ptr]
      omega
  · rw [snprintf_fits]
    · simp [core_path_text, preload_core]
    · simp [preload_string_len, preload_core_path_len, preload_tool_path_len, VG_strlen,
        preload_core, sizeof_ptr]
      omega

theorem preload_text_length_le (c : EnvCfg) (toolname : CStr) :
    (preload_text c toolname).length + 7 ≤ preload_string_len c toolname := by
  unfold preload_text
  split <;>
  · simp [preload_string_len, preload_core_path_len, preload_tool_path_len, VG_strlen,
      tool_path_text, core_path_text, sizeof_ptr]
    omega

theorem added_entry_eq (c : EnvCfg) (toolname : CStr) :
    added_entry c toolname = ld_preload ++ preload_text c toolname := by
  unfold added_entry
  rw [preload_string_eq, snprintf_fits]
  have := preload_text_length_le c toolname
  simp [VG_strlen]
  omega

theorem mash_entry_eq (c : EnvCfg) (toolname : CStr) (e : CStr) (h : ld_preload <+: e) :
    mash_entry c toolname e
      = ld_preload ++ preload_text c toolname ++ ":".toList ++ e.drop ld_preload.length := by
  unfold mash_entry
  rw [preload_string_eq, snprintf_fits]
  · rfl
  · have := preload_text_length_le c toolname
    have hl := h.length_le
    simp [VG_strlen]
    omega

theorem begins_with_iff (pat e : CStr) : begins_with pat e = true ↔ pat <+: e := by
  unfold begins_with
  exact List.isPrefixOf_iff_prefix

theorem memcmp_ld_preload (e : CStr) :
    VG_memcmp_eq0 e ld_preload (VG_strlen ld_preload) = begins_with ld_preload e := by
  rw [Bool.eq_iff_iff, memcmp_eq0_iff _ _ nul_not_mem_ld_preload, begins_with_iff]

theorem memcmp_v_launcher (e : CStr) :
    VG_memcmp_eq0 e v_launcher (VG_strlen v_launcher) = begins_with v_launcher e := by
  rw [Bool.eq_iff_iff, memcmp_eq0_iff _ _ nul_not_mem_v_launcher, begins_with_iff]

theorem launcher_not_ld_preload (e : CStr) (h : begins_with v_launcher e = true) :
    begins_with ld_preload e = false := by
  rw [Bool.eq_false_iff]
  intro h2
  rw [begins_with_iff] at h h2
  have h3 : ld_preload <+: v_launcher :=
    List.prefix_of_prefix_length_le h2 h (by decide)
  exact absurd h3 (by decide)

theorem ld_preload_not_launcher (e : CStr) (h : begins_with ld_preload e = true) :
    begins_with v_launcher e = false := by
  rw [Bool.eq_false_iff]
  intro h2
  have := launcher_not_ld_preload e h2
  rw [h] at this
  exact Bool.noConfusion this

theorem mash_env_eq (c : EnvCfg) (toolname : CStr) (l : List CStr) (done : Bool) :
    mash_env c toolname l done
      = (l.map (mashed c toolname), done || l.any (begins_with ld_preload)) := by
  induction l generalizing done with
  | nil => simp [mash_env]
  | cons e rest ih =>
    unfold mash_env
    rw [memcmp_ld_preload]
    by_cases h : begins_with ld_preload e = true
    · simp [h, ih, mashed]
    · simp [h, ih, mashed]

theorem erase_launcher_eq (l : List CStr) :
    (if find_launcher l < l.length then l.eraseIdx (find_launcher l) else l)
      = drop_first_launcher l := by
  induction l with
  | nil => simp [find_launcher, drop_first_launcher]
  | cons e rest ih =>
    unfold find_launcher drop_first_launcher
    rw [memcmp_v_launcher]
    by_cases h : begins_with v_launcher e = true
    · simp [h]
    · simp only [h, Bool.false_eq_true, if_false, List.length_cons, Nat.add_lt_add_iff_right,
        List.eraseIdx_cons_succ]
      rw [← ih]
      split <;> rfl

theorem setup_client_env_eq (c : EnvCfg) (env : List CStr) (toolname : CStr) :
    setup_client_env c env toolname
      = drop_first_launcher (env.map (mashed c toolname) ++
          (if env.any (begins_with ld_preload) then [] else [added_entry c toolname])) := by
  unfold setup_client_env
  simp only [mash_env_eq, Bool.false_or]
  rw [← erase_launcher_eq]
  cases h : env.any (begins_with ld_preload) <;> simp

theorem mashed_begins_ld (c : EnvCfg) (toolname : CStr) (e : CStr) :
    begins_with ld_preload (mashed c toolname e) = begins_with ld_preload e := by
  unfold mashed
  by_cases h : begins_with ld_preload e = true
  · rw [if_pos h, h, begins_with_iff, mash_entry_eq _ _ _ ((begins_with_iff _ _).mp h)]
    simp [List.append_assoc]
  · rw [if_neg h]

theorem mashed_begins_launcher (c : EnvCfg) (toolname : CStr) (e : CStr) :
    begins_with v_launcher (mashed c toolname e) = begins_with v_launcher e := by
  by_cases h : begins_with ld_preload e = true
  · rw [ld_preload_not_launcher e h]
    apply ld_preload_not_launcher
    rw [mashed_begins_ld, h]
  · unfold mashed
    rw [if_neg h]

theorem added_begins_ld (c : EnvCfg) (toolname : CStr) :
    begins_with ld_preload (added_entry c toolname) = true := by
  rw [begins_with_iff, added_entry_eq]
  exact List.prefix_append _ _

theorem countP_drop_first_launcher (l : List CStr) :
    (drop_first_launcher l).countP (begins_with ld_preload) = l.countP (begins_with ld_preload) := by
  induction l with
  | nil => rfl
  | cons e rest ih =>
    unfold drop_first_launcher
    by_cases h : begins_with v_launcher e = true
    · rw [if_pos h, List.countP_cons_of_neg]
      rw [launcher_not_ld_preload e h]; exact Bool.false_ne_true
    · rw [if_neg h, List.countP_cons, List.countP_cons, ih]

theorem countP_map_mashed (c : EnvCfg) (toolname : CStr) (l : List CStr) :
    (l.map (mashed c toolname)).countP (begins_with ld_preload)
      = l.countP (begins_with ld_preload) := by
  induction l with
  | nil => rfl
  | cons e rest ih =>
    rw [List.map_cons, List.countP_cons, List.countP_cons, ih, mashed_begins_ld]

theorem any_eq_false_iff_countP (l : List CStr) (p : CStr → Bool) :
    l.any p = false ↔ l.countP p = 0 := by
  rw [List.countP_eq_zero]
  simp

/-- C6, as the code has it: the result has as many entries beginning with
`LD_PRELOAD=` as the input, and one when the input has none. -/
theorem setup_client_env_ld_preload_count (c : EnvCfg) (env : List CStr) (toolname : CStr) :
    (setup_client_env c env toolname).countP (begins_with "LD_PRELOAD=".toList)
      = if env.countP (begins_with "LD_PRELOAD=".toList) = 0 then 1
        else env.countP (begins_with "LD_PRELOAD=".toList) := by
  show (setup_client_env c env toolname).countP (begins_with ld_preload)
      = if env.countP (begins_with ld_preload) = 0 then 1
        else env.countP (begins_with ld_preload)
  rw [setup_client_env_eq, countP_drop_first_launcher, List.countP_append, countP_map_mashed]
  cases h : env.any (begins_with ld_preload)
  · have h0 := (any_eq_false_iff_countP _ _).mp h
    simp [h0, List.countP_cons, added_begins_ld]
  · have h0 : env.countP (begins_with ld_preload) ≠ 0 := by
      intro h1
      rw [← any_eq_false_iff_countP, h] at h1
      exact Bool.noConfusion h1
    simp [h0]

/-- C6, counterexample: an input with two `LD_PRELOAD=` entries yields a result
with two entries beginning with `LD_PRELOAD=`, not exactly one. -/
theorem setup_client_env_two_ld_preload :
    (setup_client_env cfg0 ["LD_PRELOAD=a.so".toList, "LD_PRELOAD=b.so".toList]
        "none".toList).countP (begins_with "LD_PRELOAD=".toList) = 2 ∧
    (setup_client_env cfg0 ["LD_PRELOAD=a.so".toList, "LD_PRELOAD=b.so".toList]
        "none".toList).countP (begins_with "LD_PRELOAD=".toList) ≠ 1 := by
  decide

theorem drop_first_launcher_sublist (l : List CStr) : (drop_first_launcher l).Sublist l := by
  induction l with
  | nil => exact List.Sublist.refl _
  | cons e rest ih =>
    unfold drop_first_launcher
    split
    · exact List.sublist_cons_self _ _
    · exact ih.cons₂ _

theorem drop_first_launcher_concat (l : List CStr) (x : CStr)
    (hx : begins_with v_launcher x = false) :
    drop_first_launcher (l ++ [x]) = drop_first_launcher l ++ [x] := by
  induction l with
  | nil => simp [drop_first_launcher, hx]
  | cons e rest ih =>
    rw [List.cons_append]
    unfold drop_first_launcher
    split
    · rfl
    · rw [ih, List.cons_append]

theorem map_mashed_of_no_ld (c : EnvCfg) (toolname : CStr) (l : List CStr)
    (h : ∀ e ∈ l, begins_with ld_preload e = false) : l.map (mashed c toolname) = l := by
  induction l with
  | nil => rfl
  | cons e rest ih =>
    rw [List.map_cons, ih (fun x hx => h x (List.mem_cons_of_mem _ hx))]
    unfold mashed
    rw [h e (List.mem_cons_self _ _)]
    rfl

/-- C7: when no input entry begins with `LD_PRELOAD=`, the result is a
sublist `kept` of the input, free of `LD_PRELOAD=` entries, followed by one
new last entry, `LD_PRELOAD=` and the preload string: the core preload path,
then `:` and the tool preload path when the tool's preload file is readable. -/
theorem setup_client_env_adds_ld_preload (c : EnvCfg) (env : List CStr) (toolname : CStr)
    (h : ∀ e ∈ env, begins_with "LD_PRELOAD=".toList e = false) :
    ∃ kept : List CStr,
      setup_client_env c env toolname
        = kept ++ ["LD_PRELOAD=".toList ++ preload_text c toolname] ∧
      kept.Sublist env ∧
      ∀ e ∈ kept, begins_with "LD_PRELOAD=".toList e = false := by
  have h0 : ∀ e ∈ env, begins_with ld_preload e = false := h
  refine ⟨drop_first_launcher env, ?_, drop_first_launcher_sublist env, ?_⟩
  · have hany : env.any (begins_with ld_preload) = false := by
      rw [List.any_eq_false]
      intro x hx; rw [h0 x hx]; exact Bool.false_ne_true
    rw [setup_client_env_eq, hany, map_mashed_of_no_ld c toolname env h0]
    simp only [Bool.false_eq_true, if_false]
    rw [drop_first_launcher_concat, added_entry_eq]
    · rfl
    · exact ld_preload_not_launcher _ (added_begins_ld c toolname)
  · intro e he
    exact h e ((drop_first_launcher_sublist env).subset he)

/-- C7, witness: an environment with a launcher entry and no `LD_PRELOAD=`. -/
theorem setup_client_env_adds_ld_preload_witness :
    (∀ e ∈ ["A=1".toList, "VALGRIND_LAUNCHER=/bin/valgrind".toList],
        begins_with "LD_PRELOAD=".toList e = false) ∧
    ∃ kept : List CStr,
      setup_client_env cfg0 ["A=1".toList, "VALGRIND_LAUNCHER=/bin/valgrind".toList]
          "memcheck".toList
        = kept ++ ["LD_PRELOAD=".toList ++ preload_text cfg0 "memcheck".toList] ∧
      kept.Sublist ["A=1".toList, "VALGRIND_LAUNCHER=/bin/valgrind".toList] ∧
      ∀ e ∈ kept, begins_with "LD_PRELOAD=".toList e = false :=
  ⟨by decide, setup_client_env_adds_ld_preload cfg0 _ _ (by decide)⟩

theorem getElem?_drop_first_launcher_of_none (l : List CStr) (i : Nat)
    (h : ∀ j, j ≤ i → ∀ e, l[j]? = some e → begins_with v_launcher e = false) :
    (drop_first_launcher l)[i]? = l[i]? := by
  induction l generalizing i with
  | nil => rfl
  | cons x rest ih =>
    unfold drop_first_launcher
    have hx : begins_with v_launcher x = false := h 0 (Nat.zero_le _) x (by simp)
    rw [hx]
    simp only [Bool.false_eq_true, if_false]
    cases i with
    | zero => simp
    | succ k =>
      rw [List.getElem?_cons_succ, List.getElem?_cons_succ]
      apply ih
      intro j hj e he
      exact h (j + 1) (by omega) e (by rw [List.getElem?_cons_succ]; exact he)

theorem getElem?_drop_first_launcher_of_some (l : List CStr) (i : Nat)
    (h : ∃ j, j < i ∧ ∃ e, l[j]? = some e ∧ begins_with v_launcher e = true) :
    (drop_first_launcher l)[i - 1]? = l[i]? := by
  induction l generalizing i with
  | nil => simp [drop_first_launcher]
  | cons x rest ih =>
    obtain ⟨j, hj, e, he, hl⟩ := h
    cases i with
    | zero => omega
    | succ k =>
      unfold drop_first_launcher
      by_cases hx : begins_with v_launcher x = true
      · rw [if_pos hx]; simp
      · rw [if_neg hx]
        cases j with
        | zero =>
          simp only [List.getElem?_cons_zero, Option.some.injEq] at he
          rw [he] at hx; exact absurd hl hx
        | succ m =>
          have hk : k = (k - 1) + 1 := by omega
          rw [Nat.add_sub_cancel, List.getElem?_cons_succ, hk, List.getElem?_cons_succ, ← hk]
          apply ih
          exact ⟨m, by omega, e, by rw [List.getElem?_cons_succ] at he; exact he, hl⟩

theorem mashed_ld_entry (c : EnvCfg) (toolname : CStr) (V : CStr) :
    mashed c toolname (ld_preload ++ V)
      = ld_preload ++ preload_text c toolname ++ ":".toList ++ V := by
  have hp : ld_preload <+: ld_preload ++ V := List.prefix_append _ _
  unfold mashed
  rw [if_pos ((begins_with_iff _ _).mpr hp), mash_entry_eq _ _ _ hp, List.drop_left]

/-- C8, as the code has it: an input entry `LD_PRELOAD=V` at position `i` is
rewritten to `LD_PRELOAD=`, the preload string, `:` and `V`; the rewritten
entry is at position `i` of the result when no entry before it begins with
`VALGRIND_LAUNCHER=`, and at position `i - 1` when one does. -/
theorem setup_client_env_rewrites_ld_preload (c : EnvCfg) (env : List CStr) (toolname : CStr)
    (i : Nat) (V : CStr) (h : env[i]? = some ("LD_PRELOAD=".toList ++ V)) :
    ((∀ j, j < i → ∀ e, env[j]? = some e → begins_with "VALGRIND_LAUNCHER=".toList e = false) →
      (setup_client_env c env toolname)[i]?
        = some ("LD_PRELOAD=".toList ++ preload_text c toolname ++ ":".toList ++ V)) ∧
    ((∃ j, j < i ∧ ∃ e, env[j]? = some e ∧ begins_with "VALGRIND_LAUNCHER=".toList e = true) →
      (setup_client_env c env toolname)[i - 1]?
        = some ("LD_PRELOAD=".toList ++ preload_text c toolname ++ ":".toList ++ V)) := by
  have h0 : env[i]? = some (ld_preload ++ V) := h
  have hi : i < env.length := by
    rcases Nat.lt_or_ge i env.length with hlt | hge
    · exact hlt
    · rw [List.getElem?_eq_none hge] at h0; exact Option.noConfusion h0
  have hlen : i < (env.map (mashed c toolname)).length := by rw [List.length_map]; exact hi
  have hget : ∀ j, j ≤ i → ∀ T : List CStr,
      (env.map (mashed c toolname) ++ T)[j]? = (env[j]?).map (mashed c toolname) := by
    intro j hj T
    rw [List.getElem?_append_left (by omega), List.getElem?_map]
  have hnew : ∀ T : List CStr, (env.map (mashed c toolname) ++ T)[i]?
      = some (ld_preload ++ preload_text c toolname ++ ":".toList ++ V) := by
    intro T
    rw [hget i (Nat.le_refl _) T, h0, Option.map_some', mashed_ld_entry]
  rw [setup_client_env_eq]
  constructor
  · intro hno
    rw [getElem?_drop_first_launcher_of_none]
    · exact hnew _
    · intro j hj e he
      rw [hget j hj] at he
      rcases Nat.lt_or_ge j i with hlt | hge
      · cases hej : env[j]? with
        | none => rw [hej] at he; exact Option.noConfusion he
        | some x =>
          rw [hej, Option.map_some', Option.some.injEq] at he
          rw [← he, mashed_begins_launcher]
          exact hno j hlt x hej
      · have hji : j = i := by omega
        rw [hji, h0, Option.map_some', Option.some.injEq] at he
        rw [← he]
        apply ld_preload_not_launcher
        rw [mashed_begins_ld, begins_with_iff]
        exact List.prefix_append _ _
  · rintro ⟨j, hj, e, he, hl⟩
    rw [getElem?_drop_first_launcher_of_some]
    · exact hnew _
    · refine ⟨j, hj, mashed c toolname e, ?_, ?_⟩
      · rw [hget j (by omega), he]; rfl
      · rw [mashed_begins_launcher]; exact hl

/-- C8, witness: `LD_PRELOAD=foo.so` in first place, no launcher entry before it. -/
theorem setup_client_env_rewrites_ld_preload_witness :
    ["LD_PRELOAD=foo.so".toList, "A=1".toList][0]? = some ("LD_PRELOAD=".toList ++ "foo.so".toList) ∧
    (setup_client_env cfg0 ["LD_PRELOAD=foo.so".toList, "A=1".toList] "none".toList)[0]?
      = some ("LD_PRELOAD=".toList ++ preload_text cfg0 "none".toList ++ ":".toList
          ++ "foo.so".toList) :=
  ⟨by decide,
   (setup_client_env_rewrites_ld_preload cfg0 ["LD_PRELOAD=foo.so".toList, "A=1".toList]
      "none".toList 0 "foo.so".toList (by decide)).1 (fun j hj => absurd hj (Nat.not_lt_zero j))⟩

/-- C8, counterexample: with a launcher entry before it, the entry
`LD_PRELOAD=foo.so` of position 1 is not rewritten at position 1 of the
result, which has a single entry. -/
theorem setup_client_env_ld_preload_moves :
    ["VALGRIND_LAUNCHER=/bin/valgrind".toList, "LD_PRELOAD=foo.so".toList][1]?
      = some ("LD_PRELOAD=".toList ++ "foo.so".toList) ∧
    (setup_client_env cfg0 ["VALGRIND_LAUNCHER=/bin/valgrind".toList, "LD_PRELOAD=foo.so".toList]
        "none".toList)[1]?
      ≠ some ("LD_PRELOAD=".toList ++ preload_text cfg0 "none".toList ++ ":".toList
          ++ "foo.so".toList) := by
  decide

/-- C9, at the failing input: of two launcher entries only the first is
removed, and the second is in the environment handed to the client. -/
theorem setup_client_env_keeps_second_launcher :
    setup_client_env cfg0 ["VALGRIND_LAUNCHER=/a".toList, "VALGRIND_LAUNCHER=/b".toList]
        "none".toList
      = ["VALGRIND_LAUNCHER=/b".toList,
         "LD_PRELOAD=/lib/vgpreload_core-amd64-netbsd.so".toList] ∧
    ∃ e ∈ setup_client_env cfg0 ["VALGRIND_LAUNCHER=/a".toList, "VALGRIND_LAUNCHER=/b".toList]
        "none".toList, begins_with "VALGRIND_LAUNCHER=".toList e = true := by
  decide

theorem plain_entry_eq (e : CStr) :
    plain_entry e = (!begins_with ld_preload e && !begins_with v_launcher e) := rfl

theorem filter_plain_drop_first_launcher (l : List CStr) :
    (drop_first_launcher l).filter plain_entry = l.filter plain_entry := by
  induction l with
  | nil => rfl
  | cons e rest ih =>
    unfold drop_first_launcher
    by_cases h : begins_with v_launcher e = true
    · rw [if_pos h, List.filter_cons_of_neg]
      rw [plain_entry_eq, h]; simp
    · rw [if_neg h, List.filter_cons, List.filter_cons, ih]

theorem filter_plain_map_mashed (c : EnvCfg) (toolname : CStr) (l : List CStr) :
    (l.map (mashed c toolname)).filter plain_entry = l.filter plain_entry := by
  induction l with
  | nil => rfl
  | cons e rest ih =>
    rw [List.map_cons, List.filter_cons, List.filter_cons, ih, plain_entry_eq, plain_entry_eq,
      mashed_begins_ld, mashed_begins_launcher]
    by_cases h : begins_with ld_preload e = true
    · simp [h]
    · have hm : mashed c toolname e = e := by unfold mashed; rw [if_neg h]
      rw [hm]

theorem length_drop_first_launcher (l : List CStr) :
    (drop_first_launcher l).length + (if l.any (begins_with v_launcher) then 1 else 0)
      = l.length := by
  induction l with
  | nil => rfl
  | cons e rest ih =>
    unfold drop_first_launcher
    by_cases h : begins_with v_launcher e = true
    · simp [h]
    · simp only [h, Bool.false_eq_true, if_false, List.any_cons, Bool.false_or, List.length_cons]
      omega

theorem any_launcher_map_mashed (c : EnvCfg) (toolname : CStr) (l : List CStr) :
    (l.map (mashed c toolname)).any (begins_with v_launcher) = l.any (begins_with v_launcher) := by
  induction l with
  | nil => rfl
  | cons e rest ih =>
    rw [List.map_cons, List.any_cons, List.any_cons, ih, mashed_begins_launcher]

/-- C10, as the code has it: the entries of the result that begin with
neither `LD_PRELOAD=` nor `VALGRIND_LAUNCHER=` are the entries of the input
that begin with neither, unchanged and in the same order; and the length of
the result is the length of the input, plus one if no input entry begins with
`LD_PRELOAD=`, minus one if an input entry begins with `VALGRIND_LAUNCHER=`. -/
theorem setup_client_env_frame (c : EnvCfg) (env : List CStr) (toolname : CStr) :
    (setup_client_env c env toolname).filter plain_entry = env.filter plain_entry ∧
    (setup_client_env c env toolname).length
        + (if env.any (begins_with "VALGRIND_LAUNCHER=".toList) then 1 else 0)
      = env.length + (if env.any (begins_with "LD_PRELOAD=".toList) then 0 else 1) := by
  show _ ∧ (setup_client_env c env toolname).length
        + (if env.any (begins_with v_launcher) then 1 else 0)
      = env.length + (if env.any (begins_with ld_preload) then 0 else 1)
  rw [setup_client_env_eq]
  constructor
  · rw [filter_plain_drop_first_launcher, List.filter_append, filter_plain_map_mashed]
    cases env.any (begins_with ld_preload)
    · have hadd : plain_entry (added_entry c toolname) = false := by
        rw [plain_entry_eq, added_begins_ld]; rfl
      simp [List.filter_cons, hadd]
    · simp
  · have hl := length_drop_first_launcher (env.map (mashed c toolname) ++
          (if env.any (begins_with ld_preload) then [] else [added_entry c toolname]))
    have hla : ∀ T : List CStr, T.any (begins_with v_launcher) = false →
        (env.map (mashed c toolname) ++ T).any (begins_with v_launcher)
          = env.any (begins_with v_launcher) := by
      intro T hT
      rw [List.any_append, any_launcher_map_mashed, hT, Bool.or_false]
    rw [hla] at hl
    · rw [List.length_append, List.length_map] at hl
      cases h : env.any (begins_with ld_preload)
      · rw [h] at hl
        simp only [Bool.false_eq_true, if_false, List.length_singleton] at hl ⊢
        exact hl
      · rw [h] at hl
        simp only [if_true, List.length_nil, Nat.add_zero] at hl ⊢
        exact hl
    · split
      · rfl
      · simp [ld_preload_not_launcher _ (added_begins_ld c toolname)]

/-- C10, counterexample: on an input of two `LD_PRELOAD=` entries the result
is not the input entries beginning with neither variable (there are none) with
one single entry put among them: it has two entries. -/
theorem setup_client_env_not_one_inserted :
    ¬ ∃ (l r : List CStr) (x : CStr),
        setup_client_env cfg0 ["LD_PRELOAD=a.so".toList, "LD_PRELOAD=b.so".toList] "none".toList
          = l ++ x :: r ∧
        l ++ r = ["LD_PRELOAD=a.so".toList, "LD_PRELOAD=b.so".toList].filter plain_entry := by
  rintro ⟨l, r, x, h1, h2⟩
  have hlen : (setup_client_env cfg0 ["LD_PRELOAD=a.so".toList, "LD_PRELOAD=b.so".toList]
      "none".toList).length = 2 := by decide
  have hf : ["LD_PRELOAD=a.so".toList, "LD_PRELOAD=b.so".toList].filter plain_entry = [] := by
    decide
  rw [hf] at h2
  rw [h1] at hlen
  have h3 := congrArg List.length h2
  simp only [List.length_append, List.length_cons, List.length_nil] at h3 hlen
  omega

/-- The number of entries of the result that begin with `VALGRIND_LAUNCHER=`
is one less than in the input: none is left exactly when the input has at
most one. -/
theorem setup_client_env_launcher_count (c : EnvCfg) (env : List CStr) (toolname : CStr) :
    (setup_client_env c env toolname).countP (begins_with v_launcher)
      = env.countP (begins_with v_launcher) - 1 := by
  have hd : ∀ l : List CStr, (drop_first_launcher l).countP (begins_with v_launcher)
      = l.countP (begins_with v_launcher) - 1 := by
    intro l
    induction l with
    | nil => rfl
    | cons e rest ih =>
      unfold drop_first_launcher
      by_cases h : begins_with v_launcher e = true
      · rw [if_pos h, List.countP_cons_of_pos _ _ h]; rfl
      · rw [if_neg h, List.countP_cons_of_neg _ _ h, List.countP_cons_of_neg _ _ h, ih]
  have hm : ∀ l : List CStr, (l.map (mashed c toolname)).countP (begins_with v_launcher)
      = l.countP (begins_with v_launcher) := by
    intro l
    induction l with
    | nil => rfl
    | cons e rest ih =>
      rw [List.map_cons, List.countP_cons, List.countP_cons, ih, mashed_begins_launcher]
  rw [setup_client_env_eq, hd, List.countP_append, hm]
  split
  · simp
  · rw [List.countP_cons_of_neg]
    · simp
    · rw [ld_preload_not_launcher _ (added_begins_ld c toolname)]; exact Bool.false_ne_true

/-! ## Page rounding -/

theorem two_pow_64 : (2 : Nat) ^ 64 = 18446744073709551616 := by norm_num

theorem pgroundup_eq (n : Nat) :
    VG_PGROUNDUP n = (n + 4095) % 18446744073709551616 / 4096 * 4096 := by
  simp only [VG_PGROUNDUP, VG_ROUNDUP, VG_ROUNDDN, word_add, VKI_PAGE_SIZE, two_pow_64]

theorem pgroundup_le (n : Nat) : VG_PGROUNDUP n + 4096 ≤ 2 ^ 64 ∧ VG_PGROUNDUP n % 4096 = 0 := by
  rw [pgroundup_eq, two_pow_64]
  omega

theorem le_pgroundup (n : Nat) (h : n + 4095 < 2 ^ 64) : n ≤ VG_PGROUNDUP n := by
  rw [two_pow_64] at h
  rw [pgroundup_eq]
  omega

theorem pgroundup_wrap (n : Nat) (h1 : n < 2 ^ 64) (h2 : 2 ^ 64 ≤ n + 4095) :
    VG_PGROUNDUP n = 0 := by
  rw [two_pow_64] at h1 h2
  rw [pgroundup_eq]
  omega

theorem word_add_one (e : Nat) (h : e + 1 < 2 ^ 64) : word_add e 1 = e + 1 := by
  unfold word_add
  exact Nat.mod_eq_of_lt h

theorem word_sub_eq (a b : Nat) (ha : a < 2 ^ 64) (hb : b ≤ a) : word_sub a b = a - b := by
  unfold word_sub
  rw [two_pow_64] at *
  omega

theorem word_sub_wrap (a b : Nat) (hb : b < 2 ^ 64) (hab : a < b) :
    word_sub a b = a + 2 ^ 64 - b := by
  unfold word_sub
  rw [two_pow_64] at *
  omega

/-! ## The example address-space manager obeys the laws -/

theorem toyAM_find (writable : Bool) (t : Unit) (a : Nat) (s : NSegment)
    (h : (toyAM writable).am_find_nsegment t a = some s) :
    s ∈ toy_segs writable ∧ s.start ≤ a ∧ a ≤ s.end_ := by
  have h1 := List.find?_some h
  have h2 := List.mem_of_find?_eq_some h
  exact ⟨h2, of_decide_eq_true h1⟩

theorem toy_segs_mem (writable : Bool) (s : NSegment) (h : s ∈ toy_segs writable) :
    (s.start = 0x1000 ∧ s.end_ = 0x1fff ∧ s.kind = .SkFileC ∧ s.hasW = writable) ∨
    (s.start = 0x2000 ∧ s.end_ = 0x101fff ∧ s.kind = .SkAnonC ∧ s.hasW = writable) ∨
    (s.start = 0x102000 ∧ s.end_ = 0x102fff ∧ s.kind = .SkResvn ∧ s.hasW = false) := by
  unfold toy_segs at h
  rcases List.mem_cons.mp h with h | h
  · subst h; exact Or.inl ⟨rfl, rfl, rfl, rfl⟩
  rcases List.mem_cons.mp h with h | h
  · subst h; exact Or.inr (Or.inl ⟨rfl, rfl, rfl, rfl⟩)
  rcases List.mem_cons.mp h with h | h
  · subst h; exact Or.inr (Or.inr ⟨rfl, rfl, rfl, rfl⟩)
  · exact absurd h (List.not_mem_nil _)

theorem toyAM_find_of_mem (writable : Bool) (t : Unit) (b : Nat) (s : NSegment)
    (hm : s ∈ toy_segs writable) (h1 : s.start ≤ b) (h2 : b ≤ s.end_) :
    (toyAM writable).am_find_nsegment t b = some s := by
  show (toy_segs writable).find? (fun s => decide (s.start ≤ b ∧ b ≤ s.end_)) = some s
  unfold toy_segs at hm ⊢
  rcases List.mem_cons.mp hm with h | h
  · subst h
    exact List.find?_cons_of_pos _ (decide_eq_true ⟨h1, h2⟩)
  rcases List.mem_cons.mp h with h | h
  · subst h
    rw [List.find?_cons_of_neg _ (by
      intro hh; have := of_decide_eq_true hh; dsimp only at this h1; omega)]
    exact List.find?_cons_of_pos _ (decide_eq_true ⟨h1, h2⟩)
  rcases List.mem_cons.mp h with h | h
  · subst h
    rw [List.find?_cons_of_neg _ (by
      intro hh; have := of_decide_eq_true hh; dsimp only at this h1; omega)]
    rw [List.find?_cons_of_neg _ (by
      intro hh; have := of_decide_eq_true hh; dsimp only at this h1; omega)]
    exact List.find?_cons_of_pos _ (decide_eq_true ⟨h1, h2⟩)
  · exact absurd h (List.not_mem_nil _)

theorem toyAM_laws (writable : Bool) : AspaceLaws (toyAM writable) where
  find_range := by
    intro t a s h
    obtain ⟨hm, h1, h2⟩ := toyAM_find writable t a s h
    exact ⟨h1, h2, fun b hb1 hb2 => toyAM_find_of_mem writable t b s hm hb1 hb2⟩
  find_end := by
    intro t a s h
    obtain ⟨hm, _, _⟩ := toyAM_find writable t a s h
    have h64 := two_pow_64
    rcases toy_segs_mem writable s hm with ⟨_, he, hk, _⟩ | ⟨_, he, hk, _⟩ | ⟨_, he, hk, _⟩ <;>
      rw [he, hk] <;> unfold VKI_PAGE_SIZE <;> refine ⟨by omega, fun _ => by omega⟩
  mmap_anon := by
    intro t start len prot v t1 h
    exact absurd (congrArg Prod.fst h) (by intro h; exact SysRes.noConfusion h)
  resvn_below := by
    intro t start len smode extra t1 h
    exact absurd (congrArg Prod.fst h) (by intro h; exact Bool.noConfusion h)
  mmap_below := by
    intro t start len prot v t1 h
    exact absurd (congrArg Prod.fst h) (by intro h; exact SysRes.noConfusion h)

/-! ## `sys_break`: what each block leaves of the break variables -/

section BreakFacts

variable {σ : Type}

theorem same_brk_refl (w : World σ) : same_brk w w := ⟨rfl, rfl, rfl⟩

theorem same_brk_trans {w w1 w2 : World σ} (h1 : same_brk w w1) (h2 : same_brk w1 w2) :
    same_brk w w2 :=
  ⟨h2.1.trans h1.1, h2.2.1.trans h1.2.1, h2.2.2.trans h1.2.2⟩

theorem same_brk_emit (w : World σ) (e : Event) : same_brk w (w.emit e) := ⟨rfl, rfl, rfl⟩

theorem same_brk_find (A : AspaceMgr σ) (w : World σ) (a : Nat) :
    same_brk w (w.find_nsegment A a).2 := ⟨rfl, rfl, rfl⟩

theorem same_brk_next (A : AspaceMgr σ) (w : World σ) (s : NSegment) :
    same_brk w (w.next_nsegment A s).2 := ⟨rfl, rfl, rfl⟩

theorem same_brk_memset (w : World σ) (a len : Nat) : same_brk w (w.memset_zero a len) :=
  ⟨rfl, rfl, rfl⟩

theorem same_brk_create (A : AspaceMgr σ) (w : World σ) (a len : Nat) (m : ShrinkMode)
    (extra : Nat) : same_brk w (w.create_reservation A a len m extra).2 := ⟨rfl, rfl, rfl⟩

theorem same_brk_mmap (A : AspaceMgr σ) (w : World σ) (a len prot : Nat) :
    same_brk w (w.mmap_anon_fixed_client A a len prot).2 := by
  unfold World.mmap_anon_fixed_client
  dsimp only
  split <;> exact ⟨rfl, rfl, rfl⟩

theorem brk_shrink_upper_keeps (A : AspaceMgr σ) (w : World σ) (n o p : Nat) :
    keeps_brk w (brk_shrink_upper A w n o p) := by
  unfold brk_shrink_upper
  dsimp only
  repeat' split
  all_goals exact ⟨rfl, rfl, rfl⟩

theorem brk_shrink_lower_keeps (A : AspaceMgr σ) (w : World σ) (n o p : Nat) :
    keeps_brk w (brk_shrink_lower A w n o p) := by
  unfold brk_shrink_lower
  dsimp only
  repeat' split
  all_goals exact ⟨rfl, rfl, rfl⟩

theorem brk_grow_lower_keeps (A : AspaceMgr σ) (w : World σ) (n o p : Nat) :
    keeps_brk w (brk_grow_lower A w n o p) := by
  unfold brk_grow_lower
  dsimp only
  repeat' split
  all_goals exact ⟨rfl, rfl, rfl⟩

theorem brk_grow_map_keeps (A : AspaceMgr σ) (w : World σ) (n p : Nat) (seg : NSegment) :
    keeps_brk_st w (brk_grow_map A w n p seg) := by
  have hc := same_brk_create A w (VG_PGROUNDUP n) VKI_PAGE_SIZE .SmLower
    (word_sub (VG_PGROUNDUP n) (word_add seg.end_ 1))
  have hm := same_brk_mmap A (w.create_reservation A (VG_PGROUNDUP n) VKI_PAGE_SIZE .SmLower
    (word_sub (VG_PGROUNDUP n) (word_add seg.end_ 1))).2 (word_add seg.end_ 1)
    (word_sub (VG_PGROUNDUP n) (word_add seg.end_ 1)) (seg_prot seg)
  have hcm := same_brk_trans hc hm
  unfold brk_grow_map
  dsimp only
  repeat' split
  all_goals first
    | exact ⟨same_brk_refl w, Or.inr rfl⟩
    | exact ⟨hc, Or.inl rfl⟩
    | exact ⟨hcm, Or.inl rfl⟩
    | exact ⟨hcm, Or.inr rfl⟩
    | exact hcm

theorem brk_grow_upper_keeps (A : AspaceMgr σ) (w : World σ) (n o p : Nat) :
    keeps_brk_st w (brk_grow_upper A w n o p) := by
  unfold brk_grow_upper
  dsimp only
  split
  · generalize hf1 : (if (if o < p then p else o) > p
        then w.find_nsegment A ((if o < p then p else o) - 1)
        else w.find_nsegment A (if o < p then p else o)) = f1
    have hf : same_brk w f1.2 := by
      rw [← hf1]
      repeat' split
      all_goals exact ⟨rfl, rfl, rfl⟩
    cases h1 : f1.1 with
    | none => exact ⟨hf, Or.inr rfl⟩
    | some seg =>
      dsimp only
      split
      · cases h2 : (f1.2.next_nsegment A seg).1 with
        | none => exact ⟨hf, Or.inr rfl⟩
        | some seg2 =>
          dsimp only
          split
          · split
            · exact hf
            · have hg := brk_grow_map_keeps A (f1.2.next_nsegment A seg).2 n p seg
              cases hr : brk_grow_map A (f1.2.next_nsegment A seg).2 n p seg with
              | ok v => rw [hr] at hg; exact same_brk_trans hf hg
              | error v => rw [hr] at hg; exact ⟨same_brk_trans hf hg.1, hg.2⟩
          · exact ⟨hf, Or.inr rfl⟩
      · exact ⟨hf, Or.inr rfl⟩
  · exact same_brk_refl w

/-- How `sys_break` ends: `brk_base` stays; on success the break is the
requested one, which is the old break or not below `brk_base`; otherwise the
outcome is `ENOMEM` or an abort and the break stays. -/
theorem sys_break_outcome (A : AspaceMgr σ) (tid : Nat) (w : World σ) (a : Nat) :
    (sys_break A tid w a).1.brk_base = w.brk_base ∧
    (((sys_break A tid w a).2 = .Success 0 ∧ (sys_break A tid w a).1.brk_limit = a ∧
        (a = w.brk_limit ∨ w.brk_base ≤ a)) ∨
     (((sys_break A tid w a).2 = .Failure VKI_ENOMEM ∨ (sys_break A tid w a).2 = .Abort) ∧
        (sys_break A tid w a).1.brk_limit = w.brk_limit)) := by
  unfold sys_break
  dsimp only
  by_cases h1 : a = w.brk_limit
  · rw [if_pos h1]
    exact ⟨rfl, Or.inl ⟨rfl, h1.symm, Or.inl h1⟩⟩
  rw [if_neg h1]
  by_cases h2 : a < w.brk_base
  · rw [if_pos h2]
    exact ⟨rfl, Or.inr ⟨Or.inl rfl, rfl⟩⟩
  rw [if_neg h2]
  by_cases h3 : a - w.brk_base > w.rlim_data_cur
  · rw [if_pos h3]
    exact ⟨rfl, Or.inr ⟨Or.inl rfl, rfl⟩⟩
  rw [if_neg h3]
  by_cases h4 : w.brk_base = 2 ^ 64 - 1 ∨ w.brk_limit = 2 ^ 64 - 1
  · rw [if_pos h4]
    exact ⟨rfl, Or.inr ⟨Or.inr rfl, rfl⟩⟩
  rw [if_neg h4]
  have hge : w.brk_base ≤ a := Nat.le_of_not_lt h2
  by_cases h5 : a < w.brk_limit
  · rw [if_pos h5]
    have k1 := brk_shrink_upper_keeps A w a w.brk_limit (VG_PGROUNDUP w.brk_base)
    cases r1 : brk_shrink_upper A w a w.brk_limit (VG_PGROUNDUP w.brk_base) with
    | error w1 =>
      rw [r1] at k1
      exact ⟨k1.1, Or.inr ⟨Or.inr rfl, k1.2.1⟩⟩
    | ok w1 =>
      rw [r1] at k1
      dsimp only
      have k2 := brk_shrink_lower_keeps A w1 a w.brk_limit (VG_PGROUNDUP w.brk_base)
      cases r2 : brk_shrink_lower A w1 a w.brk_limit (VG_PGROUNDUP w.brk_base) with
      | error w2 =>
        rw [r2] at k2
        have k := same_brk_trans k1 k2
        exact ⟨k.1, Or.inr ⟨Or.inr rfl, k.2.1⟩⟩
      | ok w2 =>
        rw [r2] at k2
        have k := same_brk_trans k1 k2
        exact ⟨k.1, Or.inl ⟨rfl, rfl, Or.inr hge⟩⟩
  · rw [if_neg h5]
    have k1 := brk_grow_lower_keeps A w a w.brk_limit (VG_PGROUNDUP w.brk_base)
    cases r1 : brk_grow_lower A w a w.brk_limit (VG_PGROUNDUP w.brk_base) with
    | error w1 =>
      rw [r1] at k1
      exact ⟨k1.1, Or.inr ⟨Or.inr rfl, k1.2.1⟩⟩
    | ok w1 =>
      rw [r1] at k1
      dsimp only
      have k2 := brk_grow_upper_keeps A w1 a w.brk_limit (VG_PGROUNDUP w.brk_base)
      cases r2 : brk_grow_upper A w1 a w.brk_limit (VG_PGROUNDUP w.brk_base) with
      | error r =>
        rw [r2] at k2
        have k := same_brk_trans k1 k2.1
        exact ⟨k.1, Or.inr ⟨k2.2, k.2.1⟩⟩
      | ok w2 =>
        rw [r2] at k2
        have k := same_brk_trans k1 k2
        exact ⟨k.1, Or.inl ⟨rfl, rfl, Or.inr hge⟩⟩

end BreakFacts

/-! ## `sys_break`: the break variables (C2, C3, C4) -/

/-- C2: `brk_base <= brk_limit` is an invariant.  When `load_client` returns,
both are the `brkbase` of the executable; and every call of `sys_break`,
whatever the requested address and however it ends, leaves `brk_base` as it
was and keeps `brk_base <= brk_limit`. -/
theorem brk_base_le_brk_limit {σ : Type} (L : Loader) (exe : CStr) (w0 : World σ)
    (info : ExeInfo) (size : Nat) (A : AspaceMgr σ) (tid : Nat) (w : World σ) (new_brk : Nat) :
    (∀ r, load_client L exe w0 info size = .ok r →
      r.world.brk_base = r.info.brkbase ∧ r.world.brk_limit = r.info.brkbase ∧
      r.world.brk_base ≤ r.world.brk_limit) ∧
    (sys_break A tid w new_brk).1.brk_base = w.brk_base ∧
    (w.brk_base ≤ w.brk_limit →
      (sys_break A tid w new_brk).1.brk_base ≤ (sys_break A tid w new_brk).1.brk_limit) := by
  refine ⟨?_, (sys_break_outcome A tid w new_brk).1, ?_⟩
  · intro r hr
    unfold load_client at hr
    split at hr
    · exact Except.noConfusion hr
    · dsimp only at hr
      split at hr
      · exact Except.noConfusion hr
      · split at hr
        · exact Except.noConfusion hr
        · injection hr with hr
          subst hr
          exact ⟨rfl, rfl, Nat.le_refl _⟩
  · intro hinv
    obtain ⟨hb, hs | hf⟩ := sys_break_outcome A tid w new_brk
    · rw [hb, hs.2.1]
      rcases hs.2.2 with h | h
      · rw [h]; exact hinv
      · exact h
    · rw [hb, hf.2]; exact hinv

/-- C2, witness: `toy_loader` loads, and a grow request on `toy_world`. -/
theorem brk_base_le_brk_limit_witness :
    load_client toy_loader "ls".toList toy_world info0 1024 = .ok toy_loaded ∧
    toy_world.brk_base ≤ toy_world.brk_limit ∧
    toy_loaded.world.brk_base ≤ toy_loaded.world.brk_limit ∧
    (sys_break (toyAM true) 1 toy_world 0x3010).1.brk_base
      ≤ (sys_break (toyAM true) 1 toy_world 0x3010).1.brk_limit :=
  ⟨rfl, by decide,
   ((brk_base_le_brk_limit toy_loader "ls".toList toy_world info0 1024 (toyAM true) 1 toy_world
      0x3010).1 toy_loaded rfl).2.2,
   (brk_base_le_brk_limit toy_loader "ls".toList toy_world info0 1024 (toyAM true) 1 toy_world
      0x3010).2.2 (by decide)⟩

/-- C3: whenever `sys_break` reports success, the result is 0 and `brk_limit`
is the requested address itself. -/
theorem sys_break_success {σ : Type} (A : AspaceMgr σ) (tid : Nat) (w : World σ)
    (new_brk res : Nat) (h : (sys_break A tid w new_brk).2 = .Success res) :
    res = 0 ∧ (sys_break A tid w new_brk).1.brk_limit = new_brk := by
  obtain ⟨_, hs | hf⟩ := sys_break_outcome A tid w new_brk
  · rw [hs.1] at h
    injection h with h
    exact ⟨h.symm, hs.2.1⟩
  · rcases hf.1 with h1 | h1 <;> rw [h1] at h <;> exact Status.noConfusion h

/-- C3, witness: growing the break of `toy_world` by 16 bytes, not a multiple
of the page size. -/
theorem sys_break_success_witness :
    (sys_break (toyAM true) 1 toy_world 0x3010).2 = .Success 0 ∧
    (sys_break (toyAM true) 1 toy_world 0x3010).1.brk_limit = 0x3010 :=
  ⟨by decide, (sys_break_success (toyAM true) 1 toy_world 0x3010 0 (by decide)).2⟩

/-- C4: a request other than the current break that is below `brk_base`, or
whose distance from `brk_base` exceeds the data limit, fails with `ENOMEM` and
leaves the whole state as it was: `brk_base`, `brk_limit`, the address-space
manager, memory, and the record of calls (no request, no zero-fill, no
notification). -/
theorem sys_break_enomem {σ : Type} (A : AspaceMgr σ) (tid : Nat) (w : World σ) (new_brk : Nat)
    (hne : new_brk ≠ w.brk_limit)
    (h : new_brk < w.brk_base ∨ new_brk - w.brk_base > w.rlim_data_cur) :
    sys_break A tid w new_brk = (w, .Failure VKI_ENOMEM) := by
  unfold sys_break
  dsimp only
  rw [if_neg hne]
  by_cases h2 : new_brk < w.brk_base
  · rw [if_pos h2]
  · rw [if_neg h2]
    rcases h with h | h
    · exact absurd h h2
    · rw [if_pos h]

/-- C4, witness: a request below `brk_base`, and one beyond the data limit. -/
theorem sys_break_enomem_witness :
    (0x1700 ≠ toy_world.brk_limit ∧
      (0x1700 < toy_world.brk_base ∨ 0x1700 - toy_world.brk_base > toy_world.rlim_data_cur)) ∧
    sys_break (toyAM true) 1 toy_world 0x1700 = (toy_world, .Failure VKI_ENOMEM) :=
  ⟨⟨by decide, Or.inl (by decide)⟩,
   sys_break_enomem (toyAM true) 1 toy_world 0x1700 (by decide) (Or.inl (by decide))⟩

/-! ## `sys_break`: what a successful block tells -/

section BreakInversion

variable {σ : Type}

theorem brk_grow_lower_inv (A : AspaceMgr σ) (w w1 : World σ) (n o p : Nat)
    (h : brk_grow_lower A w n o p = .ok w1) :
    w1.am = w.am ∧ w1.mem = w.mem ∧
    (o < p → ∃ s, A.am_find_nsegment w.am o = some s ∧
        A.am_find_nsegment w.am ((if n < p then n else p) - 1) = some s) := by
  unfold brk_grow_lower at h
  dsimp only [World.find_nsegment, World.emit] at h
  split at h
  · split at h
    · rename_i seg seg2 h1 h2
      split at h
      · rename_i heq
        injection h with h
        subst h
        refine ⟨rfl, rfl, fun _ => ⟨seg, h1, ?_⟩⟩
        rw [h2, heq]
      · exact Except.noConfusion h
    · exact Except.noConfusion h
  · rename_i hop
    injection h with h
    subst h
    exact ⟨rfl, rfl, fun hh => absurd hh hop⟩

theorem below_kept_refl (A : AspaceMgr σ) (t : σ) (c : Nat) : below_kept A t t c :=
  fun _ _ _ _ h1 h2 => ⟨h1, h2⟩

theorem below_kept_mono (A : AspaceMgr σ) (t t1 : σ) (c c1 : Nat) (hc : c1 ≤ c)
    (h : below_kept A t t1 c) : below_kept A t t1 c1 :=
  fun a b ha hb h1 h2 => h a b (Nat.lt_of_lt_of_le ha hc) (Nat.lt_of_lt_of_le hb hc) h1 h2

theorem below_kept_trans (A : AspaceMgr σ) (t t1 t2 : σ) (c : Nat)
    (h : below_kept A t t1 c) (h1 : below_kept A t1 t2 c) : below_kept A t t2 c :=
  fun a b ha hb k1 k2 => h1 a b ha hb (h a b ha hb k1 k2).1 (h a b ha hb k1 k2).2

theorem mmap_wrapper (A : AspaceMgr σ) (w : World σ) (a len prot : Nat) :
    (w.mmap_anon_fixed_client A a len prot).1 = (A.am_mmap_anon_fixed_client w.am a len prot).1 ∧
    (w.mmap_anon_fixed_client A a len prot).2.am
      = (A.am_mmap_anon_fixed_client w.am a len prot).2 := by
  unfold World.mmap_anon_fixed_client
  dsimp only
  split <;> rename_i h <;> rw [h] <;> exact ⟨rfl, rfl⟩

theorem brk_grow_map_inv (A : AspaceMgr σ) (hA : AspaceLaws A) (w w1 : World σ) (n p : Nat)
    (seg : NSegment) (h : brk_grow_map A w n p seg = .ok w1)
    (hseg : seg.end_ + 1 < 2 ^ 64) (hn : seg.end_ + 1 < n) (hn64 : n < 2 ^ 64)
    (hpe : p ≤ seg.end_ + 1) :
    (∃ s, A.am_find_nsegment w1.am p = some s ∧ s.kind = .SkAnonC ∧ n ≤ s.end_ + 1) ∧
    below_kept A w.am w1.am p := by
  unfold brk_grow_map at h
  dsimp only at h
  rw [word_add_one _ hseg] at h
  split at h
  swap
  · exact Except.noConfusion h
  rename_i hal
  split at h
  · exact Except.noConfusion h
  rename_i hok
  generalize hc : w.create_reservation A (VG_PGROUNDUP n) VKI_PAGE_SIZE .SmLower
    (word_sub (VG_PGROUNDUP n) (seg.end_ + 1)) = c at h hok
  have hm := mmap_wrapper A c.2 (seg.end_ + 1) (word_sub (VG_PGROUNDUP n) (seg.end_ + 1))
    (seg_prot seg)
  generalize hmm : c.2.mmap_anon_fixed_client A (seg.end_ + 1)
    (word_sub (VG_PGROUNDUP n) (seg.end_ + 1)) (seg_prot seg) = m at h hm
  split at h
  · exact Except.noConfusion h
  rename_i v hv
  split at h
  swap
  · exact Except.noConfusion h
  rename_i hva
  dsimp only [World.find_nsegment, World.emit] at h
  split at h
  swap
  · exact Except.noConfusion h
  rename_i s s2 hs hs2
  split at h
  swap
  · exact Except.noConfusion h
  rename_i hss
  injection h with h
  subst h
  dsimp only
  have h64 := two_pow_64
  have hR := pgroundup_le n
  have hasz : word_sub (VG_PGROUNDUP n) (seg.end_ + 1) > 0 := hal.2.2.2.2
  have hmeq : A.am_mmap_anon_fixed_client c.2.am (seg.end_ + 1)
      (word_sub (VG_PGROUNDUP n) (seg.end_ + 1)) (seg_prot seg) = (.Res v, m.2.am) :=
    Prod.ext (hm.1.symm.trans hv) hm.2.symm
  have hc1 : c.1 = true := by simpa using hok
  have hceq : A.am_create_reservation w.am (VG_PGROUNDUP n) VKI_PAGE_SIZE .SmLower
      (word_sub (VG_PGROUNDUP n) (seg.end_ + 1)) = (true, c.2.am) := by
    rw [← hc1, ← hc]; rfl
  have hin : seg.end_ + 1 ≤ word_sub (VG_PGROUNDUP n) 1 ∧
      word_sub (VG_PGROUNDUP n) 1
        < seg.end_ + 1 + word_sub (VG_PGROUNDUP n) (seg.end_ + 1) := by
    by_cases hw : n + 4095 < 2 ^ 64
    · have hge := le_pgroundup n hw
      rw [word_sub_eq _ 1 (by omega) (by omega), word_sub_eq _ (seg.end_ + 1) (by omega) (by omega)]
      omega
    · rw [pgroundup_wrap n hn64 (by omega), word_sub_wrap 0 1 (by omega) (by omega),
        word_sub_wrap 0 (seg.end_ + 1) hseg (by omega)]
      omega
  obtain ⟨s3, hs3, hk3⟩ := hA.mmap_anon _ _ _ _ _ _ hmeq _ hin.1 hin.2
  rw [hs2, Option.some.injEq] at hs3
  have hk : s.kind = .SkAnonC := by rw [hss.1, hs3]; exact hk3
  have he := (hA.find_end _ _ _ hs).2 hk
  have hle : n ≤ s.end_ + 1 := by
    have := hss.2
    rw [word_add_one _ he] at this
    exact this
  refine ⟨⟨s, hs, hk, hle⟩, ?_⟩
  by_cases hw : n + 4095 < 2 ^ 64
  · have hge := le_pgroundup n hw
    exact below_kept_trans A _ _ _ _
      (below_kept_mono A _ _ _ _ (by omega) (hA.resvn_below _ _ _ _ _ _ hceq))
      (below_kept_mono A _ _ _ _ hpe (hA.mmap_below _ _ _ _ _ _ hmeq))
  · exfalso
    have hr := (hA.find_range _ _ _ hs2).2.1
    rw [pgroundup_wrap n hn64 (by omega), word_sub_wrap 0 1 (by omega) (by omega)] at hr
    rw [← hss.1] at hr
    omega

theorem brk_grow_upper_inv (A : AspaceMgr σ) (hA : AspaceLaws A) (w w1 : World σ) (n o p : Nat)
    (h : brk_grow_upper A w n o p = .ok w1) (hon : o < n) (hn64 : n < 2 ^ 64) :
    (p < n → ∃ s, A.am_find_nsegment w1.am (if o < p then p else o) = some s ∧
        A.am_find_nsegment w1.am (n - 1) = some s ∧ s.kind = .SkAnonC ∧ n ≤ s.end_ + 1) ∧
    below_kept A w.am w1.am p := by
  unfold brk_grow_upper at h
  dsimp only at h
  split at h
  swap
  · rename_i hnp
    injection h with h
    subst h
    exact ⟨fun hh => absurd hh hnp, below_kept_refl A _ _⟩
  rename_i hnp
  -- the address `x` of the first lookup
  obtain ⟨x, hx1, hx2, hx3⟩ : ∃ x, (if (if o < p then p else o) > p
        then w.find_nsegment A ((if o < p then p else o) - 1)
        else w.find_nsegment A (if o < p then p else o)) = w.find_nsegment A x ∧
      p ≤ x + 1 ∧ x ≤ (if o < p then p else o) ∧ (if o < p then p else o) ≤ x + 1 := by
    by_cases hop : o < p
    · simp only [hop, if_true, gt_iff_lt, Nat.lt_irrefl, if_false]
      exact ⟨p, rfl, by omega, by omega⟩
    · simp only [hop, if_false]
      by_cases hop2 : o > p
      · simp only [hop2, if_true]
        exact ⟨o - 1, rfl, by omega, by omega, by omega⟩
      · simp only [hop2, if_false]
        exact ⟨o, rfl, by omega, by omega, by omega⟩
  have hol : (if o < p then p else o) < n ∧ p ≤ (if o < p then p else o) := by
    split <;> omega
  revert hx2
  revert hx3
  revert hol
  generalize (if o < p then p else o) = ol at h hx1 ⊢
  intro hol hx3 hx2
  rw [hx1] at h
  dsimp only [World.find_nsegment, World.next_nsegment, World.emit] at h
  split at h
  · exact Except.noConfusion h
  rename_i seg hseg
  split at h
  swap
  · exact Except.noConfusion h
  rename_i hkind
  split at h
  · exact Except.noConfusion h
  rename_i seg2 hseg2
  split at h
  swap
  · exact Except.noConfusion h
  rename_i hres
  have hr := hA.find_range _ _ _ hseg
  have he := (hA.find_end _ _ _ hseg).2 hkind
  have hst : seg2.start = seg.end_ + 1 := by rw [← hres.2.1, word_add_one _ he]
  split at h
  · rename_i hfits
    injection h with h
    subst h
    dsimp only
    refine ⟨fun _ => ⟨seg, ?_, ?_, hkind, by omega⟩, below_kept_refl A _ _⟩
    · exact hr.2.2 _ (by omega) (by omega)
    · exact hr.2.2 _ (by omega) (by omega)
  · rename_i hfits
    have hi := brk_grow_map_inv A hA _ w1 n p seg h he (by omega) hn64 (by omega)
    obtain ⟨⟨s, hs, hk, hle⟩, hb⟩ := hi
    have hrs := hA.find_range _ _ _ hs
    refine ⟨fun _ => ⟨s, ?_, ?_, hk, hle⟩, hb⟩
    · exact hrs.2.2 _ (by omega) (by omega)
    · exact hrs.2.2 _ (by omega) (by omega)

theorem sys_break_grow_inv (A : AspaceMgr σ) (tid : Nat) (w : World σ) (n res : Nat)
    (hlt : w.brk_limit < n) (h : (sys_break A tid w n).2 = .Success res) :
    ∃ wa wb, brk_grow_lower A w n w.brk_limit (VG_PGROUNDUP w.brk_base) = .ok wa ∧
      brk_grow_upper A wa n w.brk_limit (VG_PGROUNDUP w.brk_base) = .ok wb ∧
      (sys_break A tid w n).1
        = ({ wb with brk_limit := n }).emit (.new_mem_brk w.brk_limit (n - w.brk_limit) tid) ∧
      w.brk_base ≤ n ∧ n - w.brk_base ≤ w.rlim_data_cur ∧ w.brk_base ≠ 2 ^ 64 - 1 := by
  unfold sys_break at h ⊢
  dsimp only at h ⊢
  have h1 : ¬ n = w.brk_limit := by omega
  have h5 : ¬ n < w.brk_limit := by omega
  rw [if_neg h1] at h ⊢
  by_cases h2 : n < w.brk_base
  · rw [if_pos h2] at h; exact Status.noConfusion h
  rw [if_neg h2] at h ⊢
  by_cases h3 : n - w.brk_base > w.rlim_data_cur
  · rw [if_pos h3] at h; exact Status.noConfusion h
  rw [if_neg h3] at h ⊢
  by_cases h4 : w.brk_base = 2 ^ 64 - 1 ∨ w.brk_limit = 2 ^ 64 - 1
  · rw [if_pos h4] at h; exact Status.noConfusion h
  rw [if_neg h4, if_neg h5] at h ⊢
  cases r1 : brk_grow_lower A w n w.brk_limit (VG_PGROUNDUP w.brk_base) with
  | error e => rw [r1] at h; exact Status.noConfusion h
  | ok wa =>
    rw [r1] at h
    dsimp only at h ⊢
    have k := brk_grow_upper_keeps A wa n w.brk_limit (VG_PGROUNDUP w.brk_base)
    cases r2 : brk_grow_upper A wa n w.brk_limit (VG_PGROUNDUP w.brk_base) with
    | error e =>
      rw [r2] at h k
      dsimp only at h
      rcases k.2 with k2 | k2 <;> rw [k2] at h <;> exact Status.noConfusion h
    | ok wb =>
      exact ⟨wa, wb, rfl, r2, rfl, by omega, by omega, fun hb => h4 (Or.inl hb)⟩

theorem sys_break_shrink_ok (A : AspaceMgr σ) (tid : Nat) (w wa wb : World σ) (n : Nat)
    (hlt : n < w.brk_limit) (hb : w.brk_base ≤ n) (hr : n - w.brk_base ≤ w.rlim_data_cur)
    (h1 : w.brk_base ≠ 2 ^ 64 - 1) (h2 : w.brk_limit ≠ 2 ^ 64 - 1)
    (hu : brk_shrink_upper A w n w.brk_limit (VG_PGROUNDUP w.brk_base) = .ok wa)
    (hl : brk_shrink_lower A wa n w.brk_limit (VG_PGROUNDUP w.brk_base) = .ok wb) :
    sys_break A tid w n
      = (({ wb with brk_limit := n }).emit (.die_mem_brk n (w.brk_limit - n)), .Success 0) := by
  unfold sys_break
  dsimp only
  rw [if_neg (by omega), if_neg (by omega), if_neg (by omega), if_neg (by omega), if_pos hlt,
    hu]
  dsimp only
  rw [hl]

theorem brk_shrink_upper_ok (A : AspaceMgr σ) (w : World σ) (n o p : Nat) (hno : n < o)
    (hf : p < o → ∃ s, A.am_find_nsegment w.am (if n < p then p else n) = some s ∧
      A.am_find_nsegment w.am (o - 1) = some s ∧ s.kind = .SkAnonC) :
    ∃ w1, brk_shrink_upper A w n o p = .ok w1 ∧ same_brk w w1 ∧ w1.am = w.am ∧
      (∀ x, w.mem x = 0 → w1.mem x = 0) ∧
      (p < o → ∀ s, A.am_find_nsegment w.am (if n < p then p else n) = some s →
        s.hasW = true → ∀ x, (if n < p then p else n) ≤ x → x < o → w1.mem x = 0) := by
  unfold brk_shrink_upper
  dsimp only [World.find_nsegment, World.emit, World.memset_zero]
  by_cases hpo : p < o
  · obtain ⟨s, hs1, hs2, hk⟩ := hf hpo
    have hle : (if n < p then p else n) ≤ o := by split <;> omega
    revert hle
    revert hs1
    generalize (if n < p then p else n) = nl
    intro hs1 hle
    rw [if_pos hpo, hs1, hs2]
    dsimp only
    rw [if_pos ⟨hk, rfl⟩]
    refine ⟨_, rfl, ?_, ?_, ?_, ?_⟩
    · split <;> split <;> exact ⟨rfl, rfl, rfl⟩
    · split <;> split <;> rfl
    · intro x hx
      split <;> split <;> dsimp only <;> (try split) <;> first | rfl | exact hx
    · intro _ s1 hs hw x hx1 hx2
      rw [Option.some.injEq] at hs
      subst hs
      rw [if_pos hw]
      split <;> dsimp only <;> rw [if_pos ⟨hx1, by omega⟩]
  · rw [if_neg hpo]
    exact ⟨w, rfl, same_brk_refl w, rfl, fun _ hx => hx, fun hh => absurd hh hpo⟩

theorem brk_shrink_lower_ok (A : AspaceMgr σ) (w : World σ) (n o p : Nat) (hno : n < o)
    (hf : n < p → ∃ s, A.am_find_nsegment w.am n = some s ∧
      A.am_find_nsegment w.am ((if o < p then o else p) - 1) = some s) :
    ∃ w1, brk_shrink_lower A w n o p = .ok w1 ∧ same_brk w w1 ∧ w1.am = w.am ∧
      (∀ x, w.mem x = 0 → w1.mem x = 0) ∧
      (n < p → ∀ s, A.am_find_nsegment w.am n = some s →
        s.hasW = true → ∀ x, n ≤ x → x < (if o < p then o else p) → w1.mem x = 0) := by
  unfold brk_shrink_lower
  dsimp only [World.find_nsegment, World.emit, World.memset_zero]
  by_cases hnp : n < p
  · obtain ⟨s, hs1, hs2⟩ := hf hnp
    have hle : n ≤ (if o < p then o else p) := by split <;> omega
    revert hle
    revert hs2
    generalize (if o < p then o else p) = ol
    intro hs2 hle
    rw [if_pos hnp, hs1, hs2]
    dsimp only
    rw [if_pos rfl]
    refine ⟨_, rfl, ?_, ?_, ?_, ?_⟩
    · split <;> split <;> exact ⟨rfl, rfl, rfl⟩
    · split <;> split <;> rfl
    · intro x hx
      split <;> split <;> dsimp only <;> (try split) <;> first | rfl | exact hx
    · intro _ s1 hs hw x hx1 hx2
      rw [Option.some.injEq] at hs
      subst hs
      rw [if_pos hw]
      split <;> dsimp only <;> rw [if_pos ⟨hx1, by omega⟩]
  · rw [if_neg hnp]
    exact ⟨w, rfl, same_brk_refl w, rfl, fun _ hx => hx, fun hh => absurd hh hnp⟩

end BreakInversion

/-! ## `sys_break`: growing, then shrinking back (C5) -/

theorem ite_max_ge (L p : Nat) : L ≤ (if L < p then p else L) := by
  split <;> omega

theorem ite_max_lt (L p n : Nat) (h1 : L < n) (h2 : p < n) : (if L < p then p else L) < n := by
  split <;> omega

theorem ite_max_le (L p a : Nat) (h1 : L ≤ a) (h2 : p ≤ a) : (if L < p then p else L) ≤ a := by
  split <;> omega

theorem lt_ite_min (a p n : Nat) (h1 : a < n) (h2 : a < p) : a < (if n < p then n else p) := by
  split <;> omega

theorem ite_min_pred_lt (L p n : Nat) (h1 : L < n) (h2 : L < p) :
    (if n < p then n else p) - 1 < p := by
  split <;> omega

theorem ne_top_of_le_end (n e : Nat) (h1 : n ≤ e + 1) (h2 : (e + 1) % 4096 = 0)
    (h3 : e + 1 < 2 ^ 64) : n ≠ 2 ^ 64 - 1 := by
  have h64 := two_pow_64
  omega

theorem ne_top_of_le_pg (n p : Nat) (h : n ≤ p) (hp : p + 4096 ≤ 2 ^ 64) : n ≠ 2 ^ 64 - 1 := by
  have h64 := two_pow_64
  omega

theorem sub_le_of_add_sub_le (L X b r : Nat) (h : L + X - b ≤ r) : L - b ≤ r := by
  omega

/-- C5, as the code has it.  Over an address-space manager that obeys
`AspaceLaws`, from a state with `brk_base <= brk_limit = L`: if `sys_break(L + X)`
succeeds for an `X > 0`, then a following `sys_break(L)` succeeds and returns
`brk_limit` to `L`; and if the segments over `[L, L + X)` are writable, every
byte of `[L, L + X)` is zero afterwards. -/
theorem sys_break_grow_then_shrink {σ : Type} (A : AspaceMgr σ) (hA : AspaceLaws A)
    (tid tid2 : Nat) (w : World σ) (X : Nat)
    (hinv : w.brk_base ≤ w.brk_limit) (hX : 0 < X) (hX64 : w.brk_limit + X < 2 ^ 64)
    (hgrow : (sys_break A tid w (w.brk_limit + X)).2 = .Success 0) :
    (sys_break A tid2 (sys_break A tid w (w.brk_limit + X)).1 w.brk_limit).2 = .Success 0 ∧
    (sys_break A tid2 (sys_break A tid w (w.brk_limit + X)).1 w.brk_limit).1.brk_limit
      = w.brk_limit ∧
    ((∀ a s, w.brk_limit ≤ a → a < w.brk_limit + X →
        A.am_find_nsegment (sys_break A tid w (w.brk_limit + X)).1.am a = some s →
        s.hasW = true) →
      ∀ a, w.brk_limit ≤ a → a < w.brk_limit + X →
        (sys_break A tid2 (sys_break A tid w (w.brk_limit + X)).1 w.brk_limit).1.mem a = 0) := by
  have hLn : w.brk_limit < w.brk_limit + X := Nat.lt_add_of_pos_right hX
  obtain ⟨wa, wb, hga, hgb, hw1, hb1, hb2, hb3⟩ :=
    sys_break_grow_inv A tid w (w.brk_limit + X) 0 hLn hgrow
  have hla := brk_grow_lower_inv A w wa _ _ _ hga
  have hka := brk_grow_lower_keeps A w (w.brk_limit + X) w.brk_limit (VG_PGROUNDUP w.brk_base)
  rw [hga] at hka
  have hub := brk_grow_upper_inv A hA wa wb _ _ _ hgb hLn hX64
  have hkb := brk_grow_upper_keeps A wa (w.brk_limit + X) w.brk_limit (VG_PGROUNDUP w.brk_base)
  rw [hgb] at hkb
  have hk : same_brk w wb := same_brk_trans hka hkb
  have hp := (pgroundup_le w.brk_base).1
  generalize hw1g : (sys_break A tid w (w.brk_limit + X)).1 = w1 at hw1 ⊢
  -- the state after the first call
  have e_base : w1.brk_base = w.brk_base := by rw [hw1]; exact hk.1
  have e_lim : w1.brk_limit = w.brk_limit + X := by rw [hw1]; rfl
  have e_rlim : w1.rlim_data_cur = w.rlim_data_cur := by rw [hw1]; exact hk.2.2
  have e_am : w1.am = wb.am := by rw [hw1]; rfl
  generalize hpg : VG_PGROUNDUP w.brk_base = p at hla hub hp
  -- the lookups the second call makes
  have F2 : p < w.brk_limit + X → ∃ s,
      A.am_find_nsegment w1.am (if w.brk_limit < p then p else w.brk_limit) = some s ∧
      A.am_find_nsegment w1.am (w.brk_limit + X - 1) = some s ∧ s.kind = .SkAnonC := by
    intro hlt
    obtain ⟨s, h1, h2, h3, _⟩ := hub.1 hlt
    rw [e_am]
    exact ⟨s, h1, h2, h3⟩
  have F1 : w.brk_limit < p → ∃ s, A.am_find_nsegment w1.am w.brk_limit = some s ∧
      A.am_find_nsegment w1.am ((if w.brk_limit + X < p then w.brk_limit + X else p) - 1)
        = some s := by
    intro hlt
    obtain ⟨s, h1, h2⟩ := hla.2.2 hlt
    have hbk := hub.2 w.brk_limit ((if w.brk_limit + X < p then w.brk_limit + X else p) - 1)
      hlt (ite_min_pred_lt _ _ _ hLn hlt) (by rw [hla.1, h1]; rfl) (by rw [hla.1, h1, h2])
    rw [e_am]
    cases hfs : A.am_find_nsegment wb.am w.brk_limit with
    | none => rw [hfs] at hbk; exact absurd hbk.1 (by simp)
    | some s1 => exact ⟨s1, rfl, by rw [← hbk.2, hfs]⟩
  have F3 : w.brk_limit + X ≠ 2 ^ 64 - 1 := by
    by_cases hlt : p < w.brk_limit + X
    · obtain ⟨s, h1, _, h3, h4⟩ := hub.1 hlt
      have he := hA.find_end _ _ _ h1
      exact ne_top_of_le_end _ _ h4 he.1 (he.2 h3)
    · exact ne_top_of_le_pg _ p (Nat.le_of_not_lt hlt) hp
  -- the second call
  obtain ⟨wu, hu, hku, hamu, hmu0, hmu⟩ := brk_shrink_upper_ok A w1 w.brk_limit
    (w.brk_limit + X) p hLn F2
  obtain ⟨wl, hl, hkl, haml, hml0, hml⟩ := brk_shrink_lower_ok A wu w.brk_limit
    (w.brk_limit + X) p hLn (by rw [hamu]; exact F1)
  have g1 : w.brk_limit < w1.brk_limit := by rw [e_lim]; exact hLn
  have g2 : w1.brk_base ≤ w.brk_limit := by rw [e_base]; exact hinv
  have g3 : w.brk_limit - w1.brk_base ≤ w1.rlim_data_cur := by
    rw [e_base, e_rlim]; exact sub_le_of_add_sub_le _ _ _ _ hb2
  have g4 : w1.brk_base ≠ 2 ^ 64 - 1 := by rw [e_base]; exact hb3
  have g5 : w1.brk_limit ≠ 2 ^ 64 - 1 := by rw [e_lim]; exact F3
  have hsecond := sys_break_shrink_ok A tid2 w1 wu wl w.brk_limit g1 g2 g3 g4 g5
    (by rw [e_lim, e_base, hpg]; exact hu) (by rw [e_lim, e_base, hpg]; exact hl)
  rw [hsecond]
  refine ⟨rfl, rfl, ?_⟩
  intro hW a ha1 ha2
  show wl.mem a = 0
  by_cases hap : p ≤ a
  · apply hml0
    have hpl : p < w.brk_limit + X := Nat.lt_of_le_of_lt hap ha2
    obtain ⟨s, h1, _, _⟩ := F2 hpl
    exact hmu hpl s h1 (hW _ s (ite_max_ge _ _) (ite_max_lt _ _ _ hLn hpl) h1) a
      (ite_max_le _ _ _ ha1 hap) ha2
  · have hap2 : a < p := Nat.lt_of_not_le hap
    have hlp : w.brk_limit < p := Nat.lt_of_le_of_lt ha1 hap2
    obtain ⟨s, h1, _⟩ := F1 hlp
    exact hml hlp s (by rw [hamu]; exact h1) (hW _ s (Nat.le_refl _) hLn h1) a ha1
      (lt_ite_min _ _ _ ha2 hap2)

/-- C5, witness: `toy_world` over the writable example manager, `X = 16`. -/
theorem sys_break_grow_then_shrink_witness :
    (toy_world.brk_base ≤ toy_world.brk_limit ∧ 0 < 16 ∧ toy_world.brk_limit + 16 < 2 ^ 64 ∧
      (sys_break (toyAM true) 1 toy_world (toy_world.brk_limit + 16)).2 = .Success 0) ∧
    (sys_break (toyAM true) 2 (sys_break (toyAM true) 1 toy_world (toy_world.brk_limit + 16)).1
        toy_world.brk_limit).2 = .Success 0 ∧
    ∀ a, toy_world.brk_limit ≤ a → a < toy_world.brk_limit + 16 →
      (sys_break (toyAM true) 2 (sys_break (toyAM true) 1 toy_world (toy_world.brk_limit + 16)).1
        toy_world.brk_limit).1.mem a = 0 :=
  have h := sys_break_grow_then_shrink (toyAM true) (toyAM_laws true) 1 2 toy_world 16
    (by decide) (by decide) (by decide) (by decide)
  ⟨⟨by decide, by decide, by decide, by decide⟩, h.1, h.2.2 (by
    intro a s ha1 ha2 hs
    obtain ⟨hm, h1, h2⟩ := toyAM_find true _ a s hs
    have hl : toy_world.brk_limit = 0x3000 := rfl
    rw [hl] at ha2
    rcases toy_segs_mem true s hm with ⟨_, _, _, hw⟩ | ⟨_, _, _, hw⟩ | ⟨hst, _, _, _⟩
    · exact hw
    · exact hw
    · omega)⟩

/-- C5, counterexample: over a heap mapping that is not writable the shrink
skips the zero-fill.  Both calls succeed and `brk_limit` is back at `0x3000`,
but the byte at `0x3000`, in the region grown and given back, still holds
`0xAA`. -/
theorem sys_break_shrink_leaves_bytes :
    (sys_break (toyAM false) 1 toy_world (0x3000 + 16)).2 = .Success 0 ∧
    (sys_break (toyAM false) 1 (sys_break (toyAM false) 1 toy_world (0x3000 + 16)).1
        0x3000).2 = .Success 0 ∧
    (sys_break (toyAM false) 1 (sys_break (toyAM false) 1 toy_world (0x3000 + 16)).1
        0x3000).1.brk_limit = 0x3000 ∧
    ¬ ∀ a, 0x3000 ≤ a → a < 0x3000 + 16 →
      (sys_break (toyAM false) 1 (sys_break (toyAM false) 1 toy_world (0x3000 + 16)).1
        0x3000).1.mem a = 0 :=
  ⟨by decide, by decide, by decide, fun h => absurd (h 0x3000 (by decide) (by decide)) (by decide)⟩

/-! ## `setup_client_stack`: the size of the string table (C1) -/

/-- C1, at the failing input: the command `ls` resolved to `/bin/ls`, and a
host auxiliary vector without `AT_SUN_EXECNAME`.  The size computation counts
the 8 bytes of `/bin/ls` for `argv[0]`; the string table receives the 3 bytes
of `ls`; the final assertion fails and the engine aborts. -/
theorem setup_client_stack_stringsize_mismatch :
    stack_stringsize stack_args0 = 8 ∧
    (create_client_stack stack_args0).strtab.bytes = "ls".toList ++ [NUL] ∧
    (create_client_stack stack_args0).strtab.strtab - (create_client_stack stack_args0).stringbase
      = 3 ∧
    stack_failure (setup_client_stack okAM () 0 stack_args0) = some .Abort := by
  decide

/-! ## `setup_client_stack`: the stack pointer (C11) -/

theorem rounddn_16 (x : Nat) : VG_ROUNDDN x 16 % 16 = 0 ∧ VG_ROUNDDN x 16 ≤ x := by
  unfold VG_ROUNDDN
  omega

theorem pgrounddn_facts (x : Nat) :
    VG_PGROUNDDN x % 4096 = 0 ∧ VG_PGROUNDDN x ≤ x ∧ x < VG_PGROUNDDN x + 4096 := by
  unfold VG_PGROUNDDN VG_ROUNDDN VKI_PAGE_SIZE
  omega

theorem stack_space_clstack_start (a : StackArgs) :
    (stack_space a).clstack_start = VG_PGROUNDDN (stack_client_SP a) := by
  unfold stack_space
  dsimp only
  split <;> rfl

/-- C11: when the computed stack size does not exceed `clstack_end`, the stack
pointer that `setup_client_stack` returns is a multiple of 16 and lies between
`clstack_start`, the start of the page that contains it, and
`clstack_end - stacksize`. -/
theorem client_SP_aligned_and_bounded (a : StackArgs) (h64 : a.clstack_end < 2 ^ 64)
    (hsz : stack_stacksize a ≤ a.clstack_end) :
    (create_client_stack a).client_SP = stack_client_SP a ∧
    stack_client_SP a % 16 = 0 ∧
    (stack_space a).clstack_start ≤ stack_client_SP a ∧
    stack_client_SP a ≤ a.clstack_end - stack_stacksize a ∧
    (stack_space a).clstack_start % 4096 = 0 ∧
    stack_client_SP a < (stack_space a).clstack_start + 4096 := by
  have hr := rounddn_16 (word_sub a.clstack_end (stack_stacksize a))
  have hp := pgrounddn_facts (stack_client_SP a)
  rw [stack_space_clstack_start]
  refine ⟨rfl, hr.1, hp.2.1, ?_, hp.1, hp.2.2⟩
  have hs := word_sub_eq _ _ h64 hsz
  unfold stack_client_SP
  rw [hs] at hr ⊢
  exact hr.2

/-- C11, witness: the example arguments with `AT_SUN_EXECNAME`. -/
theorem client_SP_aligned_and_bounded_witness :
    (stack_args1.clstack_end < 2 ^ 64 ∧ stack_stacksize stack_args1 ≤ stack_args1.clstack_end) ∧
    stack_client_SP stack_args1 % 16 = 0 ∧
    (stack_space stack_args1).clstack_start ≤ stack_client_SP stack_args1 :=
  have h := client_SP_aligned_and_bounded stack_args1 (by decide) (by decide)
  ⟨⟨by decide, by decide⟩, h.2.1, h.2.2.1⟩

/-! ## `setup_client_stack`: the string table and `argv` (C12) -/

theorem str_at_iff (base : Nat) (bytes : List HChar) (p : Nat) (s : CStr) :
    str_at base bytes p s = true ↔
      base ≤ p ∧ (bytes.drop (p - base)).take (s.length + 1) = s ++ [NUL] := by
  unfold str_at
  rw [Bool.and_eq_true, decide_eq_true_iff, decide_eq_true_iff]

theorem str_at_append (base : Nat) (bytes post : List HChar) (p : Nat) (s : CStr)
    (h : str_at base bytes p s = true) : str_at base (bytes ++ post) p s = true := by
  rw [str_at_iff] at h ⊢
  refine ⟨h.1, ?_⟩
  have hlen : s.length + 1 ≤ (bytes.drop (p - base)).length := by
    have h2 := congrArg List.length h.2
    rw [List.length_take, List.length_append, List.length_singleton] at h2
    omega
  rw [List.drop_append_eq_append_drop, List.take_append_of_le_length hlen]
  exact h.2

theorem str_at_copy_str (base : Nat) (tab : StrTab) (s : CStr)
    (hinv : tab.strtab = base + tab.bytes.length) :
    str_at base (copy_str tab s).1.bytes (copy_str tab s).2 s = true := by
  rw [str_at_iff]
  unfold copy_str
  dsimp only
  refine ⟨by omega, ?_⟩
  have hd : tab.strtab - base = tab.bytes.length := by omega
  rw [hd, List.append_assoc, List.drop_left, List.take_of_length_le]
  rw [List.length_append, List.length_singleton]

theorem copy_str_inv (base : Nat) (tab : StrTab) (s : CStr) (hinv : tab_inv base tab) :
    tab_inv base (copy_str tab s).1 ∧ ∃ suf, (copy_str tab s).1.bytes = tab.bytes ++ suf := by
  unfold tab_inv at hinv ⊢
  unfold copy_str
  dsimp only
  refine ⟨?_, s ++ [NUL], by rw [List.append_assoc]⟩
  rw [List.length_append, List.length_append, List.length_singleton]
  omega

theorem copy_strs_spec (base : Nat) (l : List CStr) (tab : StrTab) (hinv : tab_inv base tab) :
    tab_inv base (copy_strs tab l).1 ∧
    (∃ suf, (copy_strs tab l).1.bytes = tab.bytes ++ suf) ∧
    List.Forall₂ (fun p s => str_at base (copy_strs tab l).1.bytes p s = true)
      (copy_strs tab l).2 l := by
  induction l generalizing tab with
  | nil => exact ⟨hinv, ⟨[], by simp [copy_strs]⟩, List.Forall₂.nil⟩
  | cons s rest ih =>
    have h1 := copy_str_inv base tab s hinv
    have h2 := ih (copy_str tab s).1 h1.1
    obtain ⟨suf1, hs1⟩ := h1.2
    obtain ⟨suf2, hs2⟩ := h2.2.1
    unfold copy_strs
    dsimp only
    refine ⟨h2.1, ⟨suf1 ++ suf2, by rw [hs2, hs1, List.append_assoc]⟩, List.Forall₂.cons ?_ h2.2.2⟩
    rw [hs2]
    exact str_at_append _ _ _ _ _ (str_at_copy_str base tab s hinv)

theorem forall₂_str_at_append (base : Nat) (bytes post : List HChar) (ps : List Nat)
    (l : List CStr) (h : List.Forall₂ (fun p s => str_at base bytes p s = true) ps l) :
    List.Forall₂ (fun p s => str_at base (bytes ++ post) p s = true) ps l := by
  induction h with
  | nil => exact List.Forall₂.nil
  | cons h1 _ ih => exact List.Forall₂.cons (str_at_append _ _ _ _ _ h1) ih

theorem auxv_transformed_append (a : StackArgs) (base : Nat) (bytes post : List HChar)
    (e o : auxv) (h : auxv_transformed a base bytes e o) :
    auxv_transformed a base (bytes ++ post) e o := by
  obtain ⟨h1, h2, h3, h4, h5, h6, h7, h8⟩ := h
  exact ⟨h1, h2, h3, h4, h5, fun hh => ⟨(h6 hh).1, str_at_append _ _ _ _ _ (h6 hh).2⟩, h7, h8⟩

theorem fix_auxv_spec (a : StackArgs) (base : Nat) (tab : StrTab) (e : auxv)
    (hinv : tab_inv base tab) :
    tab_inv base (fix_auxv a tab e).1 ∧
    (∃ suf, (fix_auxv a tab e).1.bytes = tab.bytes ++ suf) ∧
    auxv_transformed a base (fix_auxv a tab e).1.bytes e (fix_auxv a tab e).2 ∧
    ((fix_auxv a tab e).2.a_type ≠ AT_NULL ∧ auxv_known (fix_auxv a tab e).2.a_type) := by
  rcases e with ⟨t, u⟩
  unfold fix_auxv
  dsimp only
  have hsame : ∃ suf, tab.bytes = tab.bytes ++ suf := ⟨[], (List.append_nil _).symm⟩
  by_cases h1 : t = AT_IGNORE ∨ t = AT_PHENT ∨ t = AT_PAGESZ ∨ t = AT_FLAGS
      ∨ t = AT_EUID ∨ t = AT_RUID ∨ t = AT_EGID ∨ t = AT_RGID
  · rw [if_pos h1]
    refine ⟨hinv, hsame, ?_, ?_⟩
    · unfold auxv_transformed auxv_known
      simp only [AT_IGNORE, AT_PHENT, AT_PAGESZ, AT_FLAGS, AT_EUID, AT_RUID, AT_EGID, AT_RGID,
        AT_PHDR, AT_PHNUM, AT_BASE, AT_ENTRY, AT_STACKBASE, AT_SUN_EXECNAME] at h1 ⊢
      refine ⟨?_, ?_, ?_, ?_, ?_, ?_, ?_, ?_⟩ <;> intro h <;>
        first | rfl | trivial | omega
    · unfold auxv_known
      simp only [AT_IGNORE, AT_PHENT, AT_PAGESZ, AT_FLAGS, AT_EUID, AT_RUID, AT_EGID, AT_RGID,
        AT_PHDR, AT_PHNUM, AT_BASE, AT_ENTRY, AT_STACKBASE, AT_SUN_EXECNAME, AT_NULL] at h1 ⊢
      constructor <;> (try dsimp only) <;> omega
  rw [if_neg h1]
  by_cases h2 : t = AT_PHDR
  · rw [if_pos h2]
    refine ⟨hinv, hsame, ?_, ?_⟩
    · unfold auxv_transformed auxv_known
      simp only [AT_IGNORE, AT_PHENT, AT_PAGESZ, AT_FLAGS, AT_EUID, AT_RUID, AT_EGID, AT_RGID,
        AT_PHDR, AT_PHNUM, AT_BASE, AT_ENTRY, AT_STACKBASE, AT_SUN_EXECNAME, AT_NULL] at h1 h2 ⊢
      by_cases hp : a.info.phdr = 0
      · rw [if_pos hp]
        refine ⟨?_, ?_, ?_, ?_, ?_, ?_, ?_, ?_⟩ <;> intro h <;>
          first | rfl | trivial | omega | exact ⟨fun hh => absurd hp hh, fun _ => rfl⟩ |
            (subst h; first | rfl | exact ⟨fun _ => rfl, fun hh => absurd hh hp⟩)
      · rw [if_neg hp]
        refine ⟨?_, ?_, ?_, ?_, ?_, ?_, ?_, ?_⟩ <;> intro h <;>
          first | rfl | trivial | omega | exact ⟨fun hh => absurd hp hh, fun _ => rfl⟩ |
            (subst h; first | rfl | exact ⟨fun _ => rfl, fun hh => absurd hh hp⟩)
    · unfold auxv_known
      simp only [AT_IGNORE, AT_PHENT, AT_PAGESZ, AT_FLAGS, AT_EUID, AT_RUID, AT_EGID, AT_RGID,
        AT_PHDR, AT_PHNUM, AT_BASE, AT_ENTRY, AT_STACKBASE, AT_SUN_EXECNAME, AT_NULL] at h1 h2 ⊢
      constructor <;> split <;> (try dsimp only) <;> omega
  rw [if_neg h2]
  by_cases h3 : t = AT_PHNUM
  · rw [if_pos h3]
    refine ⟨hinv, hsame, ?_, ?_⟩
    · unfold auxv_transformed auxv_known
      simp only [AT_IGNORE, AT_PHENT, AT_PAGESZ, AT_FLAGS, AT_EUID, AT_RUID, AT_EGID, AT_RGID,
        AT_PHDR, AT_PHNUM, AT_BASE, AT_ENTRY, AT_STACKBASE, AT_SUN_EXECNAME, AT_NULL] at h1 h2 h3 ⊢
      by_cases hp : a.info.phdr = 0
      · rw [if_pos hp]
        refine ⟨?_, ?_, ?_, ?_, ?_, ?_, ?_, ?_⟩ <;> intro h <;>
          first | rfl | trivial | omega | exact ⟨fun hh => absurd hp hh, fun _ => rfl⟩ |
            (subst h; first | rfl | exact ⟨fun _ => rfl, fun hh => absurd hh hp⟩)
      · rw [if_neg hp]
        refine ⟨?_, ?_, ?_, ?_, ?_, ?_, ?_, ?_⟩ <;> intro h <;>
          first | rfl | trivial | omega | exact ⟨fun hh => absurd hp hh, fun _ => rfl⟩ |
            (subst h; first | rfl | exact ⟨fun _ => rfl, fun hh => absurd hh hp⟩)
    · unfold auxv_known
      simp only [AT_IGNORE, AT_PHENT, AT_PAGESZ, AT_FLAGS, AT_EUID, AT_RUID, AT_EGID, AT_RGID,
        AT_PHDR, AT_PHNUM, AT_BASE, AT_ENTRY, AT_STACKBASE, AT_SUN_EXECNAME, AT_NULL] at h1 h2 h3 ⊢
      constructor <;> split <;> (try dsimp only) <;> omega
  rw [if_neg h3]
  by_cases h4 : t = AT_BASE
  · rw [if_pos h4]
    refine ⟨hinv, hsame, ?_, ?_⟩
    · unfold auxv_transformed auxv_known
      simp only [AT_IGNORE, AT_PHENT, AT_PAGESZ, AT_FLAGS, AT_EUID, AT_RUID, AT_EGID, AT_RGID,
        AT_PHDR, AT_PHNUM, AT_BASE, AT_ENTRY, AT_STACKBASE, AT_SUN_EXECNAME, AT_NULL] at h1 h2 h3 h4 ⊢
      refine ⟨?_, ?_, ?_, ?_, ?_, ?_, ?_, ?_⟩ <;> intro h <;>
          first | rfl | trivial | omega | exact ⟨fun hh => absurd hp hh, fun _ => rfl⟩ |
            (subst h; first | rfl | exact ⟨fun _ => rfl, fun hh => absurd hh hp⟩)
    · unfold auxv_known
      simp only [AT_IGNORE, AT_PHENT, AT_PAGESZ, AT_FLAGS, AT_EUID, AT_RUID, AT_EGID, AT_RGID,
        AT_PHDR, AT_PHNUM, AT_BASE, AT_ENTRY, AT_STACKBASE, AT_SUN_EXECNAME, AT_NULL] at h1 h2 h3 h4 ⊢
      constructor <;> (try dsimp only) <;> omega
  rw [if_neg h4]
  by_cases h5 : t = AT_ENTRY
  · rw [if_pos h5]
    refine ⟨hinv, hsame, ?_, ?_⟩
    · unfold auxv_transformed auxv_known
      simp only [AT_IGNORE, AT_PHENT, AT_PAGESZ, AT_FLAGS, AT_EUID, AT_RUID, AT_EGID, AT_RGID,
        AT_PHDR, AT_PHNUM, AT_BASE, AT_ENTRY, AT_STACKBASE, AT_SUN_EXECNAME, AT_NULL] at h1 h2 h3 h4 h5 ⊢
      refine ⟨?_, ?_, ?_, ?_, ?_, ?_, ?_, ?_⟩ <;> intro h <;>
          first | rfl | trivial | omega | exact ⟨fun hh => absurd hp hh, fun _ => rfl⟩ |
            (subst h; first | rfl | exact ⟨fun _ => rfl, fun hh => absurd hh hp⟩)
    · unfold auxv_known
      simp only [AT_IGNORE, AT_PHENT, AT_PAGESZ, AT_FLAGS, AT_EUID, AT_RUID, AT_EGID, AT_RGID,
        AT_PHDR, AT_PHNUM, AT_BASE, AT_ENTRY, AT_STACKBASE, AT_SUN_EXECNAME, AT_NULL] at h1 h2 h3 h4 h5 ⊢
      constructor <;> (try dsimp only) <;> omega
  rw [if_neg h5]
  by_cases h6 : t = AT_STACKBASE
  · rw [if_pos h6]
    refine ⟨hinv, hsame, ?_, ?_⟩
    · unfold auxv_transformed auxv_known
      simp only [AT_IGNORE, AT_PHENT, AT_PAGESZ, AT_FLAGS, AT_EUID, AT_RUID, AT_EGID, AT_RGID,
        AT_PHDR, AT_PHNUM, AT_BASE, AT_ENTRY, AT_STACKBASE, AT_SUN_EXECNAME, AT_NULL] at h1 h2 h3 h4 h5 h6 ⊢
      refine ⟨?_, ?_, ?_, ?_, ?_, ?_, ?_, ?_⟩ <;> intro h <;>
          first | rfl | trivial | omega | exact ⟨fun hh => absurd hp hh, fun _ => rfl⟩ |
            (subst h; first | rfl | exact ⟨fun _ => rfl, fun hh => absurd hh hp⟩)
    · unfold auxv_known
      simp only [AT_IGNORE, AT_PHENT, AT_PAGESZ, AT_FLAGS, AT_EUID, AT_RUID, AT_EGID, AT_RGID,
        AT_PHDR, AT_PHNUM, AT_BASE, AT_ENTRY, AT_STACKBASE, AT_SUN_EXECNAME, AT_NULL] at h1 h2 h3 h4 h5 h6 ⊢
      constructor <;> (try dsimp only) <;> omega
  rw [if_neg h6]
  by_cases h7 : t = AT_SUN_EXECNAME
  · rw [if_pos h7]
    have hc := copy_str_inv base tab a.resolved_exe_name hinv
    have hs := str_at_copy_str base tab a.resolved_exe_name hinv
    refine ⟨hc.1, hc.2, ?_, ?_⟩
    · unfold auxv_transformed auxv_known
      simp only [AT_IGNORE, AT_PHENT, AT_PAGESZ, AT_FLAGS, AT_EUID, AT_RUID, AT_EGID, AT_RGID,
        AT_PHDR, AT_PHNUM, AT_BASE, AT_ENTRY, AT_STACKBASE, AT_SUN_EXECNAME, AT_NULL] at h1 h2 h3 h4 h5 h6 h7 ⊢
      refine ⟨?_, ?_, ?_, ?_, ?_, ?_, ?_, ?_⟩ <;> intro h <;>
        first | rfl | trivial | omega
    · unfold auxv_known
      simp only [AT_IGNORE, AT_PHENT, AT_PAGESZ, AT_FLAGS, AT_EUID, AT_RUID, AT_EGID, AT_RGID,
        AT_PHDR, AT_PHNUM, AT_BASE, AT_ENTRY, AT_STACKBASE, AT_SUN_EXECNAME, AT_NULL] at h1 h2 h3 h4 h5 h6 h7 ⊢
      constructor <;> (try dsimp only) <;> omega
  rw [if_neg h7]
  refine ⟨hinv, hsame, ?_, ?_⟩
  · unfold auxv_transformed auxv_known
    simp only [AT_IGNORE, AT_PHENT, AT_PAGESZ, AT_FLAGS, AT_EUID, AT_RUID, AT_EGID, AT_RGID,
        AT_PHDR, AT_PHNUM, AT_BASE, AT_ENTRY, AT_STACKBASE, AT_SUN_EXECNAME, AT_NULL] at h1 h2 h3 h4 h5 h6 h7 ⊢
    refine ⟨?_, ?_, ?_, ?_, ?_, ?_, ?_, ?_⟩ <;> intro h <;>
      first | rfl | trivial | omega
  · exact ⟨show AT_IGNORE ≠ AT_NULL by decide, Or.inl rfl⟩

theorem copy_auxv_spec (a : StackArgs) (base : Nat) (l : List auxv) (tab : StrTab)
    (hinv : tab_inv base tab) :
    tab_inv base (copy_auxv a tab l).1 ∧
    (∃ suf, (copy_auxv a tab l).1.bytes = tab.bytes ++ suf) ∧
    List.Forall₂ (auxv_transformed a base (copy_auxv a tab l).1.bytes) l (copy_auxv a tab l).2 ∧
    ∀ o ∈ (copy_auxv a tab l).2, o.a_type ≠ AT_NULL ∧ auxv_known o.a_type := by
  induction l generalizing tab with
  | nil =>
    exact ⟨hinv, ⟨[], (List.append_nil _).symm⟩, List.Forall₂.nil, fun o ho => by
      simp [copy_auxv] at ho⟩
  | cons e rest ih =>
    have h1 := fix_auxv_spec a base tab e hinv
    have h2 := ih (fix_auxv a tab e).1 h1.1
    obtain ⟨suf1, hs1⟩ := h1.2.1
    obtain ⟨suf2, hs2⟩ := h2.2.1
    unfold copy_auxv
    dsimp only
    refine ⟨h2.1, ⟨suf1 ++ suf2, by rw [hs2, hs1, List.append_assoc]⟩,
      List.Forall₂.cons ?_ h2.2.2.1, ?_⟩
    · rw [hs2]
      exact auxv_transformed_append _ _ _ _ _ _ h1.2.2.1
    · intro o ho
      rcases List.mem_cons.mp ho with h | h
      · rw [h]; exact h1.2.2.2
      · exact h2.2.2.2 o h

theorem forall₂_auxv_append (a : StackArgs) (base : Nat) (bytes post : List HChar)
    (l o : List auxv) (h : List.Forall₂ (auxv_transformed a base bytes) l o) :
    List.Forall₂ (auxv_transformed a base (bytes ++ post)) l o := by
  induction h with
  | nil => exact List.Forall₂.nil
  | cons h1 _ ih => exact List.Forall₂.cons (auxv_transformed_append _ _ _ _ _ _ h1) ih

theorem copy_opt_eq (tab : StrTab) (o : Option CStr) :
    (match o with
      | some s => copy_strs tab [s]
      | none => (tab, [])) = copy_strs tab o.toList := by
  cases o <;> rfl

theorem auxv_terminator_type (l : List auxv) : (auxv_terminator l).a_type = AT_NULL := by
  unfold auxv_terminator
  cases h : (l.dropWhile (fun e => e.a_type != AT_NULL)).head? with
  | none => rfl
  | some e =>
    rw [Option.getD_some]
    have h1 := List.head?_dropWhile_not (fun e : auxv => e.a_type != AT_NULL) l
    rw [h] at h1
    simpa using h1

/-- What the section "create client stack" stores, in terms of the string
table: the pointers of `argv`, of `envp` and of the auxiliary vector point at
copies of their sources. -/
theorem create_client_stack_strings (a : StackArgs) :
    (create_client_stack a).stringbase = stack_stringbase a ∧
    List.Forall₂ (fun p s => points_to (create_client_stack a) p s = true)
      (create_client_stack a).argv (argv_sources a) ∧
    List.Forall₂ (fun p s => points_to (create_client_stack a) p s = true)
      (create_client_stack a).envp a.orig_envp ∧
    List.Forall₂ (auxv_transformed a (create_client_stack a).stringbase
        (create_client_stack a).strtab.bytes)
      (auxv_entries a.orig_auxv) (create_client_stack a).auxv_out.dropLast ∧
    (∀ o ∈ (create_client_stack a).auxv_out.dropLast, o.a_type ≠ AT_NULL ∧ auxv_known o.a_type) ∧
    (create_client_stack a).auxv_out.getLast? = some (auxv_terminator a.orig_auxv) := by
  unfold create_client_stack points_to
  simp only [copy_opt_eq]
  have hb : tab_inv (stack_stringbase a) { strtab := stack_stringbase a, bytes := [] } := rfl
  generalize ({ strtab := stack_stringbase a, bytes := [] } : StrTab) = t0 at hb ⊢
  have k1 := copy_strs_spec _ a.info.interp_name.toList t0 hb
  generalize copy_strs t0 a.info.interp_name.toList = r1 at k1 ⊢
  have k2 := copy_strs_spec _ a.info.interp_args.toList r1.1 k1.1
  generalize copy_strs r1.1 a.info.interp_args.toList = r2 at k2 ⊢
  have k3 := copy_strs_spec _ [a.args_the_exename] r2.1 k2.1
  have e3 : copy_strs r2.1 [a.args_the_exename]
      = ((copy_str r2.1 a.args_the_exename).1, [(copy_str r2.1 a.args_the_exename).2]) := rfl
  rw [e3] at k3
  generalize copy_str r2.1 a.args_the_exename = r3 at k3 ⊢
  have k4 := copy_strs_spec _ a.args_for_client r3.1 k3.1
  generalize copy_strs r3.1 a.args_for_client = r4 at k4 ⊢
  have k5 := copy_strs_spec _ a.orig_envp r4.1 k4.1
  generalize copy_strs r4.1 a.orig_envp = r5 at k5 ⊢
  have k6 := copy_auxv_spec a _ (auxv_entries a.orig_auxv) r5.1 k5.1
  generalize copy_auxv a r5.1 (auxv_entries a.orig_auxv) = r6 at k6 ⊢
  obtain ⟨s2, hs2⟩ := k2.2.1
  obtain ⟨s3, hs3⟩ := k3.2.1
  obtain ⟨s4, hs4⟩ := k4.2.1
  obtain ⟨s5, hs5⟩ := k5.2.1
  obtain ⟨s6, hs6⟩ := k6.2.1
  dsimp only at hs3 k3 ⊢
  refine ⟨trivial, ?_, ?_, ?_, ?_, ?_⟩
  · unfold argv_sources
    have a1 := forall₂_str_at_append _ _ (s2 ++ s3 ++ s4 ++ s5 ++ s6) _ _ k1.2.2
    have a2 := forall₂_str_at_append _ _ (s3 ++ s4 ++ s5 ++ s6) _ _ k2.2.2
    have a3 := forall₂_str_at_append _ _ (s4 ++ s5 ++ s6) _ _ k3.2.2
    have a4 := forall₂_str_at_append _ _ (s5 ++ s6) _ _ k4.2.2
    have e : r6.1.bytes = r1.1.bytes ++ (s2 ++ s3 ++ s4 ++ s5 ++ s6) := by
      rw [hs6, hs5, hs4, hs3, hs2]; simp only [List.append_assoc]
    have e2 : r6.1.bytes = r2.1.bytes ++ (s3 ++ s4 ++ s5 ++ s6) := by
      rw [hs6, hs5, hs4, hs3]; simp only [List.append_assoc]
    have e3 : r6.1.bytes = r3.1.bytes ++ (s4 ++ s5 ++ s6) := by
      rw [hs6, hs5, hs4]; simp only [List.append_assoc]
    have e4 : r6.1.bytes = r4.1.bytes ++ (s5 ++ s6) := by
      rw [hs6, hs5]; simp only [List.append_assoc]
    rw [← e] at a1
    rw [← e2] at a2
    rw [← e3] at a3
    rw [← e4] at a4
    exact List.rel_append (List.rel_append (List.rel_append a1 a2) a3) a4
  · have a5 := forall₂_str_at_append _ _ s6 _ _ k5.2.2
    rw [← hs6] at a5
    exact a5
  · rw [List.dropLast_concat]
    exact k6.2.2.1
  · rw [List.dropLast_concat]
    exact k6.2.2.2
  · rw [List.getLast?_append]
    rfl

/-- C12, as the code has it: the pointers of `argv` point, in order, at
string-table copies of the interpreter name and the interpreter arguments
(when present), of `VG_(args_the_exename)`, the executable name as it was
given, and of each client argument; in the words stored from `client_SP` they
follow `argc` and a null word follows them. -/
theorem argv_points_at_copies (a : StackArgs) :
    List.Forall₂ (fun p s => points_to (create_client_stack a) p s = true)
      (create_client_stack a).argv
      (a.info.interp_name.toList ++ a.info.interp_args.toList ++ [a.args_the_exename]
        ++ a.args_for_client) ∧
    stack_words (create_client_stack a)
      = [(create_client_stack a).client_argc] ++ (create_client_stack a).argv ++ [0]
        ++ (create_client_stack a).envp ++ [0] :=
  ⟨(create_client_stack_strings a).2.1, rfl⟩

/-- C12, counterexample: for the command `ls` resolved to `/bin/ls` the one
pointer of `argv` does not point at a copy of the resolved path `/bin/ls`; it
points at a copy of `ls`. -/
theorem argv0_is_not_resolved_name :
    (create_client_stack stack_args1).argv = [140187732541395] ∧
    points_to (create_client_stack stack_args1) 140187732541395
      stack_args1.resolved_exe_name = false ∧
    points_to (create_client_stack stack_args1) 140187732541395
      stack_args1.args_the_exename = true := by
  decide

/-! ## `setup_client_stack`: the auxiliary vector (C13) -/

/-- C13: the client auxiliary vector has one entry for each entry of the
prototype before `AT_NULL` and ends with the prototype's `AT_NULL` entry; each
entry before it is the prototype entry transformed according to its type
(`auxv_transformed`); and every type tag stored is `AT_NULL` or one of the
tags the code knows. -/
theorem client_auxv_transformed (a : StackArgs) :
    (create_client_stack a).auxv_out.length = (auxv_entries a.orig_auxv).length + 1 ∧
    (create_client_stack a).auxv_out.getLast? = some (auxv_terminator a.orig_auxv) ∧
    (auxv_terminator a.orig_auxv).a_type = AT_NULL ∧
    List.Forall₂ (auxv_transformed a (create_client_stack a).stringbase
        (create_client_stack a).strtab.bytes)
      (auxv_entries a.orig_auxv) (create_client_stack a).auxv_out.dropLast ∧
    (∀ o ∈ (create_client_stack a).auxv_out.dropLast,
      o.a_type ≠ AT_NULL ∧ auxv_known o.a_type) := by
  have h := create_client_stack_strings a
  refine ⟨?_, h.2.2.2.2.2, auxv_terminator_type _, h.2.2.2.1, h.2.2.2.2.1⟩
  have hl := h.2.2.2.1.length_eq
  have hne : (create_client_stack a).auxv_out ≠ [] := by
    intro hnil
    have := h.2.2.2.2.2
    rw [hnil] at this
    exact Option.noConfusion this
  rw [List.length_dropLast] at hl
  have hpos := List.length_pos.mpr hne
  omega

/-! ## `setup_client_stack`: counts and the trailer record (C14) -/

theorem stack_stringbase_mod (a : StackArgs)
    (hal : VG_IS_PAGE_ALIGNED (word_add a.clstack_end 1) = true) :
    stack_stringbase a % 4 = 3 := by
  have h := two_pow_64
  unfold VG_IS_PAGE_ALIGNED word_add VKI_PAGE_SIZE at hal
  have hal2 : (a.clstack_end + 1) % 2 ^ 64 % 4096 = 0 := by simpa using hal
  unfold stack_stringbase word_sub VG_ROUNDUP VG_ROUNDDN word_add sizeof_ps_strings sizeof_int
  generalize stack_stringsize a = ss
  rw [h] at hal2 ⊢
  omega

theorem copy_strs_length (tab : StrTab) (l : List CStr) : (copy_strs tab l).2.length = l.length := by
  induction l generalizing tab with
  | nil => rfl
  | cons s rest ih => unfold copy_strs; dsimp only; rw [List.length_cons, List.length_cons, ih]

theorem points_to_ge (st : ClientStack) (p : Nat) (s : CStr) (h : points_to st p s = true) :
    st.stringbase ≤ p :=
  ((str_at_iff _ _ _ _).mp h).1

theorem forall₂_left_of (st : ClientStack) (ps : List Nat) (l : List CStr)
    (h : List.Forall₂ (fun p s => points_to st p s = true) ps l) :
    ∀ p ∈ ps, st.stringbase ≤ p := by
  induction h with
  | nil => intro p hp; exact absurd hp (List.not_mem_nil _)
  | cons h1 _ ih =>
    intro p hp
    rcases List.mem_cons.mp hp with h | h
    · rw [h]; exact points_to_ge _ _ _ h1
    · exact ih p h

/-- C14: the `argc` word at the stack pointer and the argument count of the
trailer record are the number of `argv` pointers stored, one more than the
interpreter strings present and the client arguments; the environment count of
the trailer is the number of `envp` pointers stored; the trailer's `argv`
pointer is one word above the stack pointer and its `envp` pointer is the
address of the slot after the null word that ends `argv`; and when
`clstack_end + 1` is page-aligned none of the pointers stored is null. -/
theorem argc_and_ps_strings (a : StackArgs) :
    (stack_words (create_client_stack a))[0]? = some (create_client_stack a).argv.length ∧
    (create_client_stack a).pss.ps_nargvstr = (create_client_stack a).argv.length ∧
    (create_client_stack a).argv.length
      = 1 + a.info.interp_name.toList.length + a.info.interp_args.toList.length
        + a.args_for_client.length ∧
    (stack_words (create_client_stack a))[(create_client_stack a).argv.length + 1]? = some 0 ∧
    (create_client_stack a).pss.ps_nenvstr = (create_client_stack a).envp.length ∧
    (create_client_stack a).envp.length = a.orig_envp.length ∧
    (create_client_stack a).pss.ps_argvstr = (create_client_stack a).client_SP + sizeof_Word ∧
    (create_client_stack a).pss.ps_envstr
      = (create_client_stack a).client_SP
        + sizeof_Word * (1 + (create_client_stack a).argv.length + 1) ∧
    (VG_IS_PAGE_ALIGNED (word_add a.clstack_end 1) = true →
      ∀ p ∈ (create_client_stack a).argv ++ (create_client_stack a).envp, p ≠ 0) := by
  have hs := create_client_stack_strings a
  have hargv : (create_client_stack a).argv.length
      = 1 + a.info.interp_name.toList.length + a.info.interp_args.toList.length
        + a.args_for_client.length := by
    rw [hs.2.1.length_eq]
    unfold argv_sources
    simp only [List.length_append, List.length_singleton]
    omega
  have henv : (create_client_stack a).envp.length = a.orig_envp.length := hs.2.2.1.length_eq
  have hargc : (create_client_stack a).client_argc = (create_client_stack a).argv.length := by
    rw [hargv]
    show stack_argc a + 1 = _
    unfold stack_argc
    cases a.info.interp_name <;> cases a.info.interp_args <;>
      simp only [Option.isSome_some, Option.isSome_none, Option.toList_some, Option.toList_none,
        List.length_singleton, List.length_nil, if_true, Bool.false_eq_true, if_false] <;> omega
  refine ⟨?_, hargc, hargv, ?_, henv.symm, henv, rfl, ?_, ?_⟩
  · unfold stack_words
    rw [hargc]
    simp only [List.append_assoc, List.singleton_append, List.cons_append,
      List.getElem?_cons_zero]
  · unfold stack_words
    rw [List.append_assoc, List.append_assoc, List.append_assoc, List.singleton_append,
      List.getElem?_cons_succ, List.getElem?_append_right (Nat.le_refl _), Nat.sub_self,
      List.singleton_append, List.getElem?_cons_zero]
  · show (create_client_stack a).client_envp = _
    show (create_client_stack a).client_SP + sizeof_Word
        + sizeof_Word * ((create_client_stack a).argv.length + 1) = _
    unfold sizeof_Word
    omega
  · intro hal p hp
    have hmod := stack_stringbase_mod a hal
    rw [← hs.1] at hmod
    have hge : (create_client_stack a).stringbase ≤ p := by
      rcases List.mem_append.mp hp with h | h
      · exact forall₂_left_of _ _ _ hs.2.1 p h
      · exact forall₂_left_of _ _ _ hs.2.2.1 p h
    omega

/-- C14, witness: the example arguments; the stack ends at a page boundary. -/
theorem argc_and_ps_strings_witness :
    VG_IS_PAGE_ALIGNED (word_add stack_args1.clstack_end 1) = true ∧
    (create_client_stack stack_args1).pss.ps_nargvstr
      = (create_client_stack stack_args1).argv.length ∧
    ∀ p ∈ (create_client_stack stack_args1).argv ++ (create_client_stack stack_args1).envp,
      p ≠ 0 :=
  have h := argc_and_ps_strings stack_args1
  ⟨by decide, h.2.1, h.2.2.2.2.2.2.2.2 (by decide)⟩

/-! ## `setup_client_dataseg` -/

theorem dataseg_initial_size_eq (r : Nat) :
    dataseg_initial_size r = VG_PGROUNDUP (min (max r 0x100000) 0x800000) ∧
    0x100000 ≤ dataseg_initial_size r ∧ dataseg_initial_size r ≤ 0x800000 ∧
    dataseg_initial_size r % 4096 = 0 ∧
    VG_PGROUNDUP (dataseg_initial_size r) = dataseg_initial_size r := by
  have e : dataseg_initial_size r = VG_PGROUNDUP (min (max r 0x100000) 0x800000) := by
    unfold dataseg_initial_size
    dsimp only
    congr 1
    split <;> split <;> omega
  have hv : 0x100000 ≤ min (max r 0x100000) 0x800000 ∧ min (max r 0x100000) 0x800000 ≤ 0x800000 := by
    omega
  rw [e]
  generalize min (max r 0x100000) 0x800000 = v at hv
  rw [pgroundup_eq (VG_PGROUNDUP v), pgroundup_eq v]
  omega

theorem word_add_aligned (a b : Nat) (ha : a % 4096 = 0) (hb : b % 4096 = 0) :
    word_add a b % 4096 = 0 := by
  unfold word_add
  rw [two_pow_64]
  omega

theorem is_page_aligned_iff (p : Nat) : VG_IS_PAGE_ALIGNED p = true ↔ p % 4096 = 0 := by
  simp [VG_IS_PAGE_ALIGNED, VKI_PAGE_SIZE]

theorem mmap_anon_fixed_client_log {σ : Type} (A : AspaceMgr σ) (w : World σ)
    (start length prot : Nat) :
    (w.mmap_anon_fixed_client A start length prot).2.log =
      w.log ++ [.mmap_anon_fixed_client start length prot] := by
  unfold World.mmap_anon_fixed_client
  dsimp only
  split <;> rfl

/-- C15: when the assertions of `setup_client_dataseg` hold (`brk_base` equals
`brk_limit` and a segment contains `brk_base - 1`), the function asks for a
reservation of one page (`SmLower`) that starts at the first byte after the
mapping, and, when that is granted, for an anonymous mapping at `brk_base`
rounded up to a page, of the data limit clamped to 1 MB .. 8 MB and rounded
up to a page, with the protection of the segment found.  That size is
between 1 MB and 8 MB and page-aligned. -/
theorem setup_client_dataseg_requests {σ : Type} (A : AspaceMgr σ) (w : World σ)
    (seg : NSegment) (hb : w.brk_base = w.brk_limit)
    (hseg : A.am_find_nsegment w.am (word_sub w.brk_base 1) = some seg) :
    let size := VG_PGROUNDUP (min (max w.rlim_data_cur 0x100000) 0x800000)
    let start := VG_PGROUNDUP w.brk_base
    let granted :=
      (A.am_create_reservation w.am (word_add start size) VKI_PAGE_SIZE .SmLower size).1
    0x100000 ≤ size ∧ size ≤ 0x800000 ∧ VG_IS_PAGE_ALIGNED size = true ∧
    VG_IS_PAGE_ALIGNED start = true ∧ VKI_PAGE_SIZE = 4096 ∧
    (start + size < 2 ^ 64 → word_add start size = start + size) ∧
    (setup_client_dataseg A w).1.log =
      w.log ++ [.find_nsegment (word_sub w.brk_base 1),
        .create_reservation (word_add start size) VKI_PAGE_SIZE .SmLower size]
      ++ (if granted then [.mmap_anon_fixed_client start size (seg_prot seg)] else []) ∧
    (granted = false → (setup_client_dataseg A w).2 = .Returned false) := by
  intro size start granted
  obtain ⟨e, h1, h2, h3, h4⟩ := dataseg_initial_size_eq w.rlim_data_cur
  have hsz : dataseg_initial_size w.rlim_data_cur = size := e
  rw [hsz] at h1 h2 h3 h4
  have hst : start % 4096 = 0 := (pgroundup_le w.brk_base).2
  have hal : VG_IS_PAGE_ALIGNED size = true ∧ VG_IS_PAGE_ALIGNED VKI_PAGE_SIZE = true
      ∧ VG_IS_PAGE_ALIGNED start = true ∧ VG_IS_PAGE_ALIGNED (word_add start size) = true
      ∧ w.brk_base = w.brk_limit :=
    ⟨(is_page_aligned_iff _).2 h3, by decide, (is_page_aligned_iff _).2 hst,
      (is_page_aligned_iff _).2 (word_add_aligned _ _ hst h3), hb⟩
  refine ⟨h1, h2, hal.1, hal.2.2.1, rfl, fun h => Nat.mod_eq_of_lt h, ?_⟩
  unfold setup_client_dataseg
  simp only [hsz, h4]
  rw [if_neg (not_not.2 hal)]
  simp only [World.find_nsegment, hseg, World.create_reservation, World.emit]
  cases hg : (A.am_create_reservation w.am (word_add start size) VKI_PAGE_SIZE .SmLower size).1
  · simp [granted, hg]
  · have hg2 : granted = true := hg
    simp only [hg2, Bool.not_true, Bool.false_eq_true, if_false, if_true]
    refine ⟨?_, fun h => by cases h⟩
    split <;> (try split) <;> simp [mmap_anon_fixed_client_log, start]

/-- C15 at an address-space manager that grants the requests, after the toy
load: the mapping is `[0x2000, 0x802000)` with protection read+write and the
reservation is the page at `0x802000`. -/
theorem setup_client_dataseg_requests_witness :
    (toy_loaded.world.brk_base = toy_loaded.world.brk_limit ∧
      (grantAM true).am_find_nsegment toy_loaded.world.am
        (word_sub toy_loaded.world.brk_base 1) = (toy_segs true).head?) ∧
    (setup_client_dataseg (grantAM true) toy_loaded.world).1.log =
      toy_loaded.world.log ++ [.find_nsegment 0x17ff,
        .create_reservation 0x802000 4096 .SmLower 0x800000,
        .mmap_anon_fixed_client 0x2000 0x800000 3] :=
  ⟨⟨by decide, by decide⟩,
    ((setup_client_dataseg_requests (grantAM true) toy_loaded.world
      { kind := .SkFileC, start := 0x1000, end_ := 0x1fff,
        hasR := true, hasW := true, hasX := false, hasT := false }
      (by decide) (by decide)).2.2.2.2.2.2.1).trans (by decide)⟩

/-! ## The syscall table -/

/-- C20: `get_netbsd_syscall_entry` returns the entry of `sysno` exactly when
`sysno` is below the table size and that entry has a `before` handler, and
`NULL` otherwise; so every entry returned has a `before` handler (its `after`
handler may be `NULL`). -/
theorem get_netbsd_syscall_entry_spec (syscall_table : List SyscallTableEntry) (sysno : Nat) :
    (∀ e, get_netbsd_syscall_entry syscall_table sysno = some e ↔
      (sysno < syscall_table.length ∧ syscall_table[sysno]? = some e
        ∧ e.before.isSome = true)) ∧
    (get_netbsd_syscall_entry syscall_table sysno = none ↔
      ¬ (sysno < syscall_table.length
        ∧ ∃ e, syscall_table[sysno]? = some e ∧ e.before.isSome = true)) ∧
    (∀ e, get_netbsd_syscall_entry syscall_table sysno = some e → e.before.isSome = true) := by
  unfold get_netbsd_syscall_entry
  by_cases h : sysno < syscall_table.length
  · have hg : syscall_table[sysno]? = some (syscall_table.get ⟨sysno, h⟩) := by
      simp [List.getElem?_eq_getElem h]
    rw [dif_pos h, hg]
    dsimp only
    generalize syscall_table.get ⟨sysno, h⟩ = s
    cases hb : s.before with
    | none =>
      have e1 : (if (none : Option Nat).isNone = true then none else some s) = none := rfl
      rw [e1]
      refine ⟨fun e => ⟨fun h1 => ?_, fun h1 => ?_⟩, ⟨fun _ => ?_, fun _ => rfl⟩, fun e h1 => ?_⟩
      · cases h1
      · obtain ⟨_, h2, h3⟩ := h1
        cases h2
        rw [hb] at h3
        cases h3
      · rintro ⟨_, e, h2, h3⟩
        cases h2
        rw [hb] at h3
        cases h3
      · cases h1
    | some b =>
      have e1 : (if (some b).isNone = true then none else some s) = some s := rfl
      rw [e1]
      refine ⟨fun e => ⟨fun h1 => ?_, fun h1 => h1.2.1⟩, ⟨fun h1 => ?_, fun h1 => ?_⟩,
        fun e h1 => ?_⟩
      · cases h1
        exact ⟨h, rfl, by rw [hb]; rfl⟩
      · cases h1
      · exact absurd ⟨h, s, rfl, by rw [hb]; rfl⟩ h1
      · cases h1
        rw [hb]
        rfl
  · rw [dif_neg h]
    exact ⟨fun e => ⟨fun h1 => (by cases h1), fun h1 => absurd h1.1 h⟩,
      ⟨fun _ h1 => h h1.1, fun _ => rfl⟩, fun e h1 => (by cases h1)⟩

/-! ## Saving and restoring a context -/

/-- C16: with the helpers as the spec describes them, `save_context` followed
by `restore_context` from the buffer it wrote returns (the assertion holds)
and leaves the thread state as it was, in particular the register file, the
signal mask and the link to the old context; the buffer holds the signal
mask and the stack descriptor of the thread (the alternate stack when it is
in use, else the bounds of the client stack with flags 0) under the flags
`VKI_UC_SIGMASK` and `VKI_UC_STACK`, and restore reads both. -/
theorem save_then_restore_context (tid : Nat) (tst : ThreadState) (uc : Nat)
    (uc0 : vki_ucontext_t) :
    let u := (save_context spec_mach tid tst uc uc0).1
    restore_context spec_mach tid tst uc u = some (tst,
      [.mem (.pre_mem_read tid uc .uc_flags), .mem (.pre_mem_read tid uc .uc_link),
       .mem (.pre_mem_read tid uc .uc_sigmask), .mem (.pre_mem_read tid uc .uc_stack),
       .mem (.pre_mem_read tid uc .uc_mcontext)]) ∧
    u.uc_mcontext = tst.arch.vex ∧ u.uc_sigmask = tst.sig_mask ∧
    u.uc_link = tst.os_state.oldcontext ∧
    u.uc_stack = (if tst.altstack.ss_flags &&& VKI_SS_ONSTACK = 0 then
      { ss_sp := tst.client_stack_highest_byte, ss_size := tst.client_stack_szB,
        ss_flags := 0 } else tst.altstack) ∧
    u.uc_flags = VKI_UC_SIGMASK ||| VKI_UC_STACK := by
  intro u
  have hu : u = { uc_flags := VKI_UC_SIGMASK ||| VKI_UC_STACK,
                  uc_link := tst.os_state.oldcontext,
                  uc_sigmask := tst.sig_mask,
                  uc_stack := (if tst.altstack.ss_flags &&& VKI_SS_ONSTACK = 0 then
                    { ss_sp := tst.client_stack_highest_byte,
                      ss_size := tst.client_stack_szB, ss_flags := 0 } else tst.altstack),
                  uc_mcontext := tst.arch.vex } := by
    show (save_context spec_mach tid tst uc uc0).1 = _
    unfold save_context
    simp only [spec_mach, spec_save_machine_context]
    split <;> simp
  refine ⟨?_, by rw [hu], by rw [hu], by rw [hu], by rw [hu], by rw [hu]⟩
  rw [hu]
  unfold restore_context
  have h1 : (VKI_UC_SIGMASK ||| VKI_UC_STACK) &&& VKI_UC_SIGMASK ≠ 0 := by decide
  have h2 : (VKI_UC_SIGMASK ||| VKI_UC_STACK) &&& VKI_UC_STACK ≠ 0 := by decide
  simp only [spec_mach, spec_restore_machine_context, spec_do_sys_sigprocmask, sr_isError,
    h1, h2, ne_eq, not_false_eq_true, if_true, Bool.false_eq_true, if_false]
  split
  · split
    · rename_i h
      exact absurd h.2.2.2.2 (lt_irrefl _)
    · rfl
  · rfl

/-! ## `run_a_thread_NORETURN` -/

theorem thread_wrapper_trace (O : CoreOps) (tid : Nat) (c : Core) (p : Nat × Core)
    (hw : thread_wrapper O tid c = some p) :
    p.2.trace = c.trace ++ [.debugLog, .acquire_BigLock tid, .pre_thread_first_insn tid,
      .debugLog] := by
  unfold thread_wrapper at hw
  dsimp only at hw
  split at hw
  · cases hw
  · split at hw
    · cases hw
    · cases hw
      simp

/-- C19: when `thread_wrapper` has returned, `run_a_thread_NORETURN` calls the
shutdown continuation exactly once if `VG_(count_living_threads)()` is 1 and
never otherwise.  With more than one living thread it calls
`VG_(exit_thread)`; if that leaves the slot a `Zombie` (else the assertion
fails and the kernel call is not made), the slot is set to `Empty` and the
next thing done is the kernel call `lwp_exit`. -/
theorem run_a_thread_shutdown_iff_last (O : CoreOps) (tid : Nat) (c : Core) (p : Nat × Core)
    (hw : thread_wrapper O tid { c with trace := c.trace ++ [Track.debugLog] } = some p) :
    let r := run_a_thread_NORETURN O tid c
    let n := O.count_living_threads p.2.threads
    let th := O.exit_thread tid
      (set_thread p.2.threads tid { (p.2.threads tid) with err_disablement_level := 0 })
    ∃ new, r.1.trace = c.trace ++ new ∧
      shutdown_calls new = (if n = 1 then [.shutdown_actions tid p.1] else []) ∧
      (r.2 = .Shutdown ↔ n = 1) ∧
      (n = 1 → ∃ pre, new = pre ++ [.shutdown_actions tid p.1]) ∧
      (1 < n →
        (r.2 = .LwpExit ↔ (th tid).status = .VgTs_Zombie) ∧
        ((th tid).status = .VgTs_Zombie →
          r.1.threads = set_thread th tid { (th tid) with status := .VgTs_Empty } ∧
          (r.1.threads tid).status = .VgTs_Empty ∧
          ∃ pre, new = pre ++ [.exit_thread tid, .syscall_lwp_exit]) ∧
        ((th tid).status ≠ .VgTs_Zombie → r.2 = .Abort ∧ Track.syscall_lwp_exit ∉ new)) := by
  intro r n th
  have ht := thread_wrapper_trace O tid _ p hw
  obtain ⟨src, c1⟩ := p
  dsimp only at ht
  simp only [r, n, th]
  unfold run_a_thread_NORETURN
  simp only [hw, ht]
  generalize hwn : (if (c1.threads tid).err_disablement_level > 0
    then [Track.umsg, Track.debugLog] else []) = w
  have hw1 : shutdown_calls w = [] := by
    rw [← hwn]
    split <;> rfl
  have hw2 : Track.syscall_lwp_exit ∉ w := by
    rw [← hwn]
    split <;> simp
  have hf : ∀ a b : List Track, shutdown_calls (a ++ b) = shutdown_calls a ++ shutdown_calls b :=
    fun a b => List.filter_append _ _
  by_cases h1 : O.count_living_threads c1.threads ≥ 1
  · by_cases h2 : O.count_living_threads c1.threads = 1
    · have h3 : ¬ ¬ O.count_living_threads c1.threads ≥ 1 := not_not.2 h1
      rw [if_neg h3, if_pos h2, if_pos h2]
      refine ⟨[.debugLog] ++ [.debugLog, .acquire_BigLock tid, .pre_thread_first_insn tid,
        .debugLog] ++ [.debugLog] ++ [.pre_thread_ll_exit tid] ++ w ++ [.debugLog]
        ++ [.shutdown_actions tid src], ?_, ?_, ?_, ?_, ?_⟩
      · simp only [List.append_assoc]
      · simp only [hf, hw1]
        rfl
      · exact ⟨fun _ => h2, fun _ => rfl⟩
      · intro _
        exact ⟨_, rfl⟩
      · intro h
        omega
    · have h3 : ¬ ¬ O.count_living_threads c1.threads ≥ 1 := not_not.2 h1
      rw [if_neg h3, if_neg h2, if_neg h2]
      by_cases h4 : (O.exit_thread tid (set_thread c1.threads tid
          { (c1.threads tid) with err_disablement_level := 0 }) tid).status = .VgTs_Zombie
      · have h5 : ¬ (O.exit_thread tid (set_thread c1.threads tid
          { (c1.threads tid) with err_disablement_level := 0 }) tid).status ≠ .VgTs_Zombie :=
          not_not.2 h4
        rw [if_neg h5]
        refine ⟨[.debugLog] ++ [.debugLog, .acquire_BigLock tid, .pre_thread_first_insn tid,
          .debugLog] ++ [.debugLog] ++ [.pre_thread_ll_exit tid] ++ w ++ [.debugLog]
          ++ [.exit_thread tid] ++ [.syscall_lwp_exit], ?_, ?_, ?_, ?_, ?_⟩
        · simp only [List.append_assoc]
        · simp only [hf, hw1]
          rfl
        · exact ⟨fun h => (by cases h), fun h => absurd h h2⟩
        · intro h
          exact absurd h h2
        · intro _
          refine ⟨⟨fun _ => h4, fun _ => rfl⟩, fun _ => ⟨rfl, ?_, ?_⟩, fun h => absurd h4 h⟩
          · simp [set_thread]
          · exact ⟨[.debugLog] ++ [.debugLog, .acquire_BigLock tid, .pre_thread_first_insn tid,
              .debugLog] ++ [.debugLog] ++ [.pre_thread_ll_exit tid] ++ w ++ [.debugLog],
              by simp⟩
      · rw [if_pos h4]
        refine ⟨[.debugLog] ++ [.debugLog, .acquire_BigLock tid, .pre_thread_first_insn tid,
          .debugLog] ++ [.debugLog] ++ [.pre_thread_ll_exit tid] ++ w ++ [.debugLog]
          ++ [.exit_thread tid], ?_, ?_, ?_, ?_, ?_⟩
        · simp only [List.append_assoc]
        · simp only [hf, hw1]
          rfl
        · exact ⟨fun h => (by cases h), fun h => absurd h h2⟩
        · intro h
          exact absurd h h2
        · intro _
          refine ⟨⟨fun h => (by cases h), fun h => absurd h h4⟩, fun h => absurd h h4,
            fun _ => ⟨rfl, ?_⟩⟩
          simp [hw2]
  · rw [if_pos h1, if_neg (by omega)]
    refine ⟨[Track.debugLog] ++ [Track.debugLog, Track.acquire_BigLock tid,
      Track.pre_thread_first_insn tid, Track.debugLog] ++ [Track.debugLog],
      by simp only [List.append_assoc], rfl,
      ⟨fun h => (by cases h), fun h => (by omega)⟩, fun h => (by omega), fun h => (by omega)⟩

/-- C19 at the toy helpers, for a thread in state `Init`: with one living
thread the run ends in the shutdown continuation, called once; with three it
ends in `lwp_exit` with the slot `Empty` and the continuation is not
called. -/
theorem run_a_thread_shutdown_iff_last_witness :
    ((thread_wrapper (toy_ops 1 (.Res 0) none) 1
        { toy_core .VgTs_Init with trace := [Track.debugLog] }).map Prod.fst = some 1 ∧
      (run_a_thread_NORETURN (toy_ops 1 (.Res 0) none) 1 (toy_core .VgTs_Init)).2
        = .Shutdown) ∧
    ((thread_wrapper (toy_ops 3 (.Res 0) none) 1
        { toy_core .VgTs_Init with trace := [Track.debugLog] }).map Prod.fst = some 1 ∧
      (run_a_thread_NORETURN (toy_ops 3 (.Res 0) none) 1 (toy_core .VgTs_Init)).2
        = .LwpExit ∧
      shutdown_calls (run_a_thread_NORETURN (toy_ops 3 (.Res 0) none) 1
        (toy_core .VgTs_Init)).1.trace = []) := by
  obtain ⟨_, _, _, h3, _, _⟩ := run_a_thread_shutdown_iff_last (toy_ops 1 (.Res 0) none) 1
    (toy_core .VgTs_Init) _ rfl
  obtain ⟨new, k1, k2, _, _, k5⟩ := run_a_thread_shutdown_iff_last (toy_ops 3 (.Res 0) none) 1
    (toy_core .VgTs_Init) _ rfl
  refine ⟨⟨by decide, h3.2 rfl⟩, by decide, (k5 (by decide)).1.2 rfl, ?_⟩
  rw [k1]
  exact k2

/-! ## `PRE(sys_lwp_create)` -/

theorem sys_lwp_create_out_error_quiet (O : CoreOps) (c : Core) (ctid e : Nat) :
    sys_lwp_create_out O c ctid false (.Error e) =
      ({ threads := set_thread c.threads ctid
          { (c.threads ctid) with arch := O.cleanup_thread (c.threads ctid).arch,
                                  status := .VgTs_Empty },
         trace := c.trace }, .Failure e) := rfl

theorem sys_lwp_create_out_error_informed (O : CoreOps) (c : Core) (ctid e : Nat) :
    sys_lwp_create_out O c ctid true (.Error e) =
      ({ threads := set_thread c.threads ctid
          { (c.threads ctid) with arch := O.cleanup_thread (c.threads ctid).arch,
                                  status := .VgTs_Empty },
         trace := c.trace ++ [.pre_thread_ll_exit ctid] }, .Failure e) := rfl

theorem sys_lwp_create_out_ok (O : CoreOps) (c : Core) (ctid v : Nat) (informed : Bool) :
    sys_lwp_create_out O c ctid informed (.Res v) = (c, .Success v) := rfl

theorem set_thread_same (th : Nat → ThreadState) (tid : Nat) (tst : ThreadState) :
    set_thread th tid tst tid = tst := by
  simp [set_thread]

/-- C17, as amended: for a context that can be dereferenced and whose stack
descriptor has a non-zero `ss_flags` or is absent, when the V stack of the
child has been allocated and the sanity assertions hold, the call fails with
`EINVAL`, the slot of the child ends `Empty`, and beyond the `PRE_MEM_WRITE`
check of `new_lwp` only a debug message is produced: no kernel call, no
notification that a thread is created or exits. -/
theorem sys_lwp_create_bad_stack (O : CoreOps) (M : MachOps) (tid : Nat) (c : Core)
    (ARG1 ARG2 ARG3 : Nat) (u : vki_ucontext_t) (vstack : Nat) (ctst : ThreadState)
    (hbad : u.uc_flags &&& VKI_UC_STACK = 0 ∨ u.uc_stack.ss_flags ≠ 0)
    (halloc : allocstack O ((O.alloc_ThreadState c.threads).2 (O.alloc_ThreadState c.threads).1)
      = some (vstack, ctst))
    (hv : vstack ≠ 0)
    (hsane : O.is_running_thread
        (set_thread (O.alloc_ThreadState c.threads).2 (O.alloc_ThreadState c.threads).1 ctst) tid
        = true ∧
      O.is_valid_tid
        (set_thread (O.alloc_ThreadState c.threads).2 (O.alloc_ThreadState c.threads).1 ctst)
        (O.alloc_ThreadState c.threads).1 = true) :
    (sys_lwp_create O M tid c ARG1 ARG2 ARG3 (some u)).2 = .Failure VKI_EINVAL ∧
    ((sys_lwp_create O M tid c ARG1 ARG2 ARG3 (some u)).1.threads
      (O.alloc_ThreadState c.threads).1).status = .VgTs_Empty ∧
    (sys_lwp_create O M tid c ARG1 ARG2 ARG3 (some u)).1.trace =
      c.trace ++ [.pre_mem_write_lwpid ARG3, .debugLog] := by
  unfold sys_lwp_create
  simp only [halloc]
  rw [if_neg hv, if_neg (not_not.2 hsane)]
  by_cases hs : u.uc_flags &&& VKI_UC_STACK ≠ 0
  · have hf : ¬ u.uc_stack.ss_flags = 0 := by
      rcases hbad with h | h
      · exact absurd h hs
      · exact h
    rw [if_pos hs, if_neg hf, sys_lwp_create_out_error_quiet]
    exact ⟨rfl, by simp only [set_thread_same], by simp⟩
  · rw [if_neg hs, sys_lwp_create_out_error_quiet]
    exact ⟨rfl, by simp only [set_thread_same], by simp⟩

/-- C17 at the toy helpers when the V stack is allocated at `0x9000`: a
context whose stack descriptor has `ss_flags = 1` is refused with
`EINVAL`. -/
theorem sys_lwp_create_bad_stack_witness :
    (toy_uc 3 1).uc_stack.ss_flags ≠ 0 ∧
    (sys_lwp_create (toy_ops 1 (.Res 0) (some (0x9000, 0x9ff0))) spec_mach 1
      (toy_core .VgTs_Runnable) 0x5000 0 0x6000 (some (toy_uc 3 1))).2 = .Failure VKI_EINVAL ∧
    ((sys_lwp_create (toy_ops 1 (.Res 0) (some (0x9000, 0x9ff0))) spec_mach 1
      (toy_core .VgTs_Runnable) 0x5000 0 0x6000 (some (toy_uc 3 1))).1.threads 2).status
      = .VgTs_Empty :=
  ⟨by decide,
    (sys_lwp_create_bad_stack (toy_ops 1 (.Res 0) (some (0x9000, 0x9ff0))) spec_mach 1
      (toy_core .VgTs_Runnable) 0x5000 0 0x6000 (toy_uc 3 1) 0x9ff0 _ (Or.inr (by decide)) rfl
      (by decide) ⟨rfl, rfl⟩).1,
    (sys_lwp_create_bad_stack (toy_ops 1 (.Res 0) (some (0x9000, 0x9ff0))) spec_mach 1
      (toy_core .VgTs_Runnable) 0x5000 0 0x6000 (toy_uc 3 1) 0x9ff0 _ (Or.inr (by decide)) rfl
      (by decide) ⟨rfl, rfl⟩).2.1⟩

/-- C17 as stated fails: when the V stack of the child cannot be allocated,
the call with a context whose stack descriptor has `ss_flags = 1` fails with
`ENOMEM`, not `EINVAL`. -/
theorem sys_lwp_create_enomem_before_einval :
    (toy_uc 3 1).uc_stack.ss_flags ≠ 0 ∧
    (sys_lwp_create (toy_ops 1 (.Res 0) none) spec_mach 1 (toy_core .VgTs_Runnable)
      0x5000 0 0x6000 (some (toy_uc 3 1))).2 = .Failure VKI_ENOMEM ∧
    (sys_lwp_create (toy_ops 1 (.Res 0) none) spec_mach 1 (toy_core .VgTs_Runnable)
      0x5000 0 0x6000 (some (toy_uc 3 1))).2 ≠ .Failure VKI_EINVAL := by
  decide

theorem lwp_notes_append (a b : List Track) : lwp_notes (a ++ b) = lwp_notes a ++ lwp_notes b :=
  List.filter_append _ _

theorem lwp_notes_mem (l : List MemTrack) : lwp_notes (l.map Track.mem) = [] := by
  induction l with
  | nil => rfl
  | cons x xs ih =>
    rw [List.map_cons]
    unfold lwp_notes at ih ⊢
    rw [List.filter_cons_of_neg (by simp)]
    exact ih

theorem lwp_notes_mem_one (m : MemTrack) : lwp_notes [Track.mem m] = [] := rfl

theorem lwp_notes_die (a len : Nat) : lwp_notes [Track.die_mem_stack a len] = [] := rfl

theorem restore_context_notes (M : MachOps) (tid : Nat) (tst : ThreadState) (uc : Nat)
    (u : vki_ucontext_t) (p : ThreadState × List Track)
    (h : restore_context M tid tst uc u = some p) : lwp_notes p.2 = [] := by
  unfold restore_context at h
  dsimp only at h
  by_cases hc1 : u.uc_flags &&& VKI_UC_SIGMASK ≠ 0
  · rw [if_pos hc1] at h
    split at h
    · cases h
    · rename_i tst1 t2 heq
      split at heq
      · cases heq
      · cases heq
        repeat' split at h
        all_goals
          cases h
          simp only [lwp_notes_append, lwp_notes_mem, lwp_notes_mem_one, lwp_notes_die,
            apply_ite lwp_notes, List.append_nil, ite_self]
  · rw [if_neg hc1] at h
    dsimp only at h
    repeat' split at h
    all_goals
      cases h
      simp only [lwp_notes_append, lwp_notes_mem, lwp_notes_mem_one, lwp_notes_die,
        apply_ite lwp_notes, List.append_nil, ite_self]

/-- C18: when `sys_lwp_create` fails after the slot of the child was taken,
the slot ends `Empty` and the error is the status of the call.  The error is
`ENOMEM` from the stack allocation or `EINVAL` from the stack descriptor, and
then the kernel is not called and the tool is told neither of a thread
created nor of a thread exiting; or it is the error of the kernel call, and
then the tool was told of the thread created before the call and is told of
its exit after it. -/
theorem sys_lwp_create_failure (O : CoreOps) (M : MachOps) (tid : Nat) (c : Core)
    (ARG1 ARG2 ARG3 : Nat) (u : vki_ucontext_t) (e : Nat)
    (hf : (sys_lwp_create O M tid c ARG1 ARG2 ARG3 (some u)).2 = .Failure e) :
    let r := sys_lwp_create O M tid c ARG1 ARG2 ARG3 (some u)
    let ctid := (O.alloc_ThreadState c.threads).1
    (r.1.threads ctid).status = .VgTs_Empty ∧
    ∃ new vstack ctst, r.1.trace = c.trace ++ new ∧
      allocstack O ((O.alloc_ThreadState c.threads).2 ctid) = some (vstack, ctst) ∧
      ((vstack = 0 ∧ e = VKI_ENOMEM ∧ lwp_notes new = []) ∨
       (vstack ≠ 0 ∧ (u.uc_flags &&& VKI_UC_STACK = 0 ∨ u.uc_stack.ss_flags ≠ 0)
          ∧ e = VKI_EINVAL ∧ lwp_notes new = []) ∨
       (vstack ≠ 0 ∧ u.uc_flags &&& VKI_UC_STACK ≠ 0 ∧ u.uc_stack.ss_flags = 0 ∧
          ∃ kern_uc, O.do_syscall3_lwp_create kern_uc ARG2 ARG3 = .Error e ∧
            lwp_notes new = [.pre_thread_ll_create tid ctid,
              .syscall_lwp_create kern_uc ARG2 ARG3, .pre_thread_ll_exit ctid])) := by
  intro r ctid
  simp only [r, ctid]
  generalize hr : sys_lwp_create O M tid c ARG1 ARG2 ARG3 (some u) = r0 at hf ⊢
  unfold sys_lwp_create at hr
  dsimp only at hr
  cases ha : allocstack O ((O.alloc_ThreadState c.threads).2 (O.alloc_ThreadState c.threads).1) with
  | none =>
    rw [ha] at hr
    subst hr
    cases hf
  | some p =>
    obtain ⟨vstack, ctst⟩ := p
    rw [ha] at hr
    dsimp only at hr
    by_cases hv : vstack = 0
    · rw [if_pos hv, sys_lwp_create_out_error_quiet] at hr
      subst hr
      cases hf
      refine ⟨by simp only [set_thread_same], [.pre_mem_write_lwpid ARG3], vstack, ctst, rfl, rfl,
        Or.inl ⟨hv, rfl, rfl⟩⟩
    · rw [if_neg hv] at hr
      split at hr
      · subst hr
        cases hf
      · by_cases hs : u.uc_flags &&& VKI_UC_STACK ≠ 0
        · rw [if_pos hs] at hr
          by_cases hfl : u.uc_stack.ss_flags = 0
          · rw [if_pos hfl] at hr
            split at hr
            · subst hr
              cases hf
            · split at hr
              · subst hr
                cases hf
              · rename_i ctst2 tr hrc
                have hq := restore_context_notes _ _ _ _ _ _ hrc
                dsimp only at hq
                generalize O.setup_start_thread_context _ _ = kern_uc at hr
                cases hk : O.do_syscall3_lwp_create kern_uc ARG2 ARG3 with
                | Res v =>
                  rw [hk, sys_lwp_create_out_ok] at hr
                  subst hr
                  cases hf
                | Error e1 =>
                  rw [hk, sys_lwp_create_out_error_informed] at hr
                  subst hr
                  cases hf
                  refine ⟨by simp only [set_thread_same],
                    [.pre_mem_write_lwpid ARG3]
                      ++ [.pre_thread_ll_create tid (O.alloc_ThreadState c.threads).1] ++ tr
                      ++ [.syscall_lwp_create kern_uc ARG2 ARG3] ++ [.pre_thread_first_insn tid]
                      ++ [.pre_thread_ll_exit (O.alloc_ThreadState c.threads).1],
                    vstack, ctst, ?_, rfl,
                    Or.inr (Or.inr ⟨hv, hs, hfl, kern_uc, hk, ?_⟩)⟩
                  · simp [sr_isError]
                  · simp only [lwp_notes_append, hq]
                    rfl
          · rw [if_neg hfl, sys_lwp_create_out_error_quiet] at hr
            subst hr
            cases hf
            refine ⟨by simp only [set_thread_same],
              [.pre_mem_write_lwpid ARG3, .debugLog], vstack, ctst, by simp, rfl,
              Or.inr (Or.inl ⟨hv, Or.inr hfl, rfl, rfl⟩)⟩
        · rw [if_neg hs, sys_lwp_create_out_error_quiet] at hr
          subst hr
          cases hf
          refine ⟨by simp only [set_thread_same],
            [.pre_mem_write_lwpid ARG3, .debugLog], vstack, ctst, by simp, rfl,
            Or.inr (Or.inl ⟨hv, Or.inl (not_not.1 hs), rfl, rfl⟩)⟩

/-- C18 at the toy helpers when the kernel refuses the call with error 35: the
call fails with 35, slot 2 ends `Empty`, and the tool is told of the thread
created, then of its exit. -/
theorem sys_lwp_create_failure_witness :
    (sys_lwp_create (toy_ops 1 (.Error 35) (some (0x9000, 0x9ff0))) spec_mach 1
      (toy_core .VgTs_Runnable) 0x5000 0 0x6000 (some (toy_uc 3 0))).2 = .Failure 35 ∧
    ((sys_lwp_create (toy_ops 1 (.Error 35) (some (0x9000, 0x9ff0))) spec_mach 1
      (toy_core .VgTs_Runnable) 0x5000 0 0x6000 (some (toy_uc 3 0))).1.threads 2).status
      = .VgTs_Empty ∧
    (lwp_notes (sys_lwp_create (toy_ops 1 (.Error 35) (some (0x9000, 0x9ff0))) spec_mach 1
      (toy_core .VgTs_Runnable) 0x5000 0 0x6000 (some (toy_uc 3 0))).1.trace).map
      (fun t => decide (t = .pre_thread_ll_create 1 2 ∨ t = .pre_thread_ll_exit 2))
      = [true, false, true] :=
  ⟨by decide,
    (sys_lwp_create_failure (toy_ops 1 (.Error 35) (some (0x9000, 0x9ff0))) spec_mach 1
      (toy_core .VgTs_Runnable) 0x5000 0 0x6000 (toy_uc 3 0) 35 (by decide)).1,
    by decide⟩

/-! ## `VG_(ii_create_image)`: the maximum stack size -/

theorem ii_clstack_max_size_bounds (rlim_cur : Nat) (clo_main_stacksize : Int)
    (hc : clo_main_stacksize < 2 ^ 63) :
    0x100000 ≤ ii_clstack_max_size rlim_cur clo_main_stacksize ∧
    ii_clstack_max_size rlim_cur clo_main_stacksize % 4096 = 0 ∧
    (clo_main_stacksize ≤ 0 → ii_clstack_max_size rlim_cur clo_main_stacksize
      = VG_PGROUNDUP (min (max rlim_cur 0x100000) 0x1000000)) ∧
    (0 < clo_main_stacksize → ii_clstack_max_size rlim_cur clo_main_stacksize
      = VG_PGROUNDUP (max clo_main_stacksize.toNat 0x100000)) := by
  unfold ii_clstack_max_size
  dsimp only
  have h64 := two_pow_64
  by_cases hpos : clo_main_stacksize > 0
  · rw [if_pos hpos]
    have hv : 0x100000 ≤ max clo_main_stacksize.toNat 0x100000 ∧
        max clo_main_stacksize.toNat 0x100000 < 2 ^ 63 := by omega
    have he : (if clo_main_stacksize.toNat < 1024 * 1024 then 1024 * 1024
        else clo_main_stacksize.toNat) = max clo_main_stacksize.toNat 0x100000 := by
      split <;> omega
    rw [he]
    have := le_pgroundup _ (show max clo_main_stacksize.toNat 0x100000 + 4095 < 2 ^ 64 by omega)
    exact ⟨by omega, (pgroundup_le _).2, fun h => absurd hpos (by omega), fun _ => rfl⟩
  · rw [if_neg hpos]
    have he : (if (if (if rlim_cur < 1024 * 1024 then 1024 * 1024 else rlim_cur)
          > 16 * (1024 * 1024) then 16 * (1024 * 1024)
          else if rlim_cur < 1024 * 1024 then 1024 * 1024 else rlim_cur) < 1024 * 1024
        then 1024 * 1024
        else if (if rlim_cur < 1024 * 1024 then 1024 * 1024 else rlim_cur)
          > 16 * (1024 * 1024) then 16 * (1024 * 1024)
          else if rlim_cur < 1024 * 1024 then 1024 * 1024 else rlim_cur)
        = min (max rlim_cur 0x100000) 0x1000000 := by
      split <;> split <;> (try split) <;> omega
    rw [he]
    have hv : 0x100000 ≤ min (max rlim_cur 0x100000) 0x1000000 ∧
        min (max rlim_cur 0x100000) 0x1000000 ≤ 0x1000000 := by omega
    have := le_pgroundup _ (show min (max rlim_cur 0x100000) 0x1000000 + 4095 < 2 ^ 64 by omega)
    exact ⟨by omega, (pgroundup_le _).2, fun _ => rfl, fun h => absurd h hpos⟩

/-- C21: the code uses any positive `--main-stacksize` value, also one smaller
than the clamped stack limit.  With a stack limit of 8 MB the option value
2 MB gives a maximum stack size of 2 MB, while without the option it is
8 MB; the claim, like the comment in the code, says a value replaces the
limit only if it is larger. -/
theorem ii_clstack_max_size_smaller_option :
    ii_clstack_max_size (8 * 1024 * 1024) 0 = 8 * 1024 * 1024 ∧
    ii_clstack_max_size (8 * 1024 * 1024) (2 * 1024 * 1024) = 2 * 1024 * 1024 := by
  decide

/-! ## The base of the string table -/

theorem stringbase_end_is_pss (a : StackArgs) (h64 : a.clstack_end < 2 ^ 64)
    (hsz : sizeof_ps_strings + VG_ROUNDUP (stack_stringsize a) sizeof_int ≤ a.clstack_end) :
    stack_stringbase a + VG_ROUNDUP (stack_stringsize a) sizeof_int
      = (create_client_stack a).client_pss ∧
    (create_client_stack a).client_pss + sizeof_ps_strings = a.clstack_end := by
  have h := two_pow_64
  have e : (create_client_stack a).client_pss = word_sub a.clstack_end sizeof_ps_strings := rfl
  rw [e]
  unfold stack_stringbase
  revert hsz
  generalize VG_ROUNDUP (stack_stringsize a) sizeof_int = r
  intro hsz
  unfold sizeof_ps_strings at hsz ⊢
  rw [word_sub_eq _ _ h64 (by omega), word_sub_eq _ _ (by omega) (by omega)]
  omega

/-- C26: for the example arguments, whose `clstack_end + 1` is page-aligned,
the base of the string table is `0x7f7fffffffd7`: 7 modulo the word size and
3 modulo `sizeof(int)`, so not aligned.  `clstack_end` is the last byte of the
stack, so subtracting rounded sizes from it gives an address one short of an
aligned one.  The area of the table does end where the trailer record
starts. -/
theorem stringbase_not_word_aligned :
    VG_IS_PAGE_ALIGNED (word_add stack_args0.clstack_end 1) = true ∧
    stack_stringbase stack_args0 = 0x7f7fffffffd7 ∧
    stack_stringbase stack_args0 % sizeof_Word = 7 ∧
    stack_stringbase stack_args0 % sizeof_int = 3 ∧
    stack_stringbase stack_args0 + VG_ROUNDUP (stack_stringsize stack_args0) sizeof_int
      = (create_client_stack stack_args0).client_pss := by
  decide

/-! ## The stack descriptor of a saved context -/

theorem save_context_primary_stack (tid : Nat) (tst : ThreadState) (uc : Nat)
    (uc0 : vki_ucontext_t) (h : tst.altstack.ss_flags &&& VKI_SS_ONSTACK = 0) :
    (save_context spec_mach tid tst uc uc0).1.uc_stack
      = { ss_sp := tst.client_stack_highest_byte, ss_size := tst.client_stack_szB,
          ss_flags := 0 } ∧
    lwp_create_stack_top (save_context spec_mach tid tst uc uc0).1
      = word_sub (word_add tst.client_stack_highest_byte tst.client_stack_szB) 1 := by
  have e : (save_context spec_mach tid tst uc uc0).1.uc_stack
      = { ss_sp := tst.client_stack_highest_byte, ss_size := tst.client_stack_szB,
          ss_flags := 0 } := by
    unfold save_context
    simp only [spec_mach, spec_save_machine_context]
    rw [if_pos h]
  refine ⟨e, ?_⟩
  unfold lwp_create_stack_top
  rw [e]

/-- C29: for the example thread, on its primary stack with highest byte
`0x7fffffff` and size `0x1000`, `save_context` stores the highest byte in
`ss_sp`; `sys_lwp_create` takes `ss_sp + ss_size - 1` as the highest byte,
which is `0x80000ffe`, and registers that for the child: the two do not
agree. -/
theorem save_context_lwp_create_disagree :
    (toy_tst .VgTs_Runnable).altstack.ss_flags &&& VKI_SS_ONSTACK = 0 ∧
    (toy_tst .VgTs_Runnable).client_stack_highest_byte = 0x7fffffff ∧
    (save_context spec_mach 1 (toy_tst .VgTs_Runnable) 0x5000 (toy_uc 0 0)).1.uc_stack
      = { ss_sp := 0x7fffffff, ss_size := 0x1000, ss_flags := 0 } ∧
    lwp_create_stack_top (save_context spec_mach 1 (toy_tst .VgTs_Runnable) 0x5000
      (toy_uc 0 0)).1 = 0x80000ffe ∧
    ((sys_lwp_create (toy_ops 1 (.Res 7) (some (0x9000, 0x9ff0))) spec_mach 1
      (toy_core .VgTs_Runnable) 0x5000 0 0x6000
      (some (save_context spec_mach 1 (toy_tst .VgTs_Runnable) 0x5000 (toy_uc 0 0)).1)).1.threads
      2).client_stack_highest_byte = 0x80000ffe := by
  decide

/-! ## The buffers of `setup_client_env` -/

/-- C30: each buffer of `setup_client_env` holds its formatted text and the
NUL, so no `snprintf` truncates: the tool preload path, the preload string,
the entry written over one that begins with `LD_PRELOAD=`, and the entry
added when there is none. -/
theorem setup_client_env_buffers_fit (c : EnvCfg) (toolname : CStr) :
    ((tool_path_text c toolname).length + 1 ≤ preload_tool_path_len c toolname ∧
      preload_tool_path c toolname = tool_path_text c toolname) ∧
    ((preload_text c toolname).length + 1 ≤ preload_string_len c toolname ∧
      preload_string c toolname = preload_text c toolname) ∧
    (∀ e : CStr, ld_preload <+: e →
      (ld_preload ++ preload_text c toolname ++ ":".toList ++ e.drop ld_preload.length).length + 1
        ≤ VG_strlen e + preload_string_len c toolname ∧
      mash_entry c toolname e
        = ld_preload ++ preload_text c toolname ++ ":".toList ++ e.drop ld_preload.length) ∧
    ((ld_preload ++ preload_text c toolname).length + 1
        ≤ VG_strlen ld_preload + preload_string_len c toolname ∧
      added_entry c toolname = ld_preload ++ preload_text c toolname) := by
  have hp := preload_text_length_le c toolname
  refine ⟨⟨?_, preload_tool_path_eq c toolname⟩, ⟨by omega, preload_string_eq c toolname⟩,
    fun e he => ⟨?_, mash_entry_eq c toolname e he⟩, ?_, added_entry_eq c toolname⟩
  · simp [tool_path_text, preload_tool_path_len, VG_strlen]
    omega
  · have hl := he.length_le
    simp [VG_strlen] at hl ⊢
    omega
  · simp [VG_strlen]
    omega

/-! ## `VG_(restore_context)`: the dead stack area -/

theorem stack_deaths_append (a b : List Track) :
    stack_deaths (a ++ b) = stack_deaths a ++ stack_deaths b :=
  List.filterMap_append _ _ _

theorem stack_deaths_mem (l : List MemTrack) : stack_deaths (l.map Track.mem) = [] := by
  induction l with
  | nil => rfl
  | cons x xs ih =>
    rw [List.map_cons]
    unfold stack_deaths at ih ⊢
    rw [List.filterMap_cons_none rfl]
    exact ih

theorem stack_deaths_mem_one (m : MemTrack) : stack_deaths [Track.mem m] = [] := rfl

theorem stack_deaths_one (a len : Nat) :
    stack_deaths [Track.die_mem_stack a len] = [(a, len)] := rfl

theorem dead_area_bounds (old new : Nat) (h1 : VG_STACK_REDZONE_SZB ≤ old) (h2 : old < new)
    (h3 : new < 2 ^ 64) :
    word_sub old VG_STACK_REDZONE_SZB = old - VG_STACK_REDZONE_SZB ∧
    word_sub old VG_STACK_REDZONE_SZB + word_add (word_sub new old) VG_STACK_REDZONE_SZB
      = new := by
  have h := two_pow_64
  unfold VG_STACK_REDZONE_SZB at h1 ⊢
  rw [word_sub_eq _ _ (by omega) h1, word_sub_eq _ _ h3 (by omega)]
  unfold word_add
  rw [h]
  omega

theorem dead_area_tail (old : Nat) (T : ThreadState) (t4 : List Track)
    (ht : stack_deaths t4 = []) (p : ThreadState × List Track)
    (h : (if T.client_stack_highest_byte ≠ 0 ∧ T.client_stack_szB ≠ 0 then
        if word_sub (word_add T.client_stack_highest_byte 1) T.client_stack_szB ≤ old ∧
            old ≤ T.client_stack_highest_byte ∧
            word_sub (word_add T.client_stack_highest_byte 1) T.client_stack_szB
              ≤ T.arch.vex.guest_SP ∧
            T.arch.vex.guest_SP ≤ T.client_stack_highest_byte ∧ T.arch.vex.guest_SP > old then
          some (T, t4 ++ [Track.die_mem_stack (word_sub old VG_STACK_REDZONE_SZB)
            (word_add (word_sub T.arch.vex.guest_SP old) VG_STACK_REDZONE_SZB)])
        else some (T, t4)
      else some (T, t4)) = some p) :
    stack_deaths p.2 =
      (if (p.1.client_stack_highest_byte ≠ 0 ∧ p.1.client_stack_szB ≠ 0) ∧
          word_sub (word_add p.1.client_stack_highest_byte 1) p.1.client_stack_szB ≤ old ∧
          old ≤ p.1.client_stack_highest_byte ∧
          word_sub (word_add p.1.client_stack_highest_byte 1) p.1.client_stack_szB
            ≤ p.1.arch.vex.guest_SP ∧
          p.1.arch.vex.guest_SP ≤ p.1.client_stack_highest_byte ∧
          p.1.arch.vex.guest_SP > old
        then [(word_sub old VG_STACK_REDZONE_SZB,
          word_add (word_sub p.1.arch.vex.guest_SP old) VG_STACK_REDZONE_SZB)]
        else []) := by
  by_cases hb : T.client_stack_highest_byte ≠ 0 ∧ T.client_stack_szB ≠ 0
  · rw [if_pos hb] at h
    split at h
    · rename_i hc
      cases h
      rw [if_pos ⟨hb, hc⟩, stack_deaths_append, ht, stack_deaths_one]
      rfl
    · rename_i hc
      cases h
      rw [if_neg (fun hh => hc hh.2)]
      exact ht
  · rw [if_neg hb] at h
    cases h
    rw [if_neg (fun hh => hb hh.1)]
    exact ht

/-- C27: when `restore_context` returns, it reports a dead stack area exactly
when the bounds of the client stack are known (highest byte and size both
non-zero), the stack pointer before and the stack pointer after are both in
`[highest + 1 - size, highest]`, and the new one is above the old one; it does
so once, and the area starts `VG_STACK_REDZONE_SZB` bytes below the old stack
pointer and ends just below the new one. -/
theorem restore_context_dead_area (M : MachOps) (tid : Nat) (tst : ThreadState) (uc : Nat)
    (u : vki_ucontext_t) (p : ThreadState × List Track)
    (h : restore_context M tid tst uc u = some p) :
    stack_deaths p.2 =
      (if (p.1.client_stack_highest_byte ≠ 0 ∧ p.1.client_stack_szB ≠ 0) ∧
          word_sub (word_add p.1.client_stack_highest_byte 1) p.1.client_stack_szB
            ≤ tst.arch.vex.guest_SP ∧
          tst.arch.vex.guest_SP ≤ p.1.client_stack_highest_byte ∧
          word_sub (word_add p.1.client_stack_highest_byte 1) p.1.client_stack_szB
            ≤ p.1.arch.vex.guest_SP ∧
          p.1.arch.vex.guest_SP ≤ p.1.client_stack_highest_byte ∧
          p.1.arch.vex.guest_SP > tst.arch.vex.guest_SP
        then [(word_sub tst.arch.vex.guest_SP VG_STACK_REDZONE_SZB,
          word_add (word_sub p.1.arch.vex.guest_SP tst.arch.vex.guest_SP)
            VG_STACK_REDZONE_SZB)]
        else []) ∧
    (VG_STACK_REDZONE_SZB ≤ tst.arch.vex.guest_SP →
      tst.arch.vex.guest_SP < p.1.arch.vex.guest_SP → p.1.arch.vex.guest_SP < 2 ^ 64 →
      word_sub tst.arch.vex.guest_SP VG_STACK_REDZONE_SZB
        = tst.arch.vex.guest_SP - VG_STACK_REDZONE_SZB ∧
      word_sub tst.arch.vex.guest_SP VG_STACK_REDZONE_SZB
        + word_add (word_sub p.1.arch.vex.guest_SP tst.arch.vex.guest_SP)
            VG_STACK_REDZONE_SZB
        = p.1.arch.vex.guest_SP) := by
  refine ⟨?_, dead_area_bounds _ _⟩
  unfold restore_context at h
  dsimp only at h
  by_cases hc1 : u.uc_flags &&& VKI_UC_SIGMASK ≠ 0
  · rw [if_pos hc1] at h
    by_cases he : sr_isError (M.do_sys_sigprocmask tid
        { tst with os_state := { tst.os_state with oldcontext := u.uc_link } }
        u.uc_sigmask).1 = true
    · rw [if_pos he] at h
      cases h
    · rw [if_neg he] at h
      dsimp only at h
      refine dead_area_tail _ _ _ ?_ _ h
      simp only [stack_deaths_append, stack_deaths_mem, stack_deaths_mem_one,
        apply_ite stack_deaths, List.append_nil, ite_self]
  · rw [if_neg hc1] at h
    dsimp only at h
    refine dead_area_tail _ _ _ ?_ _ h
    simp only [stack_deaths_append, stack_deaths_mem, stack_deaths_mem_one,
      apply_ite stack_deaths, List.append_nil, ite_self]

/-- C27 at the example thread (stack pointer `0x7ffffff0`, stack
`[0x7ffff000, 0x7fffffff]`) and a context whose stack pointer is 8 bytes
higher: one area is reported, from `0x7ffffff0 - 128` up to the new stack
pointer. -/
theorem restore_context_dead_area_witness :
    (restore_context spec_mach 1 (toy_tst .VgTs_Runnable) 0x5000 toy_uc_return).isSome = true ∧
    ((restore_context spec_mach 1 (toy_tst .VgTs_Runnable) 0x5000 toy_uc_return).map
      (fun p => stack_deaths p.2)) = some [(0x7fffff70, 136)] ∧
    0x7fffff70 + 136 = 0x7ffffff8 :=
  have h := restore_context_dead_area spec_mach 1 (toy_tst .VgTs_Runnable) 0x5000 toy_uc_return
    ((restore_context spec_mach 1 (toy_tst .VgTs_Runnable) 0x5000 toy_uc_return).get (by decide))
    (Option.some_get _).symm
  ⟨by decide, by
    rw [← Option.some_get (show (restore_context spec_mach 1 (toy_tst .VgTs_Runnable) 0x5000
      toy_uc_return).isSome = true by decide), Option.map_some', h.1]
    decide, by decide⟩

/-! ## `setup_client_stack`: the reservation and the mapping -/

theorem stack_space_values (a : StackArgs) (h64 : a.clstack_end < 2 ^ 64)
    (hal : (a.clstack_end + 1) % 4096 = 0) (hsz : stack_stacksize a ≤ a.clstack_end)
    (hmax : a.clstack_end + 1 - VG_PGROUNDDN (stack_client_SP a) + 4096
      < VG_PGROUNDUP a.clstack_max_size)
    (hfit : VG_PGROUNDUP a.clstack_max_size ≤ a.clstack_end + 1) :
    (stack_space a).anon_start = VG_PGROUNDDN (stack_client_SP a) - 4096 ∧
    (stack_space a).anon_size = a.clstack_end + 1 - VG_PGROUNDDN (stack_client_SP a) + 4096 ∧
    (stack_space a).resvn_start = a.clstack_end + 1 - VG_PGROUNDUP a.clstack_max_size ∧
    (stack_space a).resvn_size = VG_PGROUNDUP a.clstack_max_size
      - (a.clstack_end + 1 - VG_PGROUNDDN (stack_client_SP a)) - 4096 ∧
    VG_PGROUNDDN (stack_client_SP a) % 4096 = 0 ∧
    VG_PGROUNDUP a.clstack_max_size % 4096 = 0 ∧
    VG_PGROUNDDN (stack_client_SP a) ≤ stack_client_SP a ∧
    stack_client_SP a ≤ a.clstack_end := by
  have h := two_pow_64
  have hp := pgrounddn_facts (stack_client_SP a)
  have hM := pgroundup_le a.clstack_max_size
  have hS : stack_client_SP a ≤ a.clstack_end := by
    have hr := rounddn_16 (word_sub a.clstack_end (stack_stacksize a))
    have hs := word_sub_eq _ _ h64 hsz
    unfold stack_client_SP
    rw [hs] at hr ⊢
    omega
  unfold stack_space
  dsimp only
  rw [if_pos (by decide)]
  dsimp only
  revert hmax hfit hp hM
  generalize VG_PGROUNDDN (stack_client_SP a) = cs
  generalize VG_PGROUNDUP a.clstack_max_size = M
  intro hmax hfit hp hM
  unfold word_add word_sub VKI_PAGE_SIZE
  rw [h] at *
  refine ⟨?_, ?_, ?_, ?_, hp.1, hM.2, hp.2.1, hS⟩ <;> omega

theorem word_ops_zero (x : Nat) (h : x < 2 ^ 64) : word_sub x 0 = x ∧ word_add x 0 = x := by
  have h64 := two_pow_64
  unfold word_sub word_add
  rw [h64] at *
  omega

theorem setup_client_stack_asserts (a : StackArgs) (h64 : a.clstack_end < 2 ^ 64)
    (hal : (a.clstack_end + 1) % 4096 = 0) (hsz : stack_stacksize a ≤ a.clstack_end)
    (hmax : a.clstack_end + 1 - VG_PGROUNDDN (stack_client_SP a) + 4096
      < VG_PGROUNDUP a.clstack_max_size)
    (hfit : VG_PGROUNDUP a.clstack_max_size ≤ a.clstack_end + 1) :
    (!VG_IS_PAGE_ALIGNED (word_add a.clstack_end 1)) = false ∧
    ¬ (VG_STACK_REDZONE_SZB > 0 ∧ ¬ word_sub (stack_space a).clstack_max_size
      (word_add (word_sub a.clstack_end (stack_space a).clstack_start) 1) > VKI_PAGE_SIZE) ∧
    ¬ ¬ (VG_IS_PAGE_ALIGNED (stack_space a).anon_size ∧
      VG_IS_PAGE_ALIGNED (stack_space a).resvn_size ∧
      VG_IS_PAGE_ALIGNED (stack_space a).anon_start ∧
      VG_IS_PAGE_ALIGNED (stack_space a).resvn_start ∧
      (stack_space a).resvn_start
        = word_sub (word_add a.clstack_end 1) (stack_space a).clstack_max_size) := by
  obtain ⟨v1, v2, v3, v4, v5, v6, v7, v8⟩ := stack_space_values a h64 hal hsz hmax hfit
  have h := two_pow_64
  have hM := pgroundup_le a.clstack_max_size
  have e1 : (stack_space a).clstack_max_size = VG_PGROUNDUP a.clstack_max_size := by
    unfold stack_space
    dsimp only
    split <;> rfl
  rw [stack_space_clstack_start, e1, v1, v2, v3, v4]
  revert hmax hfit v5 v6 v7 hM
  generalize VG_PGROUNDDN (stack_client_SP a) = cs
  generalize VG_PGROUNDUP a.clstack_max_size = M
  intro hmax hfit v5 v6 v7 hM
  rw [h] at hM h64
  have hpa : ∀ x : Nat, VG_IS_PAGE_ALIGNED x = true ↔ x % 4096 = 0 := fun x => by
    simp [VG_IS_PAGE_ALIGNED, VKI_PAGE_SIZE]
  refine ⟨?_, ?_, not_not.2 ⟨(hpa _).2 ?_, (hpa _).2 ?_, (hpa _).2 ?_, (hpa _).2 ?_, ?_⟩⟩
  · rw [Bool.not_eq_false', hpa]
    unfold word_add
    rw [h]
    omega
  · rintro ⟨_, hh⟩
    apply hh
    unfold word_add word_sub VKI_PAGE_SIZE
    rw [h]
    omega
  · omega
  · omega
  · omega
  · omega
  · unfold word_add word_sub
    rw [h]
    omega

/-- C25: for `clstack_end + 1` page-aligned and a page-rounded maximum stack
size that exceeds the region from the page of `client_SP` to `clstack_end` by
more than a page and is at most `clstack_end + 1`: the reservation and the
mapping of `setup_client_stack` are page-aligned in start and size; the
reservation ends where the mapping starts; the mapping ends at `clstack_end`
and contains `client_SP`; the sizes sum to the maximum stack size; the
reservation starts at `clstack_end + 1 - max`; the mapping is one page larger,
and the reservation one page smaller, than the region from the page of
`client_SP` to `clstack_end` leaves.  These are the requests made: a manager
that refuses this reservation, or grants it and fails this mapping, makes the
function exit with status 1. -/
theorem setup_client_stack_requests (a : StackArgs) (h64 : a.clstack_end < 2 ^ 64)
    (hal : (a.clstack_end + 1) % 4096 = 0) (hsz : stack_stacksize a ≤ a.clstack_end)
    (hmax : a.clstack_end + 1 - VG_PGROUNDDN (stack_client_SP a) + 4096
      < VG_PGROUNDUP a.clstack_max_size)
    (hfit : VG_PGROUNDUP a.clstack_max_size ≤ a.clstack_end + 1) :
    ((stack_space a).anon_start % 4096 = 0 ∧ (stack_space a).anon_size % 4096 = 0 ∧
      (stack_space a).resvn_start % 4096 = 0 ∧ (stack_space a).resvn_size % 4096 = 0) ∧
    (stack_space a).resvn_start + (stack_space a).resvn_size = (stack_space a).anon_start ∧
    (stack_space a).anon_start + (stack_space a).anon_size = a.clstack_end + 1 ∧
    ((stack_space a).anon_start ≤ stack_client_SP a ∧ stack_client_SP a ≤ a.clstack_end) ∧
    (stack_space a).resvn_size + (stack_space a).anon_size
      = VG_PGROUNDUP a.clstack_max_size ∧
    (stack_space a).resvn_start = a.clstack_end + 1 - VG_PGROUNDUP a.clstack_max_size ∧
    (0 < VG_STACK_REDZONE_SZB ∧
      (stack_space a).anon_size
        = (a.clstack_end + 1 - VG_PGROUNDDN (stack_client_SP a)) + VKI_PAGE_SIZE ∧
      (stack_space a).resvn_size + VKI_PAGE_SIZE
        = VG_PGROUNDUP a.clstack_max_size
          - (a.clstack_end + 1 - VG_PGROUNDDN (stack_client_SP a))) ∧
    (∀ (σ : Type) (A : AspaceMgr σ) (am : σ),
      (A.am_create_reservation am (stack_space a).resvn_start (stack_space a).resvn_size
          .SmUpper (stack_space a).anon_size).1 = false ∨
      sr_isError (A.am_mmap_anon_fixed_client
        (A.am_create_reservation am (stack_space a).resvn_start (stack_space a).resvn_size
          .SmUpper (stack_space a).anon_size).2
        (stack_space a).anon_start (stack_space a).anon_size a.info.stack_prot).1 = true →
      stack_failure (setup_client_stack A am 0 a) = some (.Exit 1)) := by
  obtain ⟨v1, v2, v3, v4, v5, v6, v7, v8⟩ := stack_space_values a h64 hal hsz hmax hfit
  have ha := setup_client_stack_asserts a h64 hal hsz hmax hfit
  have h := two_pow_64
  have hM := pgroundup_le a.clstack_max_size
  refine ⟨?_, ?_, ?_, ?_, ?_, ?_, ?_, ?_⟩
  · rw [v1, v2, v3, v4]; omega
  · rw [v1, v3, v4]; omega
  · rw [v1, v2]; omega
  · rw [v1]; omega
  · rw [v2, v4]; omega
  · exact v3
  · rw [v2, v4]; unfold VKI_PAGE_SIZE VG_STACK_REDZONE_SZB; omega
  · intro σ A am hfail
    have z1 := word_ops_zero (stack_space a).resvn_size (by rw [v4]; omega)
    have z2 := word_ops_zero (stack_space a).anon_size (by rw [v2]; omega)
    have z3 := word_ops_zero (stack_space a).anon_start (by rw [v1]; omega)
    unfold setup_client_stack
    dsimp only
    rw [ha.1]
    simp only [Bool.false_eq_true, if_false]
    rw [if_neg ha.2.1, if_neg ha.2.2, z1.1, z2.2, z3.1]
    cases hr : (A.am_create_reservation am (stack_space a).resvn_start
        (stack_space a).resvn_size .SmUpper (stack_space a).anon_size).1 with
    | false => rfl
    | true =>
      rw [hr] at hfail
      have hm := hfail.resolve_left (by simp)
      simp only [if_true, Bool.not_true, Bool.false_or, hm]
      rfl

/-- C25 at the example arguments (stack end `0x7f7fffffffff`, maximum size
8 MB): the reservation starts at `0x7f7fff800000` and the mapping is the two
pages `[0x7f7fffffe000, 0x7f7fffffffff]`. -/
theorem setup_client_stack_requests_witness :
    (stack_args1.clstack_end < 2 ^ 64 ∧ (stack_args1.clstack_end + 1) % 4096 = 0 ∧
      stack_stacksize stack_args1 ≤ stack_args1.clstack_end ∧
      stack_args1.clstack_end + 1 - VG_PGROUNDDN (stack_client_SP stack_args1) + 4096
        < VG_PGROUNDUP stack_args1.clstack_max_size ∧
      VG_PGROUNDUP stack_args1.clstack_max_size ≤ stack_args1.clstack_end + 1) ∧
    (stack_space stack_args1).resvn_start = 0x7f7fff800000 ∧
    (stack_space stack_args1).anon_start = 0x7f7fffffe000 ∧
    (stack_space stack_args1).resvn_start + (stack_space stack_args1).resvn_size
      = (stack_space stack_args1).anon_start ∧
    (stack_space stack_args1).anon_start + (stack_space stack_args1).anon_size
      = stack_args1.clstack_end + 1 :=
  have h := setup_client_stack_requests stack_args1 (by decide) (by decide) (by decide)
    (by decide) (by decide)
  ⟨⟨by decide, by decide, by decide, by decide, by decide⟩, by decide, by decide, h.2.1, h.2.2.1⟩

/-! ## `setup_client_stack`: the layout of the stack -/

theorem create_client_stack_lengths (a : StackArgs) :
    (create_client_stack a).argv.length = stack_argc a + 1 ∧
    (create_client_stack a).envp.length = stack_envc a ∧
    (create_client_stack a).auxv_out.length = (auxv_entries a.orig_auxv).length + 1 := by
  have hs := create_client_stack_strings a
  refine ⟨?_, hs.2.2.1.length_eq, ?_⟩
  · rw [hs.2.1.length_eq]
    unfold argv_sources stack_argc
    cases a.info.interp_name <;> cases a.info.interp_args <;>
      simp only [Option.isSome_some, Option.isSome_none, Option.toList_some, Option.toList_none,
        List.length_singleton, List.length_nil, List.length_append, if_true,
        Bool.false_eq_true, if_false] <;> omega
  · have h1 := hs.2.2.2.1.length_eq
    rw [List.length_dropLast] at h1
    have h2 : (create_client_stack a).auxv_out ≠ [] := by
      intro hnil
      have := hs.2.2.2.2.2
      rw [hnil] at this
      exact Option.noConfusion this
    have h3 := List.length_pos.2 h2
    omega

theorem auxsize_foldl (l : List auxv) (init : Nat) (h : init + sizeof_auxv * l.length < 2 ^ 32) :
    l.foldl (fun sz _ => to_unsigned (sz + sizeof_auxv)) init = init + sizeof_auxv * l.length := by
  induction l generalizing init with
  | nil => simp
  | cons x xs ih =>
    rw [List.foldl_cons, List.length_cons] at *
    have e : to_unsigned (init + sizeof_auxv) = init + sizeof_auxv := by
      unfold to_unsigned
      apply Nat.mod_eq_of_lt
      unfold sizeof_auxv at *
      omega
    rw [e, ih _ (by unfold sizeof_auxv at *; omega)]
    unfold sizeof_auxv
    omega

theorem roundup_word_ge_int (n : Nat) (h : n < 2 ^ 32) :
    VG_ROUNDUP n sizeof_int ≤ VG_ROUNDUP n sizeof_Word ∧ n ≤ VG_ROUNDUP n sizeof_int ∧
    VG_ROUNDUP n sizeof_Word < n + 8 := by
  have h64 := two_pow_64
  unfold VG_ROUNDUP VG_ROUNDDN word_add sizeof_int sizeof_Word
  rw [h64]
  omega

theorem layout_arith (E W r4 r8 ss sp : Nat) (h1 : sp ≤ E - (W + 32 + r8))
    (h2 : W + 32 + r8 ≤ E) (h3 : r4 ≤ r8) (h4 : ss ≤ r4) :
    sp ≤ sp + W ∧ sp + W ≤ E - 32 - r4 ∧ E - 32 - r4 + ss ≤ E - 32 ∧ E - 32 + 32 = E := by
  omega

theorem add_strlen_lt (sz : Nat) (s : CStr) : add_strlen sz s < 2 ^ 32 := by
  unfold add_strlen to_unsigned
  exact Nat.mod_lt _ (by norm_num)

theorem foldl_add_strlen_lt (l : List CStr) (init : Nat) (h : init < 2 ^ 32) :
    l.foldl add_strlen init < 2 ^ 32 := by
  induction l generalizing init with
  | nil => exact h
  | cons x xs ih => exact ih _ (add_strlen_lt _ _)

theorem stack_stringsize_lt (a : StackArgs) : stack_stringsize a < 2 ^ 32 := by
  unfold stack_stringsize
  have h0 : stringsize_args a < 2 ^ 32 := by
    unfold stringsize_args
    exact foldl_add_strlen_lt _ _ (foldl_add_strlen_lt _ _ (add_strlen_lt _ _))
  revert h0
  generalize stringsize_args a = init
  induction auxv_entries a.orig_auxv generalizing init with
  | nil => exact fun h => h
  | cons x xs ih =>
    intro h
    rw [List.foldl_cons]
    apply ih
    split
    · exact add_strlen_lt _ _
    · exact h

/-- C28: when the 32-bit size computations do not overflow and the stack fits
below `clstack_end`, the words and the auxiliary vector stored from
`client_SP` upwards end at or below the base of the string table; the string
table `[stringbase, stringbase + stringsize)` ends at or below the trailer
record; and the trailer record ends at `clstack_end`. -/
theorem stack_layout_no_overlap (a : StackArgs) (h64 : a.clstack_end < 2 ^ 64)
    (hno : sizeof_Word * (4 + stack_argc a + stack_envc a)
      + sizeof_auxv * ((auxv_entries a.orig_auxv).length + 1) + sizeof_ps_strings
      + VG_ROUNDUP (stack_stringsize a) sizeof_Word < 2 ^ 32)
    (hsz : stack_stacksize a ≤ a.clstack_end) :
    (create_client_stack a).client_SP ≤ stack_words_end (create_client_stack a) ∧
    stack_words_end (create_client_stack a) ≤ (create_client_stack a).stringbase ∧
    (create_client_stack a).stringbase + stack_stringsize a
      ≤ (create_client_stack a).client_pss ∧
    (create_client_stack a).client_pss + sizeof_ps_strings = a.clstack_end := by
  obtain ⟨l1, l2, l3⟩ := create_client_stack_lengths a
  have h := two_pow_64
  have hr := roundup_word_ge_int (stack_stringsize a) (stack_stringsize_lt a)
  have haux : stack_auxsize a = sizeof_auxv * ((auxv_entries a.orig_auxv).length + 1) := by
    unfold stack_auxsize
    rw [auxsize_foldl _ _ (by unfold sizeof_auxv sizeof_Word sizeof_ps_strings at *; omega)]
    unfold sizeof_auxv
    omega
  have hst : stack_stacksize a = sizeof_Word * (4 + stack_argc a + stack_envc a)
      + sizeof_auxv * ((auxv_entries a.orig_auxv).length + 1) + sizeof_ps_strings
      + VG_ROUNDUP (stack_stringsize a) sizeof_Word := by
    unfold stack_stacksize to_unsigned
    rw [haux, Nat.mod_eq_of_lt (by unfold sizeof_Word at *; omega)]
    unfold sizeof_Word
    omega
  have hsp := rounddn_16 (word_sub a.clstack_end (stack_stacksize a))
  rw [word_sub_eq _ _ h64 hsz] at hsp
  have e1 : (create_client_stack a).client_SP
      = VG_ROUNDDN (a.clstack_end - stack_stacksize a) 16 := by
    show stack_client_SP a = _
    unfold stack_client_SP
    rw [word_sub_eq _ _ h64 hsz]
  have e2 : (create_client_stack a).stringbase = a.clstack_end - sizeof_ps_strings
      - VG_ROUNDUP (stack_stringsize a) sizeof_int := by
    show stack_stringbase a = _
    unfold stack_stringbase
    rw [word_sub_eq _ _ h64 (by unfold sizeof_ps_strings sizeof_Word at *; omega),
      word_sub_eq _ _ (by omega) (by unfold sizeof_ps_strings sizeof_Word at *; omega)]
  have e3 : (create_client_stack a).client_pss = a.clstack_end - sizeof_ps_strings := by
    show word_sub a.clstack_end sizeof_ps_strings = _
    rw [word_sub_eq _ _ h64 (by unfold sizeof_ps_strings sizeof_Word at *; omega)]
  have e4 : (stack_words (create_client_stack a)).length
      = 1 + (stack_argc a + 1) + 1 + stack_envc a + 1 := by
    unfold stack_words
    simp only [List.length_append, List.length_singleton, l1, l2]
  unfold stack_words_end
  rw [e1, e2, e3, e4, l3]
  have k1 : VG_ROUNDDN (a.clstack_end - stack_stacksize a) 16
      ≤ a.clstack_end - (sizeof_Word * (4 + stack_argc a + stack_envc a)
        + sizeof_auxv * ((auxv_entries a.orig_auxv).length + 1) + 32
        + VG_ROUNDUP (stack_stringsize a) sizeof_Word) :=
    le_of_le_of_eq hsp.2 (by rw [hst]; rfl)
  have k2 : sizeof_Word * (4 + stack_argc a + stack_envc a)
      + sizeof_auxv * ((auxv_entries a.orig_auxv).length + 1) + 32
      + VG_ROUNDUP (stack_stringsize a) sizeof_Word ≤ a.clstack_end := by
    rw [hst] at hsz
    exact hsz
  have key := layout_arith a.clstack_end
    (sizeof_Word * (4 + stack_argc a + stack_envc a)
      + sizeof_auxv * ((auxv_entries a.orig_auxv).length + 1))
    (VG_ROUNDUP (stack_stringsize a) sizeof_int) (VG_ROUNDUP (stack_stringsize a) sizeof_Word)
    (stack_stringsize a) (VG_ROUNDDN (a.clstack_end - stack_stacksize a) 16)
    k1 k2 hr.1 hr.2.1
  have ew : sizeof_Word * (1 + (stack_argc a + 1) + 1 + stack_envc a + 1)
      + sizeof_auxv * ((auxv_entries a.orig_auxv).length + 1)
      = sizeof_Word * (4 + stack_argc a + stack_envc a)
        + sizeof_auxv * ((auxv_entries a.orig_auxv).length + 1) := by
    unfold sizeof_Word
    omega
  rw [Nat.add_assoc, ew]
  exact key

/-- C28 at the example arguments: the words end at `0x7f7fffffffc0`, below the
string table at `0x7f7fffffffd3`, which ends below the trailer record at
`0x7f7fffffffdf`. -/
theorem stack_layout_no_overlap_witness :
    (stack_args1.clstack_end < 2 ^ 64 ∧
      sizeof_Word * (4 + stack_argc stack_args1 + stack_envc stack_args1)
        + sizeof_auxv * ((auxv_entries stack_args1.orig_auxv).length + 1) + sizeof_ps_strings
        + VG_ROUNDUP (stack_stringsize stack_args1) sizeof_Word < 2 ^ 32 ∧
      stack_stacksize stack_args1 ≤ stack_args1.clstack_end) ∧
    stack_words_end (create_client_stack stack_args1)
      ≤ (create_client_stack stack_args1).stringbase ∧
    (create_client_stack stack_args1).stringbase + stack_stringsize stack_args1
      ≤ (create_client_stack stack_args1).client_pss :=
  have h := stack_layout_no_overlap stack_args1 (by decide) (by decide) (by decide)
  ⟨⟨by decide, by decide, by decide⟩, h.2.1, h.2.2.1⟩

/-! ## `sys_break`: what a shrink zero-fills -/

section BreakShrink

variable {σ : Type}

theorem zero_fills_append (a b : List Event) :
    zero_fills (a ++ b) = zero_fills a ++ zero_fills b :=
  List.filterMap_append _ _ _

theorem discards_append (a b : List Event) : discards (a ++ b) = discards a ++ discards b :=
  List.filterMap_append _ _ _

theorem brk_shrink_upper_log (A : AspaceMgr σ) (w w1 : World σ) (n o p : Nat)
    (h : brk_shrink_upper A w n o p = .ok w1) :
    w1.am = w.am ∧ same_brk w w1 ∧ ∃ evs, w1.log = w.log ++ evs ∧
      zero_fills evs = (if p < o ∧ seg_hasW A w.am (if n < p then p else n) = true
        then [((if n < p then p else n), o - (if n < p then p else n))] else []) ∧
      discards evs = (if p < o ∧ seg_hasT A w.am (if n < p then p else n) = true
        then [((if n < p then p else n), o - (if n < p then p else n))] else []) ∧
      ∀ x, w1.mem x = if (p < o ∧ seg_hasW A w.am (if n < p then p else n) = true)
          ∧ (if n < p then p else n) ≤ x ∧ x < (if n < p then p else n)
            + (o - (if n < p then p else n))
        then 0 else w.mem x := by
  unfold brk_shrink_upper at h
  dsimp only [World.find_nsegment, World.emit, World.memset_zero] at h
  generalize (if n < p then p else n) = up at h ⊢
  by_cases hpo : o > p
  · rw [if_pos hpo] at h
    split at h
    · rename_i seg seg2 h1 h2
      split at h
      · have eW : seg_hasW A w.am up = seg.hasW := by unfold seg_hasW; rw [h1]
        have eT : seg_hasT A w.am up = seg.hasT := by unfold seg_hasT; rw [h1]
        rw [eW, eT]
        injection h with h
        subst h
        have hpo2 : p < o := hpo
        refine ⟨?_, ?_, [.find_nsegment up, .find_nsegment (o - 1)]
          ++ (if seg.hasT then [.discard_translations up (o - up)] else [])
          ++ (if seg.hasW then [.memset_zero up (o - up)] else []), ?_, ?_, ?_, ?_⟩
        · cases seg.hasT <;> cases seg.hasW <;> rfl
        · cases seg.hasT <;> cases seg.hasW <;> exact ⟨rfl, rfl, rfl⟩
        · cases seg.hasT <;> cases seg.hasW <;> simp
        · cases seg.hasT <;> cases seg.hasW <;> simp [zero_fills, hpo2]
        · cases seg.hasT <;> cases seg.hasW <;> simp [discards, hpo2]
        · intro x
          cases seg.hasT <;> cases seg.hasW <;> simp [hpo2]
      · exact Except.noConfusion h
    · exact Except.noConfusion h
  · rw [if_neg hpo] at h
    injection h with h
    subst h
    have hpo2 : ¬ p < o := hpo
    refine ⟨rfl, same_brk_refl _, [], (List.append_nil _).symm, ?_, ?_, fun _ => ?_⟩
    · rw [if_neg (fun hh => hpo2 hh.1)]
      rfl
    · rw [if_neg (fun hh => hpo2 hh.1)]
      rfl
    · rw [if_neg (fun hh => hpo2 hh.1.1)]

theorem brk_shrink_lower_log (A : AspaceMgr σ) (w w1 : World σ) (n o p : Nat)
    (h : brk_shrink_lower A w n o p = .ok w1) :
    w1.am = w.am ∧ same_brk w w1 ∧ ∃ evs, w1.log = w.log ++ evs ∧
      zero_fills evs = (if n < p ∧ seg_hasW A w.am n = true
        then [(n, (if o < p then o else p) - n)] else []) ∧
      discards evs = (if n < p ∧ seg_hasT A w.am n = true
        then [(n, (if o < p then o else p) - n)] else []) ∧
      ∀ x, w1.mem x = if (n < p ∧ seg_hasW A w.am n = true)
          ∧ n ≤ x ∧ x < n + ((if o < p then o else p) - n)
        then 0 else w.mem x := by
  unfold brk_shrink_lower at h
  dsimp only [World.find_nsegment, World.emit, World.memset_zero] at h
  generalize (if o < p then o else p) = lo at h ⊢
  by_cases hnp : n < p
  · rw [if_pos hnp] at h
    split at h
    · rename_i seg seg2 h1 h2
      split at h
      · have eW : seg_hasW A w.am n = seg.hasW := by unfold seg_hasW; rw [h1]
        have eT : seg_hasT A w.am n = seg.hasT := by unfold seg_hasT; rw [h1]
        rw [eW, eT]
        injection h with h
        subst h
        refine ⟨?_, ?_, [.find_nsegment n, .find_nsegment (lo - 1)]
          ++ (if seg.hasT then [.discard_translations n (lo - n)] else [])
          ++ (if seg.hasW then [.memset_zero n (lo - n)] else []), ?_, ?_, ?_, ?_⟩
        · cases seg.hasT <;> cases seg.hasW <;> rfl
        · cases seg.hasT <;> cases seg.hasW <;> exact ⟨rfl, rfl, rfl⟩
        · cases seg.hasT <;> cases seg.hasW <;> simp
        · cases seg.hasT <;> cases seg.hasW <;> simp [zero_fills, hnp]
        · cases seg.hasT <;> cases seg.hasW <;> simp [discards, hnp]
        · intro x
          cases seg.hasT <;> cases seg.hasW <;> simp [hnp]
      · exact Except.noConfusion h
    · exact Except.noConfusion h
  · rw [if_neg hnp] at h
    injection h with h
    subst h
    refine ⟨rfl, same_brk_refl _, [], (List.append_nil _).symm, ?_, ?_, fun _ => ?_⟩
    · rw [if_neg (fun hh => hnp hh.1)]
      rfl
    · rw [if_neg (fun hh => hnp hh.1)]
      rfl
    · rw [if_neg (fun hh => hnp hh.1.1)]

theorem sys_break_shrink_inv (A : AspaceMgr σ) (tid : Nat) (w : World σ) (n res : Nat)
    (hlt : n < w.brk_limit) (h : (sys_break A tid w n).2 = .Success res) :
    ∃ wa wb, brk_shrink_upper A w n w.brk_limit (VG_PGROUNDUP w.brk_base) = .ok wa ∧
      brk_shrink_lower A wa n w.brk_limit (VG_PGROUNDUP w.brk_base) = .ok wb ∧
      sys_break A tid w n
        = (({ wb with brk_limit := n }).emit (.die_mem_brk n (w.brk_limit - n)), .Success 0) := by
  unfold sys_break at h ⊢
  dsimp only at h ⊢
  have h1 : ¬ n = w.brk_limit := by omega
  rw [if_neg h1] at h ⊢
  by_cases h2 : n < w.brk_base
  · rw [if_pos h2] at h; exact Status.noConfusion h
  rw [if_neg h2] at h ⊢
  by_cases h3 : n - w.brk_base > w.rlim_data_cur
  · rw [if_pos h3] at h; exact Status.noConfusion h
  rw [if_neg h3] at h ⊢
  by_cases h4 : w.brk_base = 2 ^ 64 - 1 ∨ w.brk_limit = 2 ^ 64 - 1
  · rw [if_pos h4] at h; exact Status.noConfusion h
  rw [if_neg h4, if_pos hlt] at h ⊢
  cases r1 : brk_shrink_upper A w n w.brk_limit (VG_PGROUNDUP w.brk_base) with
  | error e => rw [r1] at h; exact Status.noConfusion h
  | ok wa =>
    rw [r1] at h
    dsimp only at h ⊢
    cases r2 : brk_shrink_lower A wa n w.brk_limit (VG_PGROUNDUP w.brk_base) with
    | error e => rw [r2] at h; exact Status.noConfusion h
    | ok wb => exact ⟨wa, wb, rfl, r2, rfl⟩

theorem shrink_ranges_partition (n o p x : Nat) (hno : n < o) :
    ((p < o ∧ (shrink_upper_range n o p).1 ≤ x
        ∧ x < (shrink_upper_range n o p).1 + (shrink_upper_range n o p).2) ∨
      (n < p ∧ (shrink_lower_range n o p).1 ≤ x
        ∧ x < (shrink_lower_range n o p).1 + (shrink_lower_range n o p).2)
      ↔ n ≤ x ∧ x < o) ∧
    ¬ ((p < o ∧ (shrink_upper_range n o p).1 ≤ x
        ∧ x < (shrink_upper_range n o p).1 + (shrink_upper_range n o p).2) ∧
      (n < p ∧ (shrink_lower_range n o p).1 ≤ x
        ∧ x < (shrink_lower_range n o p).1 + (shrink_lower_range n o p).2)) := by
  unfold shrink_upper_range shrink_lower_range
  dsimp only
  constructor
  · constructor
    · rintro (⟨h1, h2, h3⟩ | ⟨h1, h2, h3⟩)
      · split at h2 <;> split at h3 <;> omega
      · split at h3 <;> omega
    · intro h
      by_cases hp : x < p
      · right
        refine ⟨by omega, h.1, ?_⟩
        split <;> omega
      · left
        refine ⟨by omega, ?_, ?_⟩ <;> split <;> omega
  · rintro ⟨⟨h1, h2, h3⟩, h4, h5, h6⟩
    split at h2 <;> split at h6 <;> omega

theorem two_fills_mem (cu cl : Prop) [Decidable cu] [Decidable cl] (c : Nat) :
    (if cl then 0 else if cu then 0 else c) = if cu ∨ cl then 0 else c := by
  by_cases h1 : cu <;> by_cases h2 : cl <;> simp [h1, h2]

/-- C22: a successful shrink from `brk_limit` to `new_brk` zero-fills the
part of `[new_brk, brk_limit)` at or above the page-rounded `brk_base` if the
segment there is writable, and the part below it if the segment there is
writable, and nothing else; it discards translations over the same two parts,
each if its segment has translations.  The two parts are disjoint and
together are `[new_brk, brk_limit)`; so when the segments are writable the
bytes zero-filled are exactly that range, and memory elsewhere is as it
was. -/
theorem sys_break_shrink_zero_fill (A : AspaceMgr σ) (tid : Nat) (w : World σ) (n res : Nat)
    (hlt : n < w.brk_limit) (hs : (sys_break A tid w n).2 = .Success res) :
    ∃ new, (sys_break A tid w n).1.log = w.log ++ new ∧
      zero_fills new =
        (if VG_PGROUNDUP w.brk_base < w.brk_limit ∧ seg_hasW A w.am
            (shrink_upper_range n w.brk_limit (VG_PGROUNDUP w.brk_base)).1 = true
          then [shrink_upper_range n w.brk_limit (VG_PGROUNDUP w.brk_base)] else [])
        ++ (if n < VG_PGROUNDUP w.brk_base ∧ seg_hasW A w.am n = true
          then [shrink_lower_range n w.brk_limit (VG_PGROUNDUP w.brk_base)] else []) ∧
      discards new =
        (if VG_PGROUNDUP w.brk_base < w.brk_limit ∧ seg_hasT A w.am
            (shrink_upper_range n w.brk_limit (VG_PGROUNDUP w.brk_base)).1 = true
          then [shrink_upper_range n w.brk_limit (VG_PGROUNDUP w.brk_base)] else [])
        ++ (if n < VG_PGROUNDUP w.brk_base ∧ seg_hasT A w.am n = true
          then [shrink_lower_range n w.brk_limit (VG_PGROUNDUP w.brk_base)] else []) ∧
      (∀ x, (in_ranges (zero_fills new) x → (sys_break A tid w n).1.mem x = 0) ∧
        (¬ in_ranges (zero_fills new) x → (sys_break A tid w n).1.mem x = w.mem x)) ∧
      (∀ x, (in_ranges (zero_fills new) x → n ≤ x ∧ x < w.brk_limit) ∧
        ¬ ((VG_PGROUNDUP w.brk_base < w.brk_limit ∧
            (shrink_upper_range n w.brk_limit (VG_PGROUNDUP w.brk_base)).1 ≤ x ∧
            x < (shrink_upper_range n w.brk_limit (VG_PGROUNDUP w.brk_base)).1
              + (shrink_upper_range n w.brk_limit (VG_PGROUNDUP w.brk_base)).2) ∧
          (n < VG_PGROUNDUP w.brk_base ∧
            (shrink_lower_range n w.brk_limit (VG_PGROUNDUP w.brk_base)).1 ≤ x ∧
            x < (shrink_lower_range n w.brk_limit (VG_PGROUNDUP w.brk_base)).1
              + (shrink_lower_range n w.brk_limit (VG_PGROUNDUP w.brk_base)).2))) ∧
      ((VG_PGROUNDUP w.brk_base < w.brk_limit → seg_hasW A w.am
          (shrink_upper_range n w.brk_limit (VG_PGROUNDUP w.brk_base)).1 = true) →
        (n < VG_PGROUNDUP w.brk_base → seg_hasW A w.am n = true) →
        ∀ x, (in_ranges (zero_fills new) x ↔ n ≤ x ∧ x < w.brk_limit) ∧
          (sys_break A tid w n).1.mem x
            = if n ≤ x ∧ x < w.brk_limit then 0 else w.mem x) := by
  obtain ⟨wa, wb, hu, hl, hr⟩ := sys_break_shrink_inv A tid w n res hlt hs
  obtain ⟨ua, _, e1, ul, uz, ud, um⟩ := brk_shrink_upper_log A w wa _ _ _ hu
  obtain ⟨la, _, e2, ll, lz, ld, lm⟩ := brk_shrink_lower_log A wa wb _ _ _ hl
  rw [ua] at lz ld lm
  rw [hr]
  generalize hp : VG_PGROUNDUP w.brk_base = p at *
  generalize ho : w.brk_limit = o at *
  have hz : zero_fills (e1 ++ e2 ++ [Event.die_mem_brk n (o - n)])
      = (if p < o ∧ seg_hasW A w.am (shrink_upper_range n o p).1 = true
          then [shrink_upper_range n o p] else [])
        ++ (if n < p ∧ seg_hasW A w.am n = true then [shrink_lower_range n o p] else []) := by
    rw [zero_fills_append, zero_fills_append, uz, lz]
    exact List.append_nil _
  have hmem : ∀ x, wb.mem x =
      if ((p < o ∧ seg_hasW A w.am (shrink_upper_range n o p).1 = true) ∧
          (shrink_upper_range n o p).1 ≤ x
          ∧ x < (shrink_upper_range n o p).1 + (shrink_upper_range n o p).2) ∨
        ((n < p ∧ seg_hasW A w.am n = true) ∧ (shrink_lower_range n o p).1 ≤ x
          ∧ x < (shrink_lower_range n o p).1 + (shrink_lower_range n o p).2)
      then 0 else w.mem x := by
    intro x
    rw [lm x, um x]
    exact two_fills_mem _ _ _
  have hin : ∀ x, in_ranges (zero_fills (e1 ++ e2 ++ [Event.die_mem_brk n (o - n)])) x ↔
      ((p < o ∧ seg_hasW A w.am (shrink_upper_range n o p).1 = true) ∧
          (shrink_upper_range n o p).1 ≤ x
          ∧ x < (shrink_upper_range n o p).1 + (shrink_upper_range n o p).2) ∨
        ((n < p ∧ seg_hasW A w.am n = true) ∧ (shrink_lower_range n o p).1 ≤ x
          ∧ x < (shrink_lower_range n o p).1 + (shrink_lower_range n o p).2) := by
    intro x
    rw [hz]
    unfold in_ranges
    by_cases c1 : p < o ∧ seg_hasW A w.am (shrink_upper_range n o p).1 = true <;>
      by_cases c2 : n < p ∧ seg_hasW A w.am n = true <;>
      simp [c1, c2]
  refine ⟨e1 ++ e2 ++ [Event.die_mem_brk n (o - n)], ?_, hz, ?_, ?_, ?_, ?_⟩
  · show wb.log ++ _ = _
    rw [ll, ul, List.append_assoc, List.append_assoc, List.append_assoc]
  · rw [discards_append, discards_append, ud, ld]
    exact List.append_nil _
  · intro x
    refine ⟨fun h => ?_, fun h => ?_⟩
    · show wb.mem x = 0
      rw [hmem x, if_pos ((hin x).1 h)]
    · show wb.mem x = w.mem x
      rw [hmem x, if_neg (fun hh => h ((hin x).2 hh))]
  · intro x
    have hpart := shrink_ranges_partition n o p x hlt
    refine ⟨fun h => hpart.1.1 ?_, hpart.2⟩
    rcases (hin x).1 h with ⟨⟨a, _⟩, b⟩ | ⟨⟨a, _⟩, b⟩
    · exact Or.inl ⟨a, b⟩
    · exact Or.inr ⟨a, b⟩
  · intro hW1 hW2 x
    have hpart := shrink_ranges_partition n o p x hlt
    have hiff : in_ranges (zero_fills (e1 ++ e2 ++ [Event.die_mem_brk n (o - n)])) x
        ↔ n ≤ x ∧ x < o := by
      rw [hin x, ← hpart.1]
      constructor
      · rintro (⟨⟨a, _⟩, b⟩ | ⟨⟨a, _⟩, b⟩)
        · exact Or.inl ⟨a, b⟩
        · exact Or.inr ⟨a, b⟩
      · rintro (⟨a, b⟩ | ⟨a, b⟩)
        · exact Or.inl ⟨⟨a, hW1 a⟩, b⟩
        · exact Or.inr ⟨⟨a, hW2 a⟩, b⟩
    refine ⟨hiff, ?_⟩
    show wb.mem x = _
    rw [hmem x]
    by_cases hx : n ≤ x ∧ x < o
    · rw [if_pos hx, if_pos ((hin x).1 (hiff.2 hx))]
    · rw [if_neg hx, if_neg (fun hh => hx (hiff.1 ((hin x).2 hh)))]

end BreakShrink

/-- C22 at `toy_world` (`brk_base = 0x1800`, break at `0x3000`) over the
writable example manager, for a shrink to `0x1900`: the calls zero-fill
`[0x2000, 0x3000)` and `[0x1900, 0x2000)`, and afterwards exactly the bytes
of `[0x1900, 0x3000)` are zero. -/
theorem sys_break_shrink_zero_fill_witness :
    (0x1900 < toy_world.brk_limit ∧
      (sys_break (toyAM true) 1 toy_world 0x1900).2 = .Success 0) ∧
    zero_fills (sys_break (toyAM true) 1 toy_world 0x1900).1.log
      = [(0x2000, 0x1000), (0x1900, 0x700)] ∧
    ∀ x, (sys_break (toyAM true) 1 toy_world 0x1900).1.mem x
      = if 0x1900 ≤ x ∧ x < 0x3000 then 0 else 0xAA := by
  obtain ⟨_, _, _, _, _, _, hw⟩ :=
    sys_break_shrink_zero_fill (toyAM true) 1 toy_world 0x1900 0 (by decide) (by decide)
  exact ⟨⟨by decide, by decide⟩, by decide,
    fun x => (hw (fun _ => by decide) (fun _ => by decide) x).2⟩

/-! ## `sys_break`: a grow that cannot map -/

section BreakGrowFail

variable {σ : Type}

theorem brk_grow_lower_log (A : AspaceMgr σ) (w wa : World σ) (n o p : Nat)
    (h : brk_grow_lower A w n o p = .ok wa) :
    wa = { w with log := w.log ++ (if o < p then
      [.find_nsegment o, .find_nsegment ((if n < p then n else p) - 1)] else []) } := by
  unfold brk_grow_lower at h
  dsimp only [World.find_nsegment, World.emit] at h
  by_cases hop : o < p
  · rw [if_pos hop] at h ⊢
    split at h
    · split at h
      · injection h with h
        subst h
        simp
      · exact Except.noConfusion h
    · exact Except.noConfusion h
  · rw [if_neg hop] at h ⊢
    injection h with h
    subst h
    simp

theorem all_lookups_grow (n o p : Nat) (seg : NSegment) :
    ∀ e ∈ grow_lookups n o p seg, is_lookup e = true := by
  intro e he
  unfold grow_lookups at he
  split at he
  · simp only [List.cons_append, List.nil_append, List.mem_cons, List.mem_singleton,
      List.not_mem_nil, or_false] at he
    rcases he with h | h | h | h <;> subst h <;> rfl
  · simp only [List.nil_append, List.mem_cons, List.mem_singleton, List.not_mem_nil,
      or_false] at he
    rcases he with h | h <;> subst h <;> rfl

theorem brk_grow_map_fail (A : AspaceMgr σ) (w : World σ) (n p : Nat) (seg : NSegment)
    (hal : VG_IS_PAGE_ALIGNED (grow_anon_size n seg) ∧ VG_IS_PAGE_ALIGNED VKI_PAGE_SIZE ∧
      VG_IS_PAGE_ALIGNED (word_add seg.end_ 1) ∧ VG_IS_PAGE_ALIGNED (VG_PGROUNDUP n) ∧
      grow_anon_size n seg > 0) :
    ((A.am_create_reservation w.am (VG_PGROUNDUP n) VKI_PAGE_SIZE .SmLower
        (grow_anon_size n seg)).1 = false →
      brk_grow_map A w n p seg = .error ({ w with
        am := (A.am_create_reservation w.am (VG_PGROUNDUP n) VKI_PAGE_SIZE .SmLower
          (grow_anon_size n seg)).2,
        log := w.log ++ [.create_reservation (VG_PGROUNDUP n) VKI_PAGE_SIZE .SmLower
          (grow_anon_size n seg), .umsg] }, .Failure VKI_ENOMEM)) ∧
    ((A.am_create_reservation w.am (VG_PGROUNDUP n) VKI_PAGE_SIZE .SmLower
        (grow_anon_size n seg)).1 = true →
      sr_isError (A.am_mmap_anon_fixed_client
        (A.am_create_reservation w.am (VG_PGROUNDUP n) VKI_PAGE_SIZE .SmLower
          (grow_anon_size n seg)).2
        (word_add seg.end_ 1) (grow_anon_size n seg) (seg_prot seg)).1 = true →
      brk_grow_map A w n p seg = .error ({ w with
        am := (A.am_mmap_anon_fixed_client
          (A.am_create_reservation w.am (VG_PGROUNDUP n) VKI_PAGE_SIZE .SmLower
            (grow_anon_size n seg)).2
          (word_add seg.end_ 1) (grow_anon_size n seg) (seg_prot seg)).2,
        log := w.log ++ [.create_reservation (VG_PGROUNDUP n) VKI_PAGE_SIZE .SmLower
          (grow_anon_size n seg),
          .mmap_anon_fixed_client (word_add seg.end_ 1) (grow_anon_size n seg) (seg_prot seg),
          .umsg] }, .Failure VKI_ENOMEM)) := by
  unfold grow_anon_size at *
  constructor
  · intro hc
    unfold brk_grow_map
    dsimp only [World.create_reservation, World.emit]
    rw [if_pos hal, hc]
    simp
  · intro hc hm
    unfold brk_grow_map
    dsimp only [World.create_reservation, World.emit, World.mmap_anon_fixed_client]
    rw [if_pos hal, hc]
    simp only [Bool.not_true, Bool.false_eq_true, if_false]
    generalize A.am_mmap_anon_fixed_client _ _ _ _ = mm at hm ⊢
    obtain ⟨m1, m2⟩ := mm
    cases m1 with
    | Res v => cases hm
    | Error e => simp

theorem sys_break_reaches_map (A : AspaceMgr σ) (tid : Nat) (w : World σ) (n : Nat)
    (seg seg2 : NSegment) (h : grow_needs_mapping A w n seg seg2) (r : World σ × Status)
    (hr : brk_grow_map A
      { w with log := w.log ++ grow_lookups n w.brk_limit (VG_PGROUNDUP w.brk_base) seg }
      n (VG_PGROUNDUP w.brk_base) seg = .error r) :
    sys_break A tid w n = r := by
  obtain ⟨⟨h1, h2, h3, h4, h5⟩, ⟨wa, hlow⟩, hp, ⟨hseg, hkind⟩, ⟨hnext, hk2, hadj, hsize⟩,
    hbeyond, hal⟩ := h
  have hwa := brk_grow_lower_log A w wa _ _ _ hlow
  unfold sys_break
  dsimp only
  rw [if_neg (by omega), if_neg (by omega), if_neg (by omega),
    if_neg (by rintro (hh | hh) <;> contradiction), if_neg (by omega), hlow]
  dsimp only
  subst hwa
  unfold brk_grow_upper
  dsimp only [World.find_nsegment, World.next_nsegment, World.emit]
  rw [if_pos hp]
  unfold grow_lookups at hr
  generalize (if w.brk_limit < VG_PGROUNDUP w.brk_base then VG_PGROUNDUP w.brk_base
    else w.brk_limit) = L at hseg hr ⊢
  generalize (if w.brk_limit < VG_PGROUNDUP w.brk_base then
      [Event.find_nsegment w.brk_limit,
       Event.find_nsegment ((if n < VG_PGROUNDUP w.brk_base then n
         else VG_PGROUNDUP w.brk_base) - 1)] else []) = low at hr ⊢
  have hf : (if L > VG_PGROUNDUP w.brk_base
      then (A.am_find_nsegment w.am (L - 1),
        ({ w with log := w.log ++ low ++ [Event.find_nsegment (L - 1)] } : World σ))
      else (A.am_find_nsegment w.am L,
        ({ w with log := w.log ++ low ++ [Event.find_nsegment L] } : World σ)))
      = (some seg, { w with log := w.log ++ low
          ++ [Event.find_nsegment (if L > VG_PGROUNDUP w.brk_base then L - 1 else L)] }) := by
    rw [← hseg]
    split <;> rfl
  rw [hf]
  dsimp only
  rw [if_pos hkind, hnext]
  dsimp only
  rw [if_pos ⟨hk2, hadj, hsize⟩, if_neg hbeyond]
  have hw : ({ w with log := w.log ++ low
        ++ [Event.find_nsegment (if L > VG_PGROUNDUP w.brk_base then L - 1 else L)]
        ++ [Event.next_nsegment seg] } : World σ)
      = { w with log := w.log ++ (low
        ++ [Event.find_nsegment (if L > VG_PGROUNDUP w.brk_base then L - 1 else L),
            Event.next_nsegment seg]) } := by
    simp
  rw [hw, hr]

/-- C23: for a grow request that needs new memory mapped, if the new
reservation is refused, or is granted and the mapping then fails,
`sys_break` fails with `ENOMEM` and leaves `brk_limit` as it was; what it did
is a run of lookups, the reservation request, the mapping request if the
reservation was granted, and a message to the user: nothing after the request
that failed but the message, and no notification to the tool. -/
theorem sys_break_grow_enomem (A : AspaceMgr σ) (tid : Nat) (w : World σ) (n : Nat)
    (seg seg2 : NSegment) (h : grow_needs_mapping A w n seg seg2)
    (hfail : (A.am_create_reservation w.am (VG_PGROUNDUP n) VKI_PAGE_SIZE .SmLower
        (grow_anon_size n seg)).1 = false ∨
      ((A.am_create_reservation w.am (VG_PGROUNDUP n) VKI_PAGE_SIZE .SmLower
        (grow_anon_size n seg)).1 = true ∧
      sr_isError (A.am_mmap_anon_fixed_client
        (A.am_create_reservation w.am (VG_PGROUNDUP n) VKI_PAGE_SIZE .SmLower
          (grow_anon_size n seg)).2
        (word_add seg.end_ 1) (grow_anon_size n seg) (seg_prot seg)).1 = true)) :
    (sys_break A tid w n).2 = .Failure VKI_ENOMEM ∧
    (sys_break A tid w n).1.brk_limit = w.brk_limit ∧
    (∀ e ∈ grow_lookups n w.brk_limit (VG_PGROUNDUP w.brk_base) seg, is_lookup e = true) ∧
    (sys_break A tid w n).1.log
      = w.log ++ grow_lookups n w.brk_limit (VG_PGROUNDUP w.brk_base) seg
        ++ [.create_reservation (VG_PGROUNDUP n) VKI_PAGE_SIZE .SmLower (grow_anon_size n seg)]
        ++ (if (A.am_create_reservation w.am (VG_PGROUNDUP n) VKI_PAGE_SIZE .SmLower
              (grow_anon_size n seg)).1 = true
            then [.mmap_anon_fixed_client (word_add seg.end_ 1) (grow_anon_size n seg)
              (seg_prot seg)]
            else [])
        ++ [.umsg] := by
  have hal := h.2.2.2.2.2.2
  have hm := brk_grow_map_fail A
    { w with log := w.log ++ grow_lookups n w.brk_limit (VG_PGROUNDUP w.brk_base) seg }
    n (VG_PGROUNDUP w.brk_base) seg hal
  rcases hfail with hc | ⟨hc, hmm⟩
  · have e := sys_break_reaches_map A tid w n seg seg2 h _ (hm.1 hc)
    refine ⟨by rw [e], by rw [e], all_lookups_grow _ _ _ _, ?_⟩
    rw [e, if_neg (by rw [hc]; exact Bool.false_ne_true)]
    simp
  · have e := sys_break_reaches_map A tid w n seg seg2 h _ (hm.2 hc hmm)
    refine ⟨by rw [e], by rw [e], all_lookups_grow _ _ _ _, ?_⟩
    rw [e, if_pos hc]
    simp

/-- C24, as amended: when the new reservation is granted and the mapping then
fails, `sys_break` fails with `ENOMEM` and `brk_base`, `brk_limit`, the data
limit and client memory are as before the call; the state of the
address-space manager is the one that the granted reservation and the failed
mapping request left. -/
theorem sys_break_unmapped_state (A : AspaceMgr σ) (tid : Nat) (w : World σ) (n : Nat)
    (seg seg2 : NSegment) (h : grow_needs_mapping A w n seg seg2)
    (hgranted : (A.am_create_reservation w.am (VG_PGROUNDUP n) VKI_PAGE_SIZE .SmLower
        (grow_anon_size n seg)).1 = true)
    (hmap : sr_isError (A.am_mmap_anon_fixed_client
        (A.am_create_reservation w.am (VG_PGROUNDUP n) VKI_PAGE_SIZE .SmLower
          (grow_anon_size n seg)).2
        (word_add seg.end_ 1) (grow_anon_size n seg) (seg_prot seg)).1 = true) :
    (sys_break A tid w n).2 = .Failure VKI_ENOMEM ∧
    (sys_break A tid w n).1.brk_base = w.brk_base ∧
    (sys_break A tid w n).1.brk_limit = w.brk_limit ∧
    (sys_break A tid w n).1.rlim_data_cur = w.rlim_data_cur ∧
    (sys_break A tid w n).1.mem = w.mem ∧
    (sys_break A tid w n).1.am
      = (A.am_mmap_anon_fixed_client
          (A.am_create_reservation w.am (VG_PGROUNDUP n) VKI_PAGE_SIZE .SmLower
            (grow_anon_size n seg)).2
          (word_add seg.end_ 1) (grow_anon_size n seg) (seg_prot seg)).2 := by
  have hal := h.2.2.2.2.2.2
  have hm := brk_grow_map_fail A
    { w with log := w.log ++ grow_lookups n w.brk_limit (VG_PGROUNDUP w.brk_base) seg }
    n (VG_PGROUNDUP w.brk_base) seg hal
  rw [sys_break_reaches_map A tid w n seg seg2 h _ (hm.2 hgranted hmap)]
  exact ⟨rfl, rfl, rfl, rfl, rfl, rfl⟩

end BreakGrowFail

theorem toy_needs_mapping :
    grow_needs_mapping (toyAM true) toy_world 0x103000
      { kind := .SkAnonC, start := 0x2000, end_ := 0x101fff,
        hasR := true, hasW := true, hasX := false, hasT := false }
      { kind := .SkResvn, start := 0x102000, end_ := 0x102fff,
        hasR := false, hasW := false, hasX := false, hasT := false } :=
  ⟨⟨by decide, by decide, by decide, by decide, by decide⟩, ⟨_, rfl⟩, by decide,
    ⟨by decide, rfl⟩, ⟨by decide, rfl, by decide, by decide⟩,
    by decide, by decide, by decide, by decide, by decide, by decide⟩

theorem rec_needs_mapping :
    grow_needs_mapping (recAM true) rec_world 0x103000
      { kind := .SkAnonC, start := 0x2000, end_ := 0x101fff,
        hasR := true, hasW := true, hasX := false, hasT := false }
      { kind := .SkResvn, start := 0x102000, end_ := 0x102fff,
        hasR := false, hasW := false, hasX := false, hasT := false } :=
  ⟨⟨by decide, by decide, by decide, by decide, by decide⟩, ⟨_, rfl⟩, by decide,
    ⟨by decide, rfl⟩, ⟨by decide, rfl, by decide, by decide⟩,
    by decide, by decide, by decide, by decide, by decide, by decide⟩

/-- C23 at `toy_world` over the example manager, which refuses every request:
growing the break to `0x103000`, beyond the reservation at `0x102000`, fails
with `ENOMEM`; the last things done are the reservation request and the
message. -/
theorem sys_break_grow_enomem_witness :
    (sys_break (toyAM true) 1 toy_world 0x103000).2 = .Failure VKI_ENOMEM ∧
    (sys_break (toyAM true) 1 toy_world 0x103000).1.brk_limit = 0x3000 ∧
    (sys_break (toyAM true) 1 toy_world 0x103000).1.log
      = [.find_nsegment 0x2fff,
         .next_nsegment
           { kind := .SkAnonC, start := 0x2000, end_ := 0x101fff,
             hasR := true, hasW := true, hasX := false, hasT := false },
         .create_reservation 0x103000 4096 .SmLower 0x1000, .umsg] :=
  have h := sys_break_grow_enomem (toyAM true) 1 toy_world 0x103000 _ _
    toy_needs_mapping (Or.inl rfl)
  ⟨h.1, h.2.1, by decide⟩

/-- C24 at `rec_world` over the recording manager, which grants the
reservation and fails the mapping: the call fails with `ENOMEM` and the break
is unchanged. -/
theorem sys_break_unmapped_state_witness :
    (sys_break (recAM true) 1 rec_world 0x103000).2 = .Failure VKI_ENOMEM ∧
    (sys_break (recAM true) 1 rec_world 0x103000).1.brk_limit = rec_world.brk_limit ∧
    (sys_break (recAM true) 1 rec_world 0x103000).1.brk_base = rec_world.brk_base :=
  have h := sys_break_unmapped_state (recAM true) 1 rec_world 0x103000 _ _
    rec_needs_mapping rfl rfl
  ⟨h.1, h.2.2.1, h.2.1⟩

/-- C24 as stated fails: over the recording manager the failed call leaves the
reservation it was granted.  Before the call no segment contains `0x103000`;
after it that address is in a reservation, although the call failed with
`ENOMEM`. -/
theorem sys_break_failed_grow_keeps_reservation :
    (sys_break (recAM true) 1 rec_world 0x103000).2 = .Failure VKI_ENOMEM ∧
    (recAM true).am_find_nsegment rec_world.am 0x103000 = none ∧
    (recAM true).am_find_nsegment (sys_break (recAM true) 1 rec_world 0x103000).1.am 0x103000
      = some { kind := .SkResvn, start := 0x103000, end_ := 0x103fff,
               hasR := false, hasW := false, hasX := false, hasT := false } ∧
    (sys_break (recAM true) 1 rec_world 0x103000).1.am ≠ rec_world.am := by
  decide

end Valgrind
